import Mathlib

/-!
# FloodingLocQuerier

A shallow embedding of `elements/grid/floodinglocquerier.cc`: the location cache
(`_map`), the per-origin flood sequence table (`_query_seqs`), the two counters and the
five operations `send_query_for`, `handle_nbr_encap`, `handle_reply`, `handle_query`
and `expire_hook`, followed by theorems about them.

Conventions of the embedding.

* A packet is a record of the header fields the element reads or writes.  A numeric
  field holds the host-order value of the wire field, so `ntohl`/`ntohs`/`htons` on a
  field that is copied are not separate steps; where a wider value is narrowed to a wire
  field (`htonl(_loc_queries)`) the reduction modulo `2^32` is explicit.
* Output pushes, `Packet::kill` calls and the timer rescheduling are recorded, in program
  order, in the `log` component of the state.
* `click_chatter` diagnostics are not recorded.
* `uniqueify` yields a writable packet with the same contents.
* The declarations of `floodinglocquerier.hh`, `grid.hh` and the Click library are not
  part of the sources at hand.  The constants they define are fields of `Config`; the two
  counters `_loc_queries` and `_pkts_killed` are natural numbers; the memory returned by
  `new LocEntry`, of which the element only assigns `ip`, `ok`, `polling`, `p` and
  `next`, is the argument `fresh`.
-/

namespace FloodingLocQuerier

/-- An IP address, given by its four octets `data()[0]` .. `data()[3]`. -/
structure IPAddress where
  o0 : Nat
  o1 : Nat
  o2 : Nat
  o3 : Nat
deriving DecidableEq, Repr

/-- The octet `data()[i]` of an address. -/
def IPAddress.data (a : IPAddress) (i : Nat) : Nat :=
  match i with
  | 0 => a.o0
  | 1 => a.o1
  | 2 => a.o2
  | _ => a.o3

/-- The all-zero address (the contents of zeroed memory). -/
def IPAddress.zero : IPAddress := ⟨0, 0, 0, 0⟩

/-- A Grid location: a pair of coordinates. -/
structure grid_location where
  lat : Int
  lon : Int
deriving DecidableEq, Repr

/-- The Ethernet header fields written by `send_query_for`. -/
structure click_ether where
  ether_dhost : List Nat
  ether_shost : List Nat
  ether_type : Nat
deriving DecidableEq, Repr

/-- The fields of the Grid header used by the element. -/
structure grid_hdr where
  hdr_len : Nat
  type : Nat
  ip : IPAddress
  tx_ip : IPAddress
  total_len : Nat
  loc : grid_location
  loc_err : Nat
  loc_good : Bool
  loc_seq_no : Nat
deriving DecidableEq, Repr

/-- The `grid_nbr_encap` body that follows the Grid header in data packets and replies. -/
structure grid_nbr_encap where
  dst_ip : IPAddress
  dst_loc : grid_location
  dst_loc_err : Nat
  dst_loc_good : Bool
deriving DecidableEq, Repr

/-- The `grid_loc_query` body that follows the Grid header in queries. -/
structure grid_loc_query where
  dst_ip : IPAddress
  seq_no : Nat
deriving DecidableEq, Repr

/-- A packet: its length, headers, the destination-address annotation, and `rest`, which
stands for all bytes the element never looks at.  `nb` and `lq` are the two readings of
the bytes after the Grid header; a packet is handled through one of them only. -/
structure Packet where
  length : Nat
  ether : click_ether
  gh : grid_hdr
  nb : grid_nbr_encap
  lq : grid_loc_query
  dst_ip_anno : IPAddress
  rest : Nat
deriving DecidableEq, Repr

/-- The packet `Packet::make(len)` after `memset(q->data(), 0, q->length())`. -/
def Packet.zeroed (len : Nat) : Packet :=
  { length := len
    ether := { ether_dhost := [0, 0, 0, 0, 0, 0], ether_shost := [0, 0, 0, 0, 0, 0],
               ether_type := 0 }
    gh := { hdr_len := 0, type := 0, ip := IPAddress.zero, tx_ip := IPAddress.zero,
            total_len := 0, loc := ⟨0, 0⟩, loc_err := 0, loc_good := false, loc_seq_no := 0 }
    nb := { dst_ip := IPAddress.zero, dst_loc := ⟨0, 0⟩, dst_loc_err := 0,
            dst_loc_good := false }
    lq := { dst_ip := IPAddress.zero, seq_no := 0 }
    dst_ip_anno := IPAddress.zero
    rest := 0 }

/-- Modelled from the spec: `Packet::uniqueify` (the packet class is not among the sources),
the "copy before mutate" step; it yields a writable packet with the same contents. -/
def Packet.uniqueify (p : Packet) : Packet := p

/-- One entry of the location table (`struct LocEntry`); the `next` link is the tail of
the list the entry sits in. -/
structure LocEntry where
  ip : IPAddress
  loc : grid_location
  loc_err : Nat
  loc_good : Bool
  loc_seq_no : Nat
  ok : Bool
  polling : Bool
  last_response_jiffies : Int
  p : Option Packet
deriving DecidableEq, Repr

/-- What the element does to the outside, in program order. -/
inductive Event where
  | push (port : Nat) (p : Packet)
  | kill (p : Packet)
  | schedule_expire
deriving DecidableEq, Repr

/-- Configuration and compile-time constants: the element's own addresses (set by
`configure`), the bucket count `NMAP`, the tick rate `CLICK_HZ`, protocol constants and
structure sizes. -/
structure Config where
  my_en : List Nat
  my_ip : IPAddress
  NMAP : Nat
  CLICK_HZ : Nat
  ETHERTYPE_GRID : Nat
  GRID_LOC_QUERY : Nat
  GRID_LOC_REPLY : Nat
  sizeof_click_ether : Nat
  sizeof_grid_hdr : Nat
  sizeof_grid_nbr_encap : Nat
  sizeof_grid_loc_query : Nat
deriving Repr

/-- The type of `_query_seqs`, a map from addresses to `unsigned int`, as an association
list. -/
abbrev HashMap := List (IPAddress × Nat)

/-- Modelled from the spec: `HashMap::findp` (the container is not among the sources), the
number recorded for an origin, if any. -/
def HashMap.findp (m : HashMap) (k : IPAddress) : Option Nat :=
  match m with
  | [] => none
  | (k1, v) :: rest => if k1 = k then some v else HashMap.findp rest k

/-- Modelled from the spec: `HashMap::insert` (the container is not among the sources),
which records a number for an origin, in place of the number recorded before, if any. -/
def HashMap.insert (m : HashMap) (k : IPAddress) (v : Nat) : HashMap :=
  match m with
  | [] => [(k, v)]
  | (k1, v1) :: rest => if k1 = k then (k, v) :: rest else (k1, v1) :: HashMap.insert rest k v

/-- The mutable state of the element: the bucket array `_map` (only indices below `NMAP`
are ever used), the table `_query_seqs` as an association list, the counters, and the
record of effects. -/
structure State where
  _map : Nat → List LocEntry
  _query_seqs : HashMap
  _loc_queries : Nat
  _pkts_killed : Nat
  log : List Event

/-- The initial state: the counters at zero, as `initialize` sets them, with an empty table
and an empty sequence map. -/
def State.init : State :=
  { _map := fun _ => [], _query_seqs := [], _loc_queries := 0, _pkts_killed := 0, log := [] }

/-- The bucket of an address: `(ipa.data()[0] + ipa.data()[3]) % NMAP`. -/
def bucket_of (cfg : Config) (ipa : IPAddress) : Nat :=
  (ipa.data 0 + ipa.data 3) % cfg.NMAP

/-- The chain walk `while (ae && ae->ip != ipa) ae = ae->next;`. -/
def find_entry (ipa : IPAddress) : List LocEntry → Option LocEntry
  | [] => none
  | ae :: next => if ae.ip = ipa then some ae else find_entry ipa next

/-- A write through the pointer found by the chain walk: the first entry of the chain
with address `ipa` is replaced by its image under `f`. -/
def modify_entry (ipa : IPAddress) (f : LocEntry → LocEntry) : List LocEntry → List LocEntry
  | [] => []
  | ae :: next => if ae.ip = ipa then f ae :: next else ae :: modify_entry ipa f next

/-- The state with bucket `i` of `_map` replaced by `chain`. -/
def State.set_bucket (s : State) (i : Nat) (chain : List LocEntry) : State :=
  { s with _map := fun j => if j = i then chain else s._map j }

/-- The state with events appended to the record of effects. -/
def State.emit (s : State) (evs : List Event) : State :=
  { s with log := s.log ++ evs }

/-- The query packet built by `send_query_for` when the counter is `loc_queries`. -/
def make_query (cfg : Config) (loc_queries : Nat) (want_ip : IPAddress) : Packet :=
  let len := cfg.sizeof_click_ether + cfg.sizeof_grid_hdr + cfg.sizeof_grid_loc_query
  let q := Packet.zeroed len
  { q with
    ether := { ether_dhost := [255, 255, 255, 255, 255, 255], ether_shost := cfg.my_en,
               ether_type := cfg.ETHERTYPE_GRID }
    gh := { q.gh with hdr_len := cfg.sizeof_grid_hdr, type := cfg.GRID_LOC_QUERY,
                      ip := cfg.my_ip, tx_ip := cfg.my_ip,
                      total_len := (len - cfg.sizeof_click_ether) % 2 ^ 16 }
    lq := { dst_ip := want_ip, seq_no := loc_queries % 2 ^ 32 } }

/-- `FloodingLocQuerier::send_query_for` (allocation of the packet succeeds). -/
def send_query_for (cfg : Config) (s : State) (want_ip : IPAddress) : State :=
  let q := make_query cfg s._loc_queries want_ip
  { s with
    _query_seqs := HashMap.insert s._query_seqs cfg.my_ip (s._loc_queries % 2 ^ 32)
    _loc_queries := s._loc_queries + 1
    log := s.log ++ [Event.push 1 q] }

/-- The data packet pushed for a resolved entry: `tx_ip` and the three destination
location fields are overwritten from the entry. -/
def fill_location (cfg : Config) (ae : LocEntry) (p : Packet) : Packet :=
  let q := p.uniqueify
  { q with
    gh := { q.gh with tx_ip := cfg.my_ip }
    nb := { q.nb with dst_loc := ae.loc, dst_loc_err := ae.loc_err,
                      dst_loc_good := ae.loc_good } }

/-- The release of a packet already held by an unresolved entry:
`if (ae->p) { ae->p->kill(); _pkts_killed++; }`. -/
def kill_old (s : State) (old : Option Packet) : State :=
  match old with
  | some o => { s.emit [Event.kill o] with _pkts_killed := s._pkts_killed + 1 }
  | none => s

/-- `FloodingLocQuerier::handle_nbr_encap`; `fresh` is the memory `new LocEntry` returns. -/
def handle_nbr_encap (cfg : Config) (fresh : LocEntry) (s : State) (p : Packet) : State :=
  if p.nb.dst_loc_good then
    s.emit [Event.push 0 p]
  else
    let ipa := p.nb.dst_ip
    let bucket := bucket_of cfg ipa
    match find_entry ipa (s._map bucket) with
    | some ae =>
      let s1 :=
        if ae.polling then
          let t := send_query_for cfg s ae.ip
          t.set_bucket bucket
            (modify_entry ipa (fun e => { e with polling := false }) (t._map bucket))
        else s
      if ae.ok then
        s1.emit [Event.push 0 (fill_location cfg ae p), Event.kill p]
      else
        let s2 := kill_old s1 ae.p
        let s3 := s2.set_bucket bucket
          (modify_entry ipa (fun e => { e with p := some p }) (s2._map bucket))
        send_query_for cfg s3 p.dst_ip_anno
    | none =>
      let ae : LocEntry := { fresh with ip := ipa, ok := false, polling := false, p := some p }
      let s1 := s.set_bucket bucket (ae :: s._map bucket)
      send_query_for cfg s1 p.dst_ip_anno

/-- The fields assigned to an entry when a reply is applied. -/
def apply_reply (jiffies : Int) (p : Packet) (ae : LocEntry) : LocEntry :=
  { ae with
    loc := p.gh.loc
    loc_err := p.gh.loc_err
    loc_good := p.gh.loc_good
    loc_seq_no := p.gh.loc_seq_no
    ok := true
    polling := false
    last_response_jiffies := jiffies }

/-- The acceptance test of `handle_reply`: `ae->loc_seq_no > loc_seq_no`, the entry's
stored sequence number against the one carried by the reply. -/
def accepts (ae : LocEntry) (p : Packet) : Bool :=
  decide (ae.loc_seq_no > p.gh.loc_seq_no)

/-- What `handle_reply` writes to the entry it found: the reply's data when the
acceptance test passes, and an emptied packet slot in either case. -/
def reply_update (jiffies : Int) (p : Packet) (ae : LocEntry) : LocEntry :=
  { (if accepts ae p then apply_reply jiffies p ae else ae) with p := none }

/-- `FloodingLocQuerier::handle_reply`; `jiffies` is the value of `click_jiffies()`. -/
def handle_reply (cfg : Config) (fresh : LocEntry) (jiffies : Int) (s : State) (p : Packet) :
    State :=
  if p.length < cfg.sizeof_click_ether + cfg.sizeof_grid_hdr + cfg.sizeof_grid_nbr_encap then
    s
  else
    let ipa := p.nb.dst_ip
    let bucket := bucket_of cfg ipa
    match find_entry ipa (s._map bucket) with
    | none => s
    | some ae =>
      let cached_packet := ae.p
      let s1 := s.set_bucket bucket (modify_entry ipa (reply_update jiffies p) (s._map bucket))
      let s2 :=
        match cached_packet with
        | some c => handle_nbr_encap cfg fresh s1 c
        | none => s1
      s2.emit [Event.kill p]

/-- The packet pushed by `handle_query` for a query it forwards: `tx_ip` is stamped with
this node's address. -/
def forwarded (cfg : Config) (p : Packet) : Packet :=
  { p.uniqueify with gh := { p.gh with tx_ip := cfg.my_ip } }

/-- `FloodingLocQuerier::handle_query`. -/
def handle_query (cfg : Config) (s : State) (p : Packet) : State :=
  if p.lq.dst_ip = cfg.my_ip then
    s.emit [Event.kill p]
  else
    let q_seq_no := p.lq.seq_no
    match HashMap.findp s._query_seqs p.gh.ip with
    | some seq_no =>
      if seq_no ≥ q_seq_no then
        s.emit [Event.kill p]
      else
        { s with _query_seqs := HashMap.insert s._query_seqs p.gh.ip q_seq_no,
                 log := s.log ++ [Event.push 1 (forwarded cfg p)] }
    | none =>
      { s with _query_seqs := HashMap.insert s._query_seqs p.gh.ip q_seq_no,
               log := s.log ++ [Event.push 1 (forwarded cfg p)] }

/-- Reduction of an integer to the range of a 32-bit `int`. -/
def wrap_int (x : Int) : Int := (x + 2 ^ 31) % 2 ^ 32 - 2 ^ 31

/-- The `int gap = jiff - e->last_response_jiffies` of the expiry loop. -/
def gap_of (jiff : Int) (e : LocEntry) : Int := wrap_int (jiff - e.last_response_jiffies)

/-- The inner `while (1)` loop of `expire_hook` over one chain: the chain that is left,
and the kills of the packets held by removed entries. -/
def expire_chain (cfg : Config) (jiff : Int) : List LocEntry → List LocEntry × List Event
  | [] => ([], [])
  | e :: next =>
    let r := expire_chain cfg jiff next
    if e.ok then
      let gap := gap_of jiff e
      if gap > wrap_int (120 * cfg.CLICK_HZ) then
        (r.1, (match e.p with | some pk => [Event.kill pk] | none => []) ++ r.2)
      else if gap > wrap_int (60 * cfg.CLICK_HZ) then
        ({ e with polling := true } :: r.1, r.2)
      else (e :: r.1, r.2)
    else (e :: r.1, r.2)

/-- `FloodingLocQuerier::expire_hook`; `jiff` is the value of `click_jiffies()`. -/
def expire_hook (cfg : Config) (jiff : Int) (s : State) : State :=
  { s with
    _map := fun i => if i < cfg.NMAP then (expire_chain cfg jiff (s._map i)).1 else s._map i
    log := s.log
      ++ (List.range cfg.NMAP).flatMap (fun i => (expire_chain cfg jiff (s._map i)).2)
      ++ [Event.schedule_expire] }

/-- `FloodingLocQuerier::push`; `none` is the failed `assert(0)` on an unexpected type. -/
def push (cfg : Config) (fresh : LocEntry) (jiffies : Int) (s : State) (port : Nat)
    (p : Packet) : Option State :=
  if port = 0 then
    some (handle_nbr_encap cfg fresh s p)
  else if p.gh.type = cfg.GRID_LOC_QUERY then
    some (handle_query cfg s p)
  else if p.gh.type = cfg.GRID_LOC_REPLY then
    some ((handle_reply cfg fresh jiffies s p).emit [Event.kill p])
  else
    none

/-- One operation of the element, with the values it draws from its environment. -/
inductive Op where
  | outbound (fresh : LocEntry) (p : Packet)
  | reply (fresh : LocEntry) (jiffies : Int) (p : Packet)
  | query (p : Packet)
  | sweep (jiff : Int)

/-- The effect of one operation. -/
def step (cfg : Config) (s : State) : Op → State
  | Op.outbound fresh p => handle_nbr_encap cfg fresh s p
  | Op.reply fresh jiffies p => handle_reply cfg fresh jiffies s p
  | Op.query p => handle_query cfg s p
  | Op.sweep jiff => expire_hook cfg jiff s

/-- The effect of a sequence of operations, first to last. -/
def run (cfg : Config) (s : State) (ops : List Op) : State :=
  ops.foldl (step cfg) s

/-- The sequence number of a packet pushed on the flood output (port 1), if the event is
such a push. -/
def flood_seq_no : Event → Option Nat
  | Event.push 1 q => some q.lq.seq_no
  | _ => none

/-- The sequence numbers of the queries this node originates (through `send_query_for`)
during one operation: the port-1 pushes the operation adds to the record.  A `query`
operation originates none; what it pushes on port 1 is a query it relays. -/
def originated_by (cfg : Config) (s : State) : Op → List Nat
  | Op.query _ => []
  | op => ((step cfg s op).log.drop s.log.length).filterMap flood_seq_no

/-- The sequence numbers of all queries originated during a sequence of operations. -/
def originated (cfg : Config) : State → List Op → List Nat
  | _, [] => []
  | s, op :: ops => originated_by cfg s op ++ originated cfg (step cfg s op) ops

/-- The sweep as the specification words it, on one chain and with the idle time taken
as the exact difference `now - last_response_time`: entries that are resolved and idle
for more than 120 seconds are dropped; of the others, those resolved and idle for more
than 60 seconds get `needs_repoll`; the rest are kept as they are. -/
def sweep_spec (cfg : Config) (now : Int) (chain : List LocEntry) : List LocEntry :=
  (chain.filter (fun e =>
      !(e.ok && decide (now - e.last_response_jiffies > 120 * (cfg.CLICK_HZ : Int))))).map
    (fun e =>
      if e.ok && decide (now - e.last_response_jiffies > 60 * (cfg.CLICK_HZ : Int)) then
        { e with polling := true }
      else e)

/-! ### Concrete values used to instantiate the theorems -/

/-- A configuration with four buckets and 100 ticks per second. -/
def demo_cfg : Config :=
  { my_en := [0, 160, 201, 1, 2, 3], my_ip := ⟨18, 26, 7, 1⟩, NMAP := 4, CLICK_HZ := 100,
    ETHERTYPE_GRID := 32512, GRID_LOC_QUERY := 5, GRID_LOC_REPLY := 6,
    sizeof_click_ether := 14, sizeof_grid_hdr := 60, sizeof_grid_nbr_encap := 20,
    sizeof_grid_loc_query := 8 }

/-- A destination address `D`. -/
def demo_D : IPAddress := ⟨18, 26, 7, 2⟩

/-- A data packet for `demo_D` without a valid location; `r` tells packets apart. -/
def demo_data (r : Nat) : Packet :=
  { Packet.zeroed 200 with
    nb := { dst_ip := demo_D, dst_loc := ⟨0, 0⟩, dst_loc_err := 0, dst_loc_good := false }
    dst_ip_anno := demo_D
    rest := r }

/-- Memory for a new entry whose unassigned `loc_seq_no` reads `v`. -/
def demo_fresh (v : Nat) : LocEntry :=
  { ip := IPAddress.zero, loc := ⟨0, 0⟩, loc_err := 0, loc_good := false, loc_seq_no := v,
    ok := false, polling := false, last_response_jiffies := 0, p := none }

/-- A reply for `demo_D` with location (10,20) and sequence number `seq`. -/
def demo_reply (seq : Nat) : Packet :=
  { Packet.zeroed 200 with
    gh := { (Packet.zeroed 200).gh with type := 6, ip := demo_D, loc := ⟨10, 20⟩, loc_err := 7,
                                        loc_good := true, loc_seq_no := seq }
    nb := { dst_ip := demo_D, dst_loc := ⟨0, 0⟩, dst_loc_err := 0, dst_loc_good := false } }

/-- A query for `demo_D` from `origin` with sequence number `seq`. -/
def demo_query (origin : IPAddress) (seq : Nat) : Packet :=
  { Packet.zeroed 82 with
    gh := { (Packet.zeroed 82).gh with type := 5, ip := origin, tx_ip := origin }
    lq := { dst_ip := demo_D, seq_no := seq } }

/-- The state of the scenario after the first data packet for `demo_D` has been handed
to the element in its initial state, the new entry's unassigned `loc_seq_no` reading `v`. -/
def demo_waiting (v : Nat) : State :=
  handle_nbr_encap demo_cfg (demo_fresh v) State.init (demo_data 1)

/-- The entry of `demo_waiting v`: unresolved, holding the first data packet. -/
def demo_entry (v : Nat) : LocEntry :=
  { demo_fresh v with ip := demo_D, p := some (demo_data 1) }

/-- An entry for address `18.26.7.k` last answered at tick `last`. -/
def demo_aged (k : Nat) (ok : Bool) (last : Int) : LocEntry :=
  { ip := ⟨18, 26, 7, k⟩, loc := ⟨10, 20⟩, loc_err := 7, loc_good := true, loc_seq_no := 1,
    ok := ok, polling := false, last_response_jiffies := last, p := none }

/-- A table with one chain: an unresolved entry that has waited since tick 0, and three
resolved entries answered at ticks 95000, 91000 and 87000. -/
def demo_table : State :=
  { State.init with
    _map := fun i =>
      if i = 0 then
        [demo_entry 0, demo_aged 6 true 95000, demo_aged 10 true 91000,
         demo_aged 14 true 87000]
      else [] }

/-! ### Predicates used in the proofs -/

/-- The record the element keeps of its own queries: once a query has been originated,
`_query_seqs` holds for this node's own address a number that, as long as the counter has
not passed `2^32`, is at least the last number used. -/
def own_seq_ok (cfg : Config) (s : State) : Prop :=
  s._loc_queries = 0
    ∨ ∃ v, HashMap.findp s._query_seqs cfg.my_ip = some v
        ∧ (s._loc_queries ≤ 2 ^ 32 → s._loc_queries ≤ v + 1)

/-- The relation between a state and a later one: the record of effects has grown, the
counter has not gone down, and the port-1 pushes added in between carry the counter
values in between, reduced modulo `2^32`. -/
def sent_between (s t : State) : Prop :=
  ∃ evs, t.log = s.log ++ evs ∧ s._loc_queries ≤ t._loc_queries
    ∧ ∀ n, n ∈ evs.filterMap flood_seq_no →
        ∃ k, s._loc_queries ≤ k ∧ k < t._loc_queries ∧ n = k % 2 ^ 32

/-- Every packet held by an entry of the table is a packet for that entry's address that
carries no valid location. -/
def buffered_ok (s : State) : Prop :=
  ∀ i, ∀ e, e ∈ s._map i → ∀ P, e.p = some P → P.nb.dst_ip = e.ip ∧ P.nb.dst_loc_good = false

/-- No event of the list is a push on port 0, the output for resolved data packets. -/
def no_port0 (evs : List Event) : Prop := ∀ q, Event.push 0 q ∉ evs

/-! ### Definitions for the invariants of the table and of `_query_seqs` -/

/-- What `handle_nbr_encap` writes to an entry it finds: `polling` is cleared, and an
unresolved entry takes the packet. -/
def nbr_update (p : Packet) (e : LocEntry) : LocEntry :=
  if e.ok then { e with polling := false } else { e with polling := false, p := some p }

/-- Placement and uniqueness in the table: the addresses of each chain are pairwise
different, and every entry sits in the bucket of its address. -/
def chain_ok (cfg : Config) (s : State) : Prop :=
  ∀ i, ((s._map i).map LocEntry.ip).Nodup ∧ ∀ e, e ∈ s._map i → bucket_of cfg e.ip = i

/-- Every entry that has `polling` set is resolved. -/
def polling_ok (s : State) : Prop :=
  ∀ i e, e ∈ s._map i → e.polling = true → e.ok = true

/-- An entry is either resolved and holds no packet, or unresolved and holds one packet,
which is for the entry's address and carries no valid location. -/
def entry_ok (e : LocEntry) : Prop :=
  (e.ok = true ∧ e.p = none)
    ∨ (e.ok = false ∧ ∃ P, e.p = some P ∧ P.nb.dst_ip = e.ip ∧ P.nb.dst_loc_good = false)

/-- Every entry of the table satisfies `entry_ok`. -/
def entries_ok (s : State) : Prop :=
  ∀ i e, e ∈ s._map i → entry_ok e

/-- The relation between `_query_seqs` before and after: every record is still there, and
the records of origins other than this node have not gone down. -/
def seqs_kept (cfg : Config) (m m2 : HashMap) : Prop :=
  ∀ o v, HashMap.findp m o = some v →
    ∃ v2, HashMap.findp m2 o = some v2 ∧ (o ≠ cfg.my_ip → v ≤ v2)

/-- The operations that lead to a resolved entry for `demo_D` marked for re-polling: a data
packet (stored number reading 5), the reply numbered 1 at tick 1000, and a sweep at tick
8000, 70 seconds later. -/
def demo_polled_ops : List Op :=
  [Op.outbound (demo_fresh 5) (demo_data 1), Op.reply (demo_fresh 0) 1000 (demo_reply 1),
   Op.sweep 8000]

/-- The entry for `demo_D` after `demo_polled_ops`. -/
def demo_polled_entry : LocEntry :=
  { ip := demo_D, loc := ⟨10, 20⟩, loc_err := 7, loc_good := true, loc_seq_no := 1,
    ok := true, polling := true, last_response_jiffies := 1000, p := none }

/-- A data packet that already carries a valid location for its destination. -/
def demo_located : Packet :=
  { Packet.zeroed 200 with
    nb := { dst_ip := demo_D, dst_loc := ⟨30, 40⟩, dst_loc_err := 2, dst_loc_good := true }
    dst_ip_anno := demo_D
    rest := 4 }

/-- A data packet for `demo_D` whose destination annotation was never set, so that it
reads `0.0.0.0`. -/
def demo_unannotated : Packet :=
  { demo_data 5 with dst_ip_anno := IPAddress.zero }

/-- A reply shorter than the three headers. -/
def demo_short_reply : Packet :=
  { demo_reply 1 with length := 40 }

/-- A data packet for destination `d` without a valid location; `r` tells packets apart. -/
def demo_data_to (d : IPAddress) (r : Nat) : Packet :=
  { Packet.zeroed 200 with
    nb := { dst_ip := d, dst_loc := ⟨0, 0⟩, dst_loc_err := 0, dst_loc_good := false }
    dst_ip_anno := d
    rest := r }

/-- Data packets for `18.26.7.6`, for `demo_D` and for `18.26.7.3`; the first two addresses
share bucket 0, the third has bucket 1. -/
def demo_three_ops : List Op :=
  [Op.outbound (demo_fresh 0) (demo_data_to ⟨18, 26, 7, 6⟩ 1),
   Op.outbound (demo_fresh 0) (demo_data 2),
   Op.outbound (demo_fresh 0) (demo_data_to ⟨18, 26, 7, 3⟩ 3),
   Op.outbound (demo_fresh 0) (demo_data_to ⟨18, 26, 7, 6⟩ 4)]

/-! ### Basic facts about the building blocks -/

@[simp] theorem set_bucket_map (s : State) (i : Nat) (c : List LocEntry) (j : Nat) :
    (s.set_bucket i c)._map j = if j = i then c else s._map j := rfl

@[simp] theorem set_bucket_query_seqs (s : State) (i : Nat) (c : List LocEntry) :
    (s.set_bucket i c)._query_seqs = s._query_seqs := rfl

@[simp] theorem set_bucket_loc_queries (s : State) (i : Nat) (c : List LocEntry) :
    (s.set_bucket i c)._loc_queries = s._loc_queries := rfl

@[simp] theorem set_bucket_pkts_killed (s : State) (i : Nat) (c : List LocEntry) :
    (s.set_bucket i c)._pkts_killed = s._pkts_killed := rfl

@[simp] theorem set_bucket_log (s : State) (i : Nat) (c : List LocEntry) :
    (s.set_bucket i c).log = s.log := rfl

@[simp] theorem emit_map (s : State) (evs : List Event) : (s.emit evs)._map = s._map := rfl

@[simp] theorem emit_query_seqs (s : State) (evs : List Event) :
    (s.emit evs)._query_seqs = s._query_seqs := rfl

@[simp] theorem emit_loc_queries (s : State) (evs : List Event) :
    (s.emit evs)._loc_queries = s._loc_queries := rfl

@[simp] theorem emit_pkts_killed (s : State) (evs : List Event) :
    (s.emit evs)._pkts_killed = s._pkts_killed := rfl

@[simp] theorem emit_log (s : State) (evs : List Event) : (s.emit evs).log = s.log ++ evs := rfl

@[simp] theorem send_query_for_map (cfg : Config) (s : State) (w : IPAddress) :
    (send_query_for cfg s w)._map = s._map := rfl

@[simp] theorem send_query_for_query_seqs (cfg : Config) (s : State) (w : IPAddress) :
    (send_query_for cfg s w)._query_seqs
      = HashMap.insert s._query_seqs cfg.my_ip (s._loc_queries % 2 ^ 32) := rfl

@[simp] theorem send_query_for_loc_queries (cfg : Config) (s : State) (w : IPAddress) :
    (send_query_for cfg s w)._loc_queries = s._loc_queries + 1 := rfl

@[simp] theorem send_query_for_pkts_killed (cfg : Config) (s : State) (w : IPAddress) :
    (send_query_for cfg s w)._pkts_killed = s._pkts_killed := rfl

@[simp] theorem send_query_for_log (cfg : Config) (s : State) (w : IPAddress) :
    (send_query_for cfg s w).log = s.log ++ [Event.push 1 (make_query cfg s._loc_queries w)] :=
  rfl

@[simp] theorem kill_old_map (s : State) (o : Option Packet) :
    (kill_old s o)._map = s._map := by
  cases o <;> rfl

@[simp] theorem kill_old_query_seqs (s : State) (o : Option Packet) :
    (kill_old s o)._query_seqs = s._query_seqs := by
  cases o <;> rfl

@[simp] theorem kill_old_loc_queries (s : State) (o : Option Packet) :
    (kill_old s o)._loc_queries = s._loc_queries := by
  cases o <;> rfl

@[simp] theorem kill_old_some (s : State) (o : Packet) :
    kill_old s (some o) = { s.emit [Event.kill o] with _pkts_killed := s._pkts_killed + 1 } :=
  rfl

@[simp] theorem kill_old_none (s : State) : kill_old s none = s := rfl

theorem findp_insert_same (m : HashMap) (k : IPAddress) (v : Nat) :
    HashMap.findp (HashMap.insert m k v) k = some v := by
  induction m with
  | nil => simp [HashMap.insert, HashMap.findp]
  | cons a rest ih =>
    obtain ⟨k1, v1⟩ := a
    by_cases h : k1 = k
    · simp [HashMap.insert, HashMap.findp, h]
    · simp [HashMap.insert, HashMap.findp, h, ih]

theorem findp_insert_other (m : HashMap) (k k2 : IPAddress) (v : Nat) (h : k2 ≠ k) :
    HashMap.findp (HashMap.insert m k v) k2 = HashMap.findp m k2 := by
  induction m with
  | nil => simp [HashMap.insert, HashMap.findp, h.symm]
  | cons a rest ih =>
    obtain ⟨k1, v1⟩ := a
    by_cases h1 : k1 = k
    · subst h1
      simp [HashMap.insert, HashMap.findp, h.symm]
    · by_cases h2 : k1 = k2
      · subst h2
        simp [HashMap.insert, HashMap.findp, h]
      · simp [HashMap.insert, HashMap.findp, h1, h2, ih]

theorem find_entry_ip {ipa : IPAddress} {l : List LocEntry} {ae : LocEntry}
    (h : find_entry ipa l = some ae) : ae.ip = ipa := by
  induction l with
  | nil => simp [find_entry] at h
  | cons a rest ih =>
    by_cases ha : a.ip = ipa
    · simp [find_entry, ha] at h
      subst h
      exact ha
    · simp [find_entry, ha] at h
      exact ih h

theorem find_entry_modify (a d : IPAddress) (f : LocEntry → LocEntry)
    (hf : ∀ e, (f e).ip = e.ip) (l : List LocEntry) :
    find_entry a (modify_entry d f l)
      = if a = d then Option.map f (find_entry a l) else find_entry a l := by
  induction l with
  | nil => simp [find_entry, modify_entry]
  | cons x rest ih =>
    by_cases hx : x.ip = d
    · by_cases had : a = d
      · subst had
        simp [find_entry, modify_entry, hx, hf]
      · have hxa : ¬ x.ip = a := fun h => had (h.symm.trans hx)
        have hxa2 : ¬ d = a := fun h => had h.symm
        simp [find_entry, modify_entry, hx, hf, had, hxa, hxa2]
    · by_cases had : a = d
      · subst had
        simp [find_entry, modify_entry, hx, ih]
      · by_cases hxa : x.ip = a
        · simp [find_entry, modify_entry, hx, had, hxa]
        · simp [find_entry, modify_entry, hx, had, hxa, ih]

theorem modify_entry_fixed (a : IPAddress) (f : LocEntry → LocEntry) (l : List LocEntry)
    (e : LocEntry) (h : find_entry a l = some e) (hfe : f e = e) : modify_entry a f l = l := by
  induction l with
  | nil => rfl
  | cons x rest ih =>
    by_cases hx : x.ip = a
    · simp [find_entry, hx] at h
      subst h
      simp [modify_entry, hx, hfe]
    · simp [find_entry, hx] at h
      simp [modify_entry, hx, ih h]

/-! ### Lemmas on the table, on `handle_nbr_encap` and on `handle_reply` -/

theorem set_bucket_self (s : State) (i : Nat) : s.set_bucket i (s._map i) = s := by
  cases s with
  | mk m q c k l =>
    simp only [State.set_bucket, State.mk.injEq, and_true]
    funext j
    by_cases h : j = i
    · simp [h]
    · simp [h]

theorem handle_query_log_cases (cfg : Config) (s : State) (p : Packet) :
    ((handle_query cfg s p).log = s.log ++ [Event.kill p]
        ∧ (handle_query cfg s p)._query_seqs = s._query_seqs)
      ∨ ((handle_query cfg s p).log = s.log ++ [Event.push 1 (forwarded cfg p)]
        ∧ (handle_query cfg s p)._query_seqs
            = HashMap.insert s._query_seqs p.gh.ip p.lq.seq_no) := by
  unfold handle_query
  dsimp only
  split
  · left; simp
  · split
    · split
      · left; simp
      · right; simp
    · right; simp

theorem handle_query_loc_queries (cfg : Config) (s : State) (p : Packet) :
    (handle_query cfg s p)._loc_queries = s._loc_queries := by
  unfold handle_query
  split
  · rfl
  · dsimp only
    split
    · split <;> rfl
    · rfl

/-- The entry `handle_nbr_encap` links in for a packet whose destination is not in the table. -/
theorem handle_nbr_encap_new (cfg : Config) (fresh : LocEntry) (s : State) (p : Packet)
    (hgood : p.nb.dst_loc_good = false)
    (hnone : find_entry p.nb.dst_ip (s._map (bucket_of cfg p.nb.dst_ip)) = none) :
    handle_nbr_encap cfg fresh s p
      = send_query_for cfg
          (s.set_bucket (bucket_of cfg p.nb.dst_ip)
            ({ fresh with ip := p.nb.dst_ip, ok := false, polling := false, p := some p }
              :: s._map (bucket_of cfg p.nb.dst_ip)))
          p.dst_ip_anno := by
  unfold handle_nbr_encap
  simp [hgood, hnone]

@[simp] theorem reply_update_ip (jiffies : Int) (p : Packet) (e : LocEntry) :
    (reply_update jiffies p e).ip = e.ip := by
  unfold reply_update apply_reply
  split <;> rfl

theorem reply_update_accepted (jiffies : Int) (p : Packet) (e : LocEntry)
    (h : accepts e p = true) :
    reply_update jiffies p e = { apply_reply jiffies p e with p := none } := by
  simp [reply_update, h]

theorem reply_update_rejected (jiffies : Int) (p : Packet) (e : LocEntry)
    (h : accepts e p = false) :
    reply_update jiffies p e = { e with p := none } := by
  simp [reply_update, h]

theorem reply_update_fixed (jiffies : Int) (r : Packet) (e : LocEntry)
    (hacc : accepts e r = false) (hp : e.p = none) : reply_update jiffies r e = e := by
  rw [reply_update_rejected _ _ _ hacc]
  cases e
  simp at hp
  simp [hp]

theorem accepts_congr {e1 e2 : LocEntry} (r : Packet) (h : e1.loc_seq_no = e2.loc_seq_no) :
    accepts e1 r = accepts e2 r := by
  simp [accepts, h]

theorem accepts_reply_update (jiffies : Int) (r : Packet) (e : LocEntry) :
    accepts (reply_update jiffies r e) r = false := by
  by_cases h : accepts e r = true
  · rw [reply_update_accepted _ _ _ h]
    simp [apply_reply, accepts]
  · have h2 : accepts e r = false := by simpa using h
    rw [reply_update_rejected _ _ _ h2]
    simpa [accepts] using h2

/-- An entry that is in the table stays findable across `handle_nbr_encap`, with the same
sequence number and resolved flag; its packet slot is unchanged if it is resolved, and
otherwise is unchanged or holds the packet just handed in. -/
theorem handle_nbr_encap_find (cfg : Config) (fresh : LocEntry) (t : State) (c : Packet)
    (a : IPAddress) (e : LocEntry)
    (h : find_entry a (t._map (bucket_of cfg a)) = some e) :
    ∃ e2 : LocEntry,
      find_entry a ((handle_nbr_encap cfg fresh t c)._map (bucket_of cfg a)) = some e2
      ∧ e2.loc_seq_no = e.loc_seq_no ∧ e2.ok = e.ok ∧ (e.ok = true → e2.p = e.p)
      ∧ (e2.p = e.p ∨ (e2.p = some c ∧ c.nb.dst_ip = a ∧ c.nb.dst_loc_good = false)) := by
  unfold handle_nbr_encap
  by_cases hg : c.nb.dst_loc_good = true
  · simp [hg, h]
  · simp only [hg]
    cases hfd : find_entry c.nb.dst_ip (t._map (bucket_of cfg c.nb.dst_ip)) with
    | none =>
      have hne : ¬ c.nb.dst_ip = a := by
        intro hc
        rw [hc, h] at hfd
        exact Option.noConfusion hfd
      by_cases hb : bucket_of cfg a = bucket_of cfg c.nb.dst_ip
      · simp [hb, find_entry, hne]
        rw [← hb, h]
        simp
      · simp [hb, h]
    | some x =>
      by_cases had : a = c.nb.dst_ip
      · subst had
        rw [h] at hfd
        cases hfd
        by_cases hpoll : e.polling = true <;> by_cases hok : e.ok = true <;>
          simp [hpoll, hok, find_entry_modify, h, hg]
      · by_cases hb : bucket_of cfg a = bucket_of cfg c.nb.dst_ip
        · by_cases hpoll : x.polling = true <;> by_cases hok : x.ok = true <;>
            simp [hpoll, hok, find_entry_modify, hb, had] <;> rw [← hb, h] <;> simp
        · by_cases hpoll : x.polling = true <;> by_cases hok : x.ok = true <;>
            simp [hpoll, hok, hb, h]

/-- A packet without valid location whose destination is found unresolved is not pushed on
port 0. -/
theorem handle_nbr_encap_unresolved_log (cfg : Config) (fresh : LocEntry) (t : State)
    (c : Packet) (e : LocEntry) (hg : c.nb.dst_loc_good = false)
    (h : find_entry c.nb.dst_ip (t._map (bucket_of cfg c.nb.dst_ip)) = some e)
    (hok : e.ok = false) :
    ∃ evs, (handle_nbr_encap cfg fresh t c).log = t.log ++ evs ∧ no_port0 evs := by
  unfold handle_nbr_encap
  simp only [hg, h, hok]
  by_cases hpoll : e.polling = true <;> cases hp : e.p <;>
    simp [hpoll, no_port0]

/-- After `handle_reply` has found an entry, the entry found for the same address holds a
sequence number the same reply does not pass, no packet if it is resolved, and otherwise no
packet or a packet for that address without valid location. -/
theorem handle_reply_find (cfg : Config) (fresh : LocEntry) (jiffies : Int) (s : State)
    (r : Packet) (ae : LocEntry)
    (hlen : cfg.sizeof_click_ether + cfg.sizeof_grid_hdr + cfg.sizeof_grid_nbr_encap ≤ r.length)
    (hfind : find_entry r.nb.dst_ip (s._map (bucket_of cfg r.nb.dst_ip)) = some ae) :
    ∃ e1 : LocEntry,
      find_entry r.nb.dst_ip
        ((handle_reply cfg fresh jiffies s r)._map (bucket_of cfg r.nb.dst_ip)) = some e1
      ∧ accepts e1 r = false ∧ (e1.ok = true → e1.p = none)
      ∧ e1.loc_seq_no = (reply_update jiffies r ae).loc_seq_no
      ∧ e1.ok = (reply_update jiffies r ae).ok
      ∧ (e1.p = none
          ∨ ∃ c, e1.p = some c ∧ c.nb.dst_ip = r.nb.dst_ip ∧ c.nb.dst_loc_good = false) := by
  have hlen2 : ¬ r.length
      < cfg.sizeof_click_ether + cfg.sizeof_grid_hdr + cfg.sizeof_grid_nbr_encap := by omega
  have hf1 : find_entry r.nb.dst_ip
      ((s.set_bucket (bucket_of cfg r.nb.dst_ip)
          (modify_entry r.nb.dst_ip (reply_update jiffies r)
            (s._map (bucket_of cfg r.nb.dst_ip))))._map (bucket_of cfg r.nb.dst_ip))
      = some (reply_update jiffies r ae) := by
    simp [find_entry_modify, hfind]
  have hnone : (reply_update jiffies r ae).p = none := by simp [reply_update]
  unfold handle_reply
  simp only [hlen2, if_false, hfind]
  cases hp : ae.p with
  | none =>
    refine ⟨reply_update jiffies r ae, ?_, accepts_reply_update _ _ _, ?_, rfl, rfl, Or.inl hnone⟩
    · simpa using hf1
    · intro _
      exact hnone
  | some c =>
    obtain ⟨e2, h2, hseq, hok, hpk, hpc⟩ := handle_nbr_encap_find cfg fresh _ c _ _ hf1
    refine ⟨e2, ?_, ?_, ?_, hseq, hok, ?_⟩
    · simpa using h2
    · rw [accepts_congr r hseq]
      exact accepts_reply_update _ _ _
    · intro h
      rw [hok] at h
      rw [hpk h]
      exact hnone
    · rcases hpc with hpc | ⟨hpc, hd, hg⟩
      · left
        rw [hpc]
        exact hnone
      · exact Or.inr ⟨c, hpc, hd, hg⟩

/-- An accepted reply releases the packet held by the entry, when that packet is for the
entry's address and carries no valid location. -/
theorem accepted_reply_releases_buffered (cfg : Config) (fresh : LocEntry) (jiffies : Int)
    (s : State) (r : Packet) (ae : LocEntry) (P : Packet)
    (hlen : cfg.sizeof_click_ether + cfg.sizeof_grid_hdr + cfg.sizeof_grid_nbr_encap ≤ r.length)
    (hfind : find_entry r.nb.dst_ip (s._map (bucket_of cfg r.nb.dst_ip)) = some ae)
    (hp : ae.p = some P)
    (hPd : P.nb.dst_ip = ae.ip) (hPg : P.nb.dst_loc_good = false)
    (hacc : accepts ae r = true) :
    (handle_reply cfg fresh jiffies s r).log
        = s.log ++ [Event.push 0
                      { P with
                        gh := { P.gh with tx_ip := cfg.my_ip }
                        nb := { P.nb with dst_loc := r.gh.loc, dst_loc_err := r.gh.loc_err,
                                          dst_loc_good := r.gh.loc_good } },
                    Event.kill P, Event.kill r]
    ∧ (∃ e : LocEntry,
        find_entry r.nb.dst_ip
          ((handle_reply cfg fresh jiffies s r)._map (bucket_of cfg r.nb.dst_ip)) = some e
        ∧ e.ok = true ∧ e.p = none ∧ e.loc = r.gh.loc ∧ e.loc_err = r.gh.loc_err
        ∧ e.loc_good = r.gh.loc_good) := by
  have hip : ae.ip = r.nb.dst_ip := find_entry_ip hfind
  have hlen2 : ¬ r.length
      < cfg.sizeof_click_ether + cfg.sizeof_grid_hdr + cfg.sizeof_grid_nbr_encap := by omega
  rw [hip] at hPd
  unfold handle_reply
  simp only [hlen2, if_false, hfind, hp]
  unfold handle_nbr_encap
  simp [hPg, hPd, find_entry_modify, hfind, reply_update_accepted _ _ _ hacc, apply_reply,
    fill_location, Packet.uniqueify]

theorem handle_query_map (cfg : Config) (s : State) (p : Packet) :
    (handle_query cfg s p)._map = s._map := by
  unfold handle_query
  split
  · rfl
  · dsimp only
    split
    · split <;> rfl
    · rfl

/-! ### Lemmas on the expiry sweep -/

theorem wrap_int_id (x : Int) (h1 : -2 ^ 31 ≤ x) (h2 : x < 2 ^ 31) : wrap_int x = x := by
  unfold wrap_int
  rw [Int.emod_eq_of_lt (by omega) (by omega)]
  omega

@[simp] theorem expire_hook_map (cfg : Config) (jiff : Int) (s : State) (i : Nat) :
    (expire_hook cfg jiff s)._map i
      = if i < cfg.NMAP then (expire_chain cfg jiff (s._map i)).1 else s._map i := rfl

theorem expire_chain_unresolved (cfg : Config) (jiff : Int) (l : List LocEntry) :
    (expire_chain cfg jiff l).1.filter (fun e => !e.ok) = l.filter (fun e => !e.ok) := by
  induction l with
  | nil => rfl
  | cons e next ih =>
    unfold expire_chain
    by_cases hok : e.ok = true
    · simp only [hok, if_true]
      split
      · simp [hok, ih]
      · split
        · simp [hok, ih]
        · simp [hok, ih]
    · simp [hok, ih]

theorem expire_chain_spec (cfg : Config) (now : Int) (l : List LocEntry)
    (hhz : 120 * cfg.CLICK_HZ < 2 ^ 31)
    (hgap : ∀ e, e ∈ l → e.ok = true →
      -2 ^ 31 ≤ now - e.last_response_jiffies ∧ now - e.last_response_jiffies < 2 ^ 31) :
    (expire_chain cfg now l).1 = sweep_spec cfg now l := by
  have h120 : wrap_int (120 * (cfg.CLICK_HZ : Int)) = 120 * (cfg.CLICK_HZ : Int) :=
    wrap_int_id _ (by omega) (by omega)
  have h60 : wrap_int (60 * (cfg.CLICK_HZ : Int)) = 60 * (cfg.CLICK_HZ : Int) :=
    wrap_int_id _ (by omega) (by omega)
  induction l with
  | nil => rfl
  | cons e next ih =>
    have ih2 := ih (fun x hx => hgap x (List.mem_cons_of_mem _ hx))
    unfold sweep_spec at ih2 ⊢
    unfold expire_chain
    by_cases hok : e.ok = true
    · obtain ⟨g1, g2⟩ := hgap e (List.mem_cons_self _ _) hok
      have hg : gap_of now e = now - e.last_response_jiffies := wrap_int_id _ g1 g2
      simp only [hok, if_true, hg, h120, h60]
      by_cases hA : now - e.last_response_jiffies > 120 * (cfg.CLICK_HZ : Int)
      · simp [hA, hok, ih2]
      · by_cases hB : now - e.last_response_jiffies > 60 * (cfg.CLICK_HZ : Int)
        · simp [hA, hB, hok, ih2]
        · simp [hA, hB, hok, ih2]
    · simp [hok, ih2]

theorem expire_chain_events (cfg : Config) (jiff : Int) (l : List LocEntry) :
    ∀ ev, ev ∈ (expire_chain cfg jiff l).2 → flood_seq_no ev = none := by
  induction l with
  | nil => intro ev h; simp [expire_chain] at h
  | cons e next ih =>
    intro ev h
    unfold expire_chain at h
    dsimp only at h
    split at h
    · split at h
      · simp only [List.mem_append] at h
        rcases h with h | h
        · cases hp : e.p with
          | none => simp [hp] at h
          | some pk =>
            simp [hp] at h
            subst h
            rfl
        · exact ih ev h
      · split at h <;> exact ih ev h
    · exact ih ev h

theorem mem_expire_chain {cfg : Config} {jiff : Int} {l : List LocEntry} {e : LocEntry}
    (h : e ∈ (expire_chain cfg jiff l).1) :
    e ∈ l ∨ ∃ x, x ∈ l ∧ e = { x with polling := true } := by
  induction l with
  | nil => simp [expire_chain] at h
  | cons y rest ih =>
    have lift : (e ∈ rest ∨ ∃ x, x ∈ rest ∧ e = { x with polling := true }) →
        (e ∈ y :: rest ∨ ∃ x, x ∈ y :: rest ∧ e = { x with polling := true }) := by
      rintro (h1 | ⟨x, hx, hxe⟩)
      · exact Or.inl (List.mem_cons_of_mem _ h1)
      · exact Or.inr ⟨x, List.mem_cons_of_mem _ hx, hxe⟩
    unfold expire_chain at h
    dsimp only at h
    split at h
    · split at h
      · exact lift (ih h)
      · split at h
        · rcases List.mem_cons.mp h with h | h
          · exact Or.inr ⟨y, List.mem_cons_self _ _, h⟩
          · exact lift (ih h)
        · rcases List.mem_cons.mp h with h | h
          · subst h
            exact Or.inl (List.mem_cons_self _ _)
          · exact lift (ih h)
    · rcases List.mem_cons.mp h with h | h
      · subst h
        exact Or.inl (List.mem_cons_self _ _)
      · exact lift (ih h)

/-! ### The record of own sequence numbers along a run -/

theorem own_seq_ok_of_eq (cfg : Config) {s t : State} (hq : t._query_seqs = s._query_seqs)
    (hc : t._loc_queries = s._loc_queries) (h : own_seq_ok cfg s) : own_seq_ok cfg t := by
  unfold own_seq_ok at h ⊢
  rw [hq, hc]
  exact h

theorem own_seq_ok_send (cfg : Config) (s : State) (w : IPAddress) :
    own_seq_ok cfg (send_query_for cfg s w) := by
  right
  refine ⟨s._loc_queries % 2 ^ 32, ?_, ?_⟩
  · simp [findp_insert_same]
  · intro h
    simp only [send_query_for_loc_queries] at h ⊢
    rw [Nat.mod_eq_of_lt (by omega)]

theorem own_seq_ok_nbr_encap (cfg : Config) (fresh : LocEntry) (s : State) (p : Packet)
    (h : own_seq_ok cfg s) : own_seq_ok cfg (handle_nbr_encap cfg fresh s p) := by
  unfold handle_nbr_encap
  split
  · exact own_seq_ok_of_eq cfg rfl rfl h
  · dsimp only
    split
    · rename_i ae _
      split
      · split
        · exact own_seq_ok_of_eq cfg rfl rfl (own_seq_ok_send cfg s ae.ip)
        · exact own_seq_ok_of_eq cfg rfl rfl h
      · exact own_seq_ok_send cfg _ _
    · exact own_seq_ok_send cfg _ _

theorem own_seq_ok_reply (cfg : Config) (fresh : LocEntry) (jiffies : Int) (s : State)
    (p : Packet) (h : own_seq_ok cfg s) :
    own_seq_ok cfg (handle_reply cfg fresh jiffies s p) := by
  unfold handle_reply
  split
  · exact h
  · dsimp only
    split
    · exact h
    · split
      · exact own_seq_ok_of_eq cfg rfl rfl
          (own_seq_ok_nbr_encap cfg fresh _ _ (own_seq_ok_of_eq cfg rfl rfl h))
      · exact own_seq_ok_of_eq cfg rfl rfl h

theorem own_seq_ok_query (cfg : Config) (s : State) (p : Packet) (h : own_seq_ok cfg s) :
    own_seq_ok cfg (handle_query cfg s p) := by
  have key : ∀ old : Option Nat, HashMap.findp s._query_seqs p.gh.ip = old →
      (∀ v, old = some v → v < p.lq.seq_no) →
      own_seq_ok cfg { s with _query_seqs := HashMap.insert s._query_seqs p.gh.ip p.lq.seq_no,
                              log := s.log ++ [Event.push 1 (forwarded cfg p)] } := by
    intro old hold hlt
    rcases h with h0 | ⟨v, hv, hle⟩
    · left; exact h0
    · right
      by_cases hip : p.gh.ip = cfg.my_ip
      · refine ⟨p.lq.seq_no, ?_, ?_⟩
        · simp [hip, findp_insert_same]
        · intro hc
          have := hlt v (by rw [← hold, hip, hv])
          have := hle hc
          simp only at hc ⊢
          omega
      · refine ⟨v, ?_, hle⟩
        simp only
        rw [findp_insert_other _ _ _ _ (fun h => hip h.symm), hv]
  unfold handle_query
  split
  · exact own_seq_ok_of_eq cfg rfl rfl h
  · dsimp only
    split
    · rename_i seq_no hs
      split
      · exact own_seq_ok_of_eq cfg rfl rfl h
      · exact key _ hs (by intro v hv; cases hv; omega)
    · rename_i hs
      exact key _ hs (by intro v hv; cases hv)

theorem own_seq_ok_step (cfg : Config) (s : State) (op : Op) (h : own_seq_ok cfg s) :
    own_seq_ok cfg (step cfg s op) := by
  cases op with
  | outbound fresh p => exact own_seq_ok_nbr_encap cfg fresh s p h
  | reply fresh jiffies p => exact own_seq_ok_reply cfg fresh jiffies s p h
  | query p => exact own_seq_ok_query cfg s p h
  | sweep jiff => exact own_seq_ok_of_eq cfg rfl rfl h

theorem own_seq_ok_run (cfg : Config) (ops : List Op) (s : State) (h : own_seq_ok cfg s) :
    own_seq_ok cfg (run cfg s ops) := by
  induction ops generalizing s with
  | nil => exact h
  | cons op ops ih => exact ih _ (own_seq_ok_step cfg s op h)

theorem sent_between_refl (s : State) : sent_between s s :=
  ⟨[], by simp, le_refl _, by simp⟩

theorem sent_between_trans {s t u : State} (h1 : sent_between s t) (h2 : sent_between t u) :
    sent_between s u := by
  obtain ⟨e1, hl1, hc1, hn1⟩ := h1
  obtain ⟨e2, hl2, hc2, hn2⟩ := h2
  refine ⟨e1 ++ e2, by rw [hl2, hl1, List.append_assoc], le_trans hc1 hc2, ?_⟩
  intro n hn
  rw [List.filterMap_append, List.mem_append] at hn
  rcases hn with hn | hn
  · obtain ⟨k, hk1, hk2, hk3⟩ := hn1 n hn
    exact ⟨k, hk1, lt_of_lt_of_le hk2 hc2, hk3⟩
  · obtain ⟨k, hk1, hk2, hk3⟩ := hn2 n hn
    exact ⟨k, le_trans hc1 hk1, hk2, hk3⟩

theorem sent_between_quiet {s t : State} (evs : List Event) (hl : t.log = s.log ++ evs)
    (hc : t._loc_queries = s._loc_queries) (hq : evs.filterMap flood_seq_no = []) :
    sent_between s t :=
  ⟨evs, hl, le_of_eq hc.symm, by rw [hq]; simp⟩

theorem sent_between_send (cfg : Config) (s : State) (w : IPAddress) :
    sent_between s (send_query_for cfg s w) := by
  refine ⟨[Event.push 1 (make_query cfg s._loc_queries w)], rfl, by simp, ?_⟩
  intro n hn
  refine ⟨s._loc_queries, le_refl _, by simp, ?_⟩
  simpa [flood_seq_no, make_query] using hn

theorem sent_between_send_after (cfg : Config) {s t : State} (w : IPAddress)
    (h : sent_between s t) : sent_between s (send_query_for cfg t w) :=
  sent_between_trans h (sent_between_send cfg t w)

theorem sent_between_set_bucket {s t : State} (i : Nat) (c : List LocEntry)
    (h : sent_between s t) : sent_between s (t.set_bucket i c) :=
  sent_between_trans h (sent_between_quiet [] (by simp) rfl rfl)

theorem sent_between_emit {s t : State} (evs : List Event)
    (hq : evs.filterMap flood_seq_no = []) (h : sent_between s t) :
    sent_between s (t.emit evs) :=
  sent_between_trans h (sent_between_quiet evs rfl rfl hq)

theorem sent_between_kill_old {s t : State} (o : Option Packet) (h : sent_between s t) :
    sent_between s (kill_old t o) := by
  cases o with
  | none => exact h
  | some x => exact sent_between_trans h (sent_between_quiet [Event.kill x] rfl rfl rfl)

theorem sent_between_nbr_encap (cfg : Config) (fresh : LocEntry) (s : State) (p : Packet) :
    sent_between s (handle_nbr_encap cfg fresh s p) := by
  unfold handle_nbr_encap
  split
  · refine sent_between_emit _ ?_ (sent_between_refl s)
    rfl
  · dsimp only
    split
    · rename_i ae _
      by_cases hpoll : ae.polling = true <;> by_cases hok : ae.ok = true
      · rw [if_pos hpoll, if_pos hok]
        refine sent_between_emit _ ?_ ?_
        · rfl
        · apply sent_between_set_bucket
          exact sent_between_send cfg s ae.ip
      · rw [if_pos hpoll, if_neg hok]
        apply sent_between_send_after
        apply sent_between_set_bucket
        apply sent_between_kill_old
        apply sent_between_set_bucket
        exact sent_between_send cfg s ae.ip
      · rw [if_neg hpoll, if_pos hok]
        refine sent_between_emit _ ?_ (sent_between_refl s)
        rfl
      · rw [if_neg hpoll, if_neg hok]
        apply sent_between_send_after
        apply sent_between_set_bucket
        apply sent_between_kill_old
        exact sent_between_refl s
    · apply sent_between_send_after
      apply sent_between_set_bucket
      exact sent_between_refl s

theorem sent_between_reply (cfg : Config) (fresh : LocEntry) (jiffies : Int) (s : State)
    (p : Packet) : sent_between s (handle_reply cfg fresh jiffies s p) := by
  unfold handle_reply
  split
  · exact sent_between_refl s
  · dsimp only
    split
    · exact sent_between_refl s
    · refine sent_between_emit _ ?_ ?_
      · rfl
      · split
        · exact sent_between_trans (sent_between_set_bucket _ _ (sent_between_refl s))
            (sent_between_nbr_encap cfg fresh _ _)
        · exact sent_between_set_bucket _ _ (sent_between_refl s)

theorem sent_between_expire (cfg : Config) (jiff : Int) (s : State) :
    sent_between s (expire_hook cfg jiff s) := by
  refine sent_between_quiet
    ((List.range cfg.NMAP).flatMap (fun i => (expire_chain cfg jiff (s._map i)).2)
      ++ [Event.schedule_expire]) (by simp [expire_hook]) rfl ?_
  rw [List.filterMap_eq_nil_iff]
  intro ev hev
  simp only [List.mem_append, List.mem_flatMap, List.mem_singleton] at hev
  rcases hev with ⟨i, _, hi⟩ | hev
  · exact expire_chain_events cfg jiff _ ev hi
  · subst hev
    rfl

theorem originated_by_bound (cfg : Config) (s : State) (op : Op) :
    s._loc_queries ≤ (step cfg s op)._loc_queries
    ∧ ∀ n, n ∈ originated_by cfg s op →
        ∃ k, s._loc_queries ≤ k ∧ k < (step cfg s op)._loc_queries ∧ n = k % 2 ^ 32 := by
  have gen : ∀ t : State, sent_between s t →
      s._loc_queries ≤ t._loc_queries
      ∧ ∀ n, n ∈ (t.log.drop s.log.length).filterMap flood_seq_no →
          ∃ k, s._loc_queries ≤ k ∧ k < t._loc_queries ∧ n = k % 2 ^ 32 := by
    intro t ⟨evs, hl, hc, hn⟩
    refine ⟨hc, ?_⟩
    rw [hl, List.drop_left]
    exact hn
  cases op with
  | outbound fresh p => exact gen _ (sent_between_nbr_encap cfg fresh s p)
  | reply fresh jiffies p => exact gen _ (sent_between_reply cfg fresh jiffies s p)
  | query p =>
    refine ⟨le_of_eq (handle_query_loc_queries cfg s p).symm, ?_⟩
    intro n hn
    simp [originated_by] at hn
  | sweep jiff => exact gen _ (sent_between_expire cfg jiff s)

theorem originated_bound (cfg : Config) (ops : List Op) (s : State) :
    s._loc_queries ≤ (run cfg s ops)._loc_queries
    ∧ ∀ n, n ∈ originated cfg s ops →
        ∃ k, s._loc_queries ≤ k ∧ k < (run cfg s ops)._loc_queries ∧ n = k % 2 ^ 32 := by
  induction ops generalizing s with
  | nil => exact ⟨le_refl _, by intro n hn; simp [originated] at hn⟩
  | cons op ops ih =>
    obtain ⟨h1, h2⟩ := originated_by_bound cfg s op
    obtain ⟨h3, h4⟩ := ih (step cfg s op)
    refine ⟨le_trans h1 h3, ?_⟩
    intro n hn
    simp only [originated, List.mem_append] at hn
    rcases hn with hn | hn
    · obtain ⟨k, a, b, c⟩ := h2 n hn
      exact ⟨k, a, lt_of_lt_of_le b h3, c⟩
    · obtain ⟨k, a, b, c⟩ := h4 n hn
      exact ⟨k, le_trans h1 a, b, c⟩

/-! ### Packets held by entries along a run -/

theorem find_entry_mem {ipa : IPAddress} {l : List LocEntry} {ae : LocEntry}
    (h : find_entry ipa l = some ae) : ae ∈ l := by
  induction l with
  | nil => simp [find_entry] at h
  | cons a rest ih =>
    by_cases ha : a.ip = ipa
    · simp [find_entry, ha] at h
      subst h
      exact List.mem_cons_self _ _
    · simp [find_entry, ha] at h
      exact List.mem_cons_of_mem _ (ih h)

theorem mem_modify_entry {a : IPAddress} {f : LocEntry → LocEntry} {l : List LocEntry}
    {e : LocEntry} (h : e ∈ modify_entry a f l) :
    e ∈ l ∨ ∃ x, x ∈ l ∧ x.ip = a ∧ e = f x := by
  induction l with
  | nil => simp [modify_entry] at h
  | cons y rest ih =>
    by_cases hy : y.ip = a
    · simp [modify_entry, hy] at h
      rcases h with h | h
      · exact Or.inr ⟨y, List.mem_cons_self _ _, hy, h⟩
      · exact Or.inl (List.mem_cons_of_mem _ h)
    · simp [modify_entry, hy] at h
      rcases h with h | h
      · subst h
        exact Or.inl (List.mem_cons_self _ _)
      · rcases ih h with h1 | ⟨x, hx, hxa, hxe⟩
        · exact Or.inl (List.mem_cons_of_mem _ h1)
        · exact Or.inr ⟨x, List.mem_cons_of_mem _ hx, hxa, hxe⟩

theorem buffered_ok_of_map {s t : State} (h : t._map = s._map) (hs : buffered_ok s) :
    buffered_ok t := by
  unfold buffered_ok
  rw [h]
  exact hs

theorem buffered_ok_modify (s : State) (b : Nat) (a : IPAddress) (f : LocEntry → LocEntry)
    (hs : buffered_ok s)
    (hf : ∀ x, x ∈ s._map b → x.ip = a →
      ∀ P, (f x).p = some P → P.nb.dst_ip = (f x).ip ∧ P.nb.dst_loc_good = false) :
    buffered_ok (s.set_bucket b (modify_entry a f (s._map b))) := by
  intro i e he P hP
  rw [set_bucket_map] at he
  split at he
  · rcases mem_modify_entry he with h1 | ⟨x, hx, hxa, hxe⟩
    · exact hs b e h1 P hP
    · subst hxe
      exact hf x hx hxa P hP
  · exact hs i e he P hP

theorem buffered_ok_nbr_encap (cfg : Config) (fresh : LocEntry) (s : State) (p : Packet)
    (hs : buffered_ok s) : buffered_ok (handle_nbr_encap cfg fresh s p) := by
  unfold handle_nbr_encap
  by_cases hg : p.nb.dst_loc_good = true
  · rw [if_pos hg]
    exact buffered_ok_of_map rfl hs
  · rw [if_neg hg]
    have hg2 : p.nb.dst_loc_good = false := by simpa using hg
    dsimp only
    have hpoll : ∀ w, buffered_ok
        ((send_query_for cfg s w).set_bucket (bucket_of cfg p.nb.dst_ip)
          (modify_entry p.nb.dst_ip (fun e => { e with polling := false })
            ((send_query_for cfg s w)._map (bucket_of cfg p.nb.dst_ip)))) := by
      intro w
      refine buffered_ok_modify _ _ _ _ (buffered_ok_of_map rfl hs) ?_
      intro x hx _ P hP
      exact hs _ x hx P hP
    cases hfd : find_entry p.nb.dst_ip (s._map (bucket_of cfg p.nb.dst_ip)) with
    | none =>
      dsimp only
      refine buffered_ok_of_map (send_query_for_map _ _ _) ?_
      intro i e he P hP
      rw [set_bucket_map] at he
      split at he
      · rcases List.mem_cons.mp he with h | h
        · subst h
          simp only [Option.some.injEq] at hP
          subst hP
          exact ⟨rfl, hg2⟩
        · exact hs _ e h P hP
      · exact hs i e he P hP
    | some ae =>
      dsimp only
      have hin : ∀ (t : State), buffered_ok t →
          buffered_ok (send_query_for cfg
            ((kill_old t ae.p).set_bucket (bucket_of cfg p.nb.dst_ip)
              (modify_entry p.nb.dst_ip (fun e => { e with p := some p })
                ((kill_old t ae.p)._map (bucket_of cfg p.nb.dst_ip)))) p.dst_ip_anno) := by
        intro t ht
        refine buffered_ok_of_map (send_query_for_map _ _ _) ?_
        refine buffered_ok_modify _ _ _ _ (buffered_ok_of_map (kill_old_map _ _) ht) ?_
        intro x _ hxa P hP
        simp only [Option.some.injEq] at hP
        subst hP
        exact ⟨hxa.symm, hg2⟩
      by_cases hp : ae.polling = true <;> by_cases hok : ae.ok = true
      · rw [if_pos hp, if_pos hok]
        exact buffered_ok_of_map rfl (hpoll ae.ip)
      · rw [if_pos hp, if_neg hok]
        exact hin _ (hpoll ae.ip)
      · rw [if_neg hp, if_pos hok]
        exact buffered_ok_of_map rfl hs
      · rw [if_neg hp, if_neg hok]
        exact hin _ hs

theorem buffered_ok_reply (cfg : Config) (fresh : LocEntry) (jiffies : Int) (s : State)
    (p : Packet) (hs : buffered_ok s) : buffered_ok (handle_reply cfg fresh jiffies s p) := by
  unfold handle_reply
  split
  · exact hs
  · dsimp only
    split
    · exact hs
    · have h1 : buffered_ok (s.set_bucket (bucket_of cfg p.nb.dst_ip)
          (modify_entry p.nb.dst_ip (reply_update jiffies p)
            (s._map (bucket_of cfg p.nb.dst_ip)))) := by
        refine buffered_ok_modify _ _ _ _ hs ?_
        intro x _ _ P hP
        simp [reply_update] at hP
      refine buffered_ok_of_map (emit_map _ _) ?_
      split
      · exact buffered_ok_nbr_encap cfg fresh _ _ h1
      · exact h1

theorem buffered_ok_expire (cfg : Config) (jiff : Int) (s : State) (hs : buffered_ok s) :
    buffered_ok (expire_hook cfg jiff s) := by
  intro i e he P hP
  rw [expire_hook_map] at he
  split at he
  · rcases mem_expire_chain he with h | ⟨x, hx, hxe⟩
    · exact hs i e h P hP
    · subst hxe
      exact hs i x hx P hP
  · exact hs i e he P hP

theorem buffered_ok_step (cfg : Config) (s : State) (op : Op) (hs : buffered_ok s) :
    buffered_ok (step cfg s op) := by
  cases op with
  | outbound fresh p => exact buffered_ok_nbr_encap cfg fresh s p hs
  | reply fresh jiffies p => exact buffered_ok_reply cfg fresh jiffies s p hs
  | query p => exact buffered_ok_of_map (handle_query_map cfg s p) hs
  | sweep jiff => exact buffered_ok_expire cfg jiff s hs

theorem buffered_ok_run (cfg : Config) (ops : List Op) (s : State) (hs : buffered_ok s) :
    buffered_ok (run cfg s ops) := by
  induction ops generalizing s with
  | nil => exact hs
  | cons op ops ih => exact ih _ (buffered_ok_step cfg s op hs)

theorem buffered_ok_init : buffered_ok State.init := by
  intro i e he
  simp [State.init] at he

/-! ### The claims -/

/-- C1 (end-to-end scenario), evaluated on the code with a new entry whose unassigned
`loc_seq_no` reads 0.  The first packet creates the entry, is buffered, and query 0 goes
out.  The reply with sequence number 1 and location (10,20) is then not applied, because
`handle_reply` tests `ae->loc_seq_no > loc_seq_no`, here `0 > 1`: nothing is pushed on
port 0, the entry stays unresolved and holds the first packet again, and a second query
(number 1) goes out.  The second packet is then not pushed on port 0 either: it replaces
the first in the entry, the first is killed and counted, and a third query goes out. -/
theorem scenario_reply_not_applied :
    (demo_waiting 0).log = [Event.push 1 (make_query demo_cfg 0 demo_D)]
    ∧ (demo_waiting 0)._map (bucket_of demo_cfg demo_D) = [demo_entry 0]
    ∧ (handle_reply demo_cfg (demo_fresh 0) 1000 (demo_waiting 0) (demo_reply 1)).log
        = [Event.push 1 (make_query demo_cfg 0 demo_D),
           Event.push 1 (make_query demo_cfg 1 demo_D),
           Event.kill (demo_reply 1)]
    ∧ (handle_reply demo_cfg (demo_fresh 0) 1000 (demo_waiting 0) (demo_reply 1))._map
          (bucket_of demo_cfg demo_D) = [demo_entry 0]
    ∧ (demo_entry 0).ok = false ∧ (demo_entry 0).p = some (demo_data 1)
    ∧ (handle_nbr_encap demo_cfg (demo_fresh 0)
          (handle_reply demo_cfg (demo_fresh 0) 1000 (demo_waiting 0) (demo_reply 1))
          (demo_data 2)).log
        = [Event.push 1 (make_query demo_cfg 0 demo_D),
           Event.push 1 (make_query demo_cfg 1 demo_D),
           Event.kill (demo_reply 1),
           Event.kill (demo_data 1),
           Event.push 1 (make_query demo_cfg 2 demo_D)]
    ∧ (handle_nbr_encap demo_cfg (demo_fresh 0)
          (handle_reply demo_cfg (demo_fresh 0) 1000 (demo_waiting 0) (demo_reply 1))
          (demo_data 2))._pkts_killed = 1 := by
  decide

/-- The same scenario when the unassigned `loc_seq_no` of the new entry happens to read 5:
the reply with sequence number 1 passes the test `5 > 1`, the first packet is pushed on
port 0 with location (10,20), and the second packet is pushed on port 0 without a query. -/
theorem scenario_with_larger_stored_number :
    (handle_reply demo_cfg (demo_fresh 0) 1000 (demo_waiting 5) (demo_reply 1)).log
        = [Event.push 1 (make_query demo_cfg 0 demo_D),
           Event.push 0 (fill_location demo_cfg (apply_reply 1000 (demo_reply 1) (demo_entry 5))
              (demo_data 1)),
           Event.kill (demo_data 1),
           Event.kill (demo_reply 1)]
    ∧ (fill_location demo_cfg (apply_reply 1000 (demo_reply 1) (demo_entry 5))
          (demo_data 1)).nb.dst_loc = ⟨10, 20⟩
    ∧ (handle_nbr_encap demo_cfg (demo_fresh 0)
          (handle_reply demo_cfg (demo_fresh 0) 1000 (demo_waiting 5) (demo_reply 1))
          (demo_data 2)).log
        = (handle_reply demo_cfg (demo_fresh 0) 1000 (demo_waiting 5) (demo_reply 1)).log
            ++ [Event.push 0
                  (fill_location demo_cfg (apply_reply 1000 (demo_reply 1) (demo_entry 5))
                    (demo_data 2)),
                Event.kill (demo_data 2)] := by
  decide


/-- C2 (flood suppression).  In any state, if `handle_query` forwards a query `q1`
(pushes it on port 1), then a following query `q2` with the same origin and not addressed
to this node is forwarded exactly when its sequence number is greater than that of `q1`,
and is killed when its sequence number is less than or equal to it. -/
theorem flood_suppression (cfg : Config) (s : State) (q1 q2 : Packet)
    (hd2 : q2.lq.dst_ip ≠ cfg.my_ip)
    (horigin : q2.gh.ip = q1.gh.ip)
    (hfwd : (handle_query cfg s q1).log = s.log ++ [Event.push 1 (forwarded cfg q1)]) :
    ((handle_query cfg (handle_query cfg s q1) q2).log
        = (handle_query cfg s q1).log ++ [Event.push 1 (forwarded cfg q2)]
      ↔ q2.lq.seq_no > q1.lq.seq_no)
    ∧ (q2.lq.seq_no ≤ q1.lq.seq_no →
        (handle_query cfg (handle_query cfg s q1) q2).log
          = (handle_query cfg s q1).log ++ [Event.kill q2]) := by
  have hseqs : (handle_query cfg s q1)._query_seqs
      = HashMap.insert s._query_seqs q1.gh.ip q1.lq.seq_no := by
    rcases handle_query_log_cases cfg s q1 with ⟨hl, _⟩ | ⟨_, hq⟩
    · rw [hl] at hfwd
      simp at hfwd
    · exact hq
  have hfind : HashMap.findp (handle_query cfg s q1)._query_seqs q2.gh.ip
      = some q1.lq.seq_no := by
    rw [hseqs, horigin, findp_insert_same]
  generalize handle_query cfg s q1 = s1 at hfind ⊢
  unfold handle_query
  simp only [hd2, if_false, hfind]
  by_cases hle : q1.lq.seq_no ≥ q2.lq.seq_no
  · simp [hle]
  · simp [hle]
    omega

/-- C2 at a concrete input: after the query numbered 5 from `18.26.7.9` has been
forwarded from the initial state, the query numbered 7 from the same origin is forwarded. -/
theorem flood_suppression_witness :
    (demo_query ⟨18, 26, 7, 9⟩ 7).lq.dst_ip ≠ demo_cfg.my_ip
    ∧ (demo_query ⟨18, 26, 7, 9⟩ 7).gh.ip = (demo_query ⟨18, 26, 7, 9⟩ 5).gh.ip
    ∧ (handle_query demo_cfg State.init (demo_query ⟨18, 26, 7, 9⟩ 5)).log
        = State.init.log ++ [Event.push 1 (forwarded demo_cfg (demo_query ⟨18, 26, 7, 9⟩ 5))]
    ∧ ((handle_query demo_cfg
          (handle_query demo_cfg State.init (demo_query ⟨18, 26, 7, 9⟩ 5))
          (demo_query ⟨18, 26, 7, 9⟩ 7)).log
        = (handle_query demo_cfg State.init (demo_query ⟨18, 26, 7, 9⟩ 5)).log
            ++ [Event.push 1 (forwarded demo_cfg (demo_query ⟨18, 26, 7, 9⟩ 7))]
      ↔ (demo_query ⟨18, 26, 7, 9⟩ 7).lq.seq_no > (demo_query ⟨18, 26, 7, 9⟩ 5).lq.seq_no)
    ∧ ((demo_query ⟨18, 26, 7, 9⟩ 7).lq.seq_no ≤ (demo_query ⟨18, 26, 7, 9⟩ 5).lq.seq_no →
        (handle_query demo_cfg
          (handle_query demo_cfg State.init (demo_query ⟨18, 26, 7, 9⟩ 5))
          (demo_query ⟨18, 26, 7, 9⟩ 7)).log
        = (handle_query demo_cfg State.init (demo_query ⟨18, 26, 7, 9⟩ 5)).log
            ++ [Event.kill (demo_query ⟨18, 26, 7, 9⟩ 7)]) :=
  ⟨by decide, rfl, by decide,
    flood_suppression demo_cfg State.init (demo_query ⟨18, 26, 7, 9⟩ 5)
      (demo_query ⟨18, 26, 7, 9⟩ 7) (by decide) rfl (by decide)⟩


/-- C3 (a node never forwards its own query).  For the state reached from the initial
state by any sequence of operations during which the counter has not passed `2^32`, and
any sequence number `n` of a query originated during that sequence, `handle_query` on a
query with this node's address as origin and sequence number `n` pushes nothing: it only
kills the packet. -/
theorem own_query_never_forwarded (cfg : Config) (ops : List Op) (n : Nat) (p : Packet)
    (hc : (run cfg State.init ops)._loc_queries ≤ 2 ^ 32)
    (hn : n ∈ originated cfg State.init ops)
    (ho : p.gh.ip = cfg.my_ip) (hs : p.lq.seq_no = n) :
    (handle_query cfg (run cfg State.init ops) p).log
      = (run cfg State.init ops).log ++ [Event.kill p] := by
  obtain ⟨k, _, hk, hnk⟩ := (originated_bound cfg ops State.init).2 n hn
  have hinv : own_seq_ok cfg (run cfg State.init ops) :=
    own_seq_ok_run cfg ops State.init (Or.inl rfl)
  generalize run cfg State.init ops = s at hc hk hinv ⊢
  rcases hinv with h0 | ⟨v, hv, hle⟩
  · omega
  · have hle2 := hle hc
    have hkn : n = k := by
      rw [hnk]
      exact Nat.mod_eq_of_lt (by omega)
    unfold handle_query
    split
    · rfl
    · dsimp only
      rw [ho, hv]
      simp only
      rw [if_pos (by omega)]
      rfl

/-- C3 at a concrete input: after one data packet has made the element originate query 0,
that query, received back, is killed. -/
theorem own_query_never_forwarded_witness :
    (run demo_cfg State.init [Op.outbound (demo_fresh 0) (demo_data 1)])._loc_queries ≤ 2 ^ 32
    ∧ 0 ∈ originated demo_cfg State.init [Op.outbound (demo_fresh 0) (demo_data 1)]
    ∧ (demo_query demo_cfg.my_ip 0).gh.ip = demo_cfg.my_ip
    ∧ (demo_query demo_cfg.my_ip 0).lq.seq_no = 0
    ∧ (handle_query demo_cfg (run demo_cfg State.init [Op.outbound (demo_fresh 0) (demo_data 1)])
          (demo_query demo_cfg.my_ip 0)).log
        = (run demo_cfg State.init [Op.outbound (demo_fresh 0) (demo_data 1)]).log
            ++ [Event.kill (demo_query demo_cfg.my_ip 0)] :=
  ⟨by decide, by decide, rfl, rfl,
    own_query_never_forwarded demo_cfg [Op.outbound (demo_fresh 0) (demo_data 1)] 0
      (demo_query demo_cfg.my_ip 0) (by decide) (by decide) rfl rfl⟩


/-- C4 (first packet to an unknown destination).  For a data packet without a valid
location whose destination is not found in the table, `handle_nbr_encap` puts exactly one
new entry in front of the destination's chain (for that destination, unresolved, not
polling, holding the packet), leaves that chain's other entries and every other chain as
they were, and pushes exactly one query on port 1 and nothing on port 0. -/
theorem first_packet_creates_entry (cfg : Config) (fresh : LocEntry) (s : State) (p : Packet)
    (hgood : p.nb.dst_loc_good = false)
    (hnone : find_entry p.nb.dst_ip (s._map (bucket_of cfg p.nb.dst_ip)) = none) :
    (∃ ae : LocEntry, ae.ip = p.nb.dst_ip ∧ ae.ok = false ∧ ae.polling = false
        ∧ ae.p = some p
        ∧ (handle_nbr_encap cfg fresh s p)._map (bucket_of cfg p.nb.dst_ip)
            = ae :: s._map (bucket_of cfg p.nb.dst_ip))
    ∧ (∀ j, j ≠ bucket_of cfg p.nb.dst_ip →
        (handle_nbr_encap cfg fresh s p)._map j = s._map j)
    ∧ (handle_nbr_encap cfg fresh s p).log
        = s.log ++ [Event.push 1 (make_query cfg s._loc_queries p.dst_ip_anno)] := by
  rw [handle_nbr_encap_new cfg fresh s p hgood hnone]
  refine ⟨⟨{ fresh with ip := p.nb.dst_ip, ok := false, polling := false, p := some p },
    rfl, rfl, rfl, rfl, ?_⟩, ?_, ?_⟩
  · simp
  · intro j hj
    simp [hj]
  · simp

/-- C4 at a concrete input: the first data packet for `demo_D` in the initial state. -/
theorem first_packet_creates_entry_witness :
    (demo_data 1).nb.dst_loc_good = false
    ∧ find_entry (demo_data 1).nb.dst_ip
        (State.init._map (bucket_of demo_cfg (demo_data 1).nb.dst_ip)) = none
    ∧ (∃ ae : LocEntry, ae.ip = (demo_data 1).nb.dst_ip ∧ ae.ok = false ∧ ae.polling = false
        ∧ ae.p = some (demo_data 1)
        ∧ (handle_nbr_encap demo_cfg (demo_fresh 0) State.init (demo_data 1))._map
              (bucket_of demo_cfg (demo_data 1).nb.dst_ip)
            = ae :: State.init._map (bucket_of demo_cfg (demo_data 1).nb.dst_ip))
    ∧ (∀ j, j ≠ bucket_of demo_cfg (demo_data 1).nb.dst_ip →
        (handle_nbr_encap demo_cfg (demo_fresh 0) State.init (demo_data 1))._map j
          = State.init._map j)
    ∧ (handle_nbr_encap demo_cfg (demo_fresh 0) State.init (demo_data 1)).log
        = State.init.log
            ++ [Event.push 1 (make_query demo_cfg State.init._loc_queries
                  (demo_data 1).dst_ip_anno)] :=
  ⟨rfl, rfl, first_packet_creates_entry demo_cfg (demo_fresh 0) State.init (demo_data 1) rfl rfl⟩

/-- C5 (one buffered packet per entry).  From a state where `D` is not found in the
table, two data packets `P1`, `P2` for `D` without valid location, handed in one after the
other, leave the entry found for `D` unresolved and holding `P2`; `P1` is killed and
`_pkts_killed` has grown by exactly 1. -/
theorem second_packet_replaces_first (cfg : Config) (fresh1 fresh2 : LocEntry) (s : State)
    (D : IPAddress) (P1 P2 : Packet)
    (hD1 : P1.nb.dst_ip = D) (hD2 : P2.nb.dst_ip = D)
    (hg1 : P1.nb.dst_loc_good = false) (hg2 : P2.nb.dst_loc_good = false)
    (hnone : find_entry D (s._map (bucket_of cfg D)) = none) :
    (∃ ae : LocEntry,
        find_entry D
          ((handle_nbr_encap cfg fresh2 (handle_nbr_encap cfg fresh1 s P1) P2)._map
            (bucket_of cfg D)) = some ae
        ∧ ae.p = some P2 ∧ ae.ok = false)
    ∧ (handle_nbr_encap cfg fresh2 (handle_nbr_encap cfg fresh1 s P1) P2)._pkts_killed
        = s._pkts_killed + 1
    ∧ (handle_nbr_encap cfg fresh2 (handle_nbr_encap cfg fresh1 s P1) P2).log
        = s.log ++ [Event.push 1 (make_query cfg s._loc_queries P1.dst_ip_anno),
                    Event.kill P1,
                    Event.push 1 (make_query cfg (s._loc_queries + 1) P2.dst_ip_anno)] := by
  subst hD1
  rw [handle_nbr_encap_new cfg fresh1 s P1 hg1 hnone]
  unfold handle_nbr_encap
  simp [hg2, hD2, find_entry, modify_entry]

/-- C5 at a concrete input: two data packets for `demo_D` from the initial state. -/
theorem second_packet_replaces_first_witness :
    (demo_data 1).nb.dst_ip = demo_D ∧ (demo_data 2).nb.dst_ip = demo_D
    ∧ (demo_data 1).nb.dst_loc_good = false ∧ (demo_data 2).nb.dst_loc_good = false
    ∧ find_entry demo_D (State.init._map (bucket_of demo_cfg demo_D)) = none
    ∧ (∃ ae : LocEntry,
        find_entry demo_D
          ((handle_nbr_encap demo_cfg (demo_fresh 0)
              (handle_nbr_encap demo_cfg (demo_fresh 0) State.init (demo_data 1))
              (demo_data 2))._map (bucket_of demo_cfg demo_D)) = some ae
        ∧ ae.p = some (demo_data 2) ∧ ae.ok = false)
    ∧ (handle_nbr_encap demo_cfg (demo_fresh 0)
          (handle_nbr_encap demo_cfg (demo_fresh 0) State.init (demo_data 1))
          (demo_data 2))._pkts_killed = State.init._pkts_killed + 1
    ∧ (handle_nbr_encap demo_cfg (demo_fresh 0)
          (handle_nbr_encap demo_cfg (demo_fresh 0) State.init (demo_data 1))
          (demo_data 2)).log
        = State.init.log
            ++ [Event.push 1 (make_query demo_cfg State.init._loc_queries
                  (demo_data 1).dst_ip_anno),
                Event.kill (demo_data 1),
                Event.push 1 (make_query demo_cfg (State.init._loc_queries + 1)
                  (demo_data 2).dst_ip_anno)] :=
  ⟨rfl, rfl, rfl, rfl, rfl,
    second_packet_replaces_first demo_cfg (demo_fresh 0) (demo_fresh 0) State.init demo_D
      (demo_data 1) (demo_data 2) rfl rfl rfl rfl rfl⟩

/-- C6 (an accepted reply releases the buffered packet).  In the state reached from
the initial state by any sequence of operations, for an entry found for the reply's
destination that is unresolved and holds a packet `P`, and a reply of at least the minimum
size that passes the acceptance test, `handle_reply` pushes `P` on port 0 with `tx_ip` set
to this node and the destination location, error and validity fields set to the reply's,
pushes no query, kills `P` and the reply, and leaves the entry resolved, with the reply's
location data and an empty packet slot. -/
theorem accepted_reply_releases_packet (cfg : Config) (ops : List Op) (fresh : LocEntry)
    (jiffies : Int) (r : Packet) (ae : LocEntry) (P : Packet)
    (hlen : cfg.sizeof_click_ether + cfg.sizeof_grid_hdr + cfg.sizeof_grid_nbr_encap ≤ r.length)
    (hfind : find_entry r.nb.dst_ip
      ((run cfg State.init ops)._map (bucket_of cfg r.nb.dst_ip)) = some ae)
    (hok : ae.ok = false) (hp : ae.p = some P)
    (hacc : accepts ae r = true) :
    (handle_reply cfg fresh jiffies (run cfg State.init ops) r).log
        = (run cfg State.init ops).log
            ++ [Event.push 0
                  { P with
                    gh := { P.gh with tx_ip := cfg.my_ip }
                    nb := { P.nb with dst_loc := r.gh.loc, dst_loc_err := r.gh.loc_err,
                                      dst_loc_good := r.gh.loc_good } },
                Event.kill P, Event.kill r]
    ∧ (∃ e : LocEntry,
        find_entry r.nb.dst_ip
          ((handle_reply cfg fresh jiffies (run cfg State.init ops) r)._map
            (bucket_of cfg r.nb.dst_ip)) = some e
        ∧ e.ok = true ∧ e.p = none ∧ e.loc = r.gh.loc ∧ e.loc_err = r.gh.loc_err
        ∧ e.loc_good = r.gh.loc_good ∧ e.ok ≠ ae.ok) := by
  obtain ⟨hPd, hPg⟩ :=
    buffered_ok_run cfg ops State.init buffered_ok_init _ ae (find_entry_mem hfind) P hp
  obtain ⟨hlog, e, he, h1, h2, h3, h4, h5⟩ :=
    accepted_reply_releases_buffered cfg fresh jiffies (run cfg State.init ops) r ae P hlen
      hfind hp hPd hPg hacc
  refine ⟨hlog, e, he, h1, h2, h3, h4, h5, ?_⟩
  rw [h1, hok]
  decide

/-- C6 at a concrete input: after one data packet for `demo_D` (the new entry's stored
number reading 5), the reply numbered 1. -/
theorem accepted_reply_releases_packet_witness :
    demo_cfg.sizeof_click_ether + demo_cfg.sizeof_grid_hdr + demo_cfg.sizeof_grid_nbr_encap
        ≤ (demo_reply 1).length
    ∧ find_entry (demo_reply 1).nb.dst_ip
        ((run demo_cfg State.init [Op.outbound (demo_fresh 5) (demo_data 1)])._map
          (bucket_of demo_cfg (demo_reply 1).nb.dst_ip))
        = some (demo_entry 5)
    ∧ (demo_entry 5).ok = false
    ∧ (demo_entry 5).p = some (demo_data 1)
    ∧ accepts (demo_entry 5) (demo_reply 1) = true
    ∧ (handle_reply demo_cfg (demo_fresh 0) 1000
          (run demo_cfg State.init [Op.outbound (demo_fresh 5) (demo_data 1)])
          (demo_reply 1)).log
        = (run demo_cfg State.init [Op.outbound (demo_fresh 5) (demo_data 1)]).log
            ++ [Event.push 0
                  { demo_data 1 with
                    gh := { (demo_data 1).gh with tx_ip := demo_cfg.my_ip }
                    nb := { (demo_data 1).nb with
                            dst_loc := (demo_reply 1).gh.loc
                            dst_loc_err := (demo_reply 1).gh.loc_err
                            dst_loc_good := (demo_reply 1).gh.loc_good } },
                Event.kill (demo_data 1), Event.kill (demo_reply 1)]
    ∧ (∃ e : LocEntry,
        find_entry (demo_reply 1).nb.dst_ip
          ((handle_reply demo_cfg (demo_fresh 0) 1000
              (run demo_cfg State.init [Op.outbound (demo_fresh 5) (demo_data 1)])
              (demo_reply 1))._map
            (bucket_of demo_cfg (demo_reply 1).nb.dst_ip)) = some e
        ∧ e.ok = true ∧ e.p = none ∧ e.loc = (demo_reply 1).gh.loc
        ∧ e.loc_err = (demo_reply 1).gh.loc_err
        ∧ e.loc_good = (demo_reply 1).gh.loc_good ∧ e.ok ≠ (demo_entry 5).ok) :=
  ⟨by decide, by decide, rfl, rfl, by decide,
    accepted_reply_releases_packet demo_cfg [Op.outbound (demo_fresh 5) (demo_data 1)]
      (demo_fresh 0) 1000 (demo_reply 1) (demo_entry 5) (demo_data 1)
      (by decide) (by decide) rfl rfl (by decide)⟩


/-- C7 as stated fails.  In the state `demo_waiting 0` (an unresolved entry for `demo_D`
with stored number 0, holding the first data packet) the reply numbered 0 is not applied.
After its first application the entry still holds the packet, and the second application
of the same reply pushes a further query on port 1. -/
theorem repeated_reply_counterexample :
    (handle_reply demo_cfg (demo_fresh 0) 1000 (demo_waiting 0) (demo_reply 0))._map
        (bucket_of demo_cfg demo_D) = [demo_entry 0]
    ∧ (demo_entry 0).p = some (demo_data 1)
    ∧ (handle_reply demo_cfg (demo_fresh 0) 1000
          (handle_reply demo_cfg (demo_fresh 0) 1000 (demo_waiting 0) (demo_reply 0))
          (demo_reply 0)).log
        = (handle_reply demo_cfg (demo_fresh 0) 1000 (demo_waiting 0) (demo_reply 0)).log
            ++ [Event.push 1 (make_query demo_cfg 2 demo_D), Event.kill (demo_reply 0)] := by
  decide


/-- The second of two applications of one reply, in any state: it pushes nothing on port 0;
and if the first application leaves no entry or a resolved one for the reply's destination,
that entry holds no packet and the second application only kills the reply. -/
theorem repeated_reply_any_state (cfg : Config) (fresh1 fresh2 : LocEntry)
    (j1 j2 : Int) (s : State) (r : Packet)
    (hlen : cfg.sizeof_click_ether + cfg.sizeof_grid_hdr + cfg.sizeof_grid_nbr_encap ≤ r.length) :
    (∃ evs, (handle_reply cfg fresh2 j2 (handle_reply cfg fresh1 j1 s r) r).log
        = (handle_reply cfg fresh1 j1 s r).log ++ evs ∧ no_port0 evs)
    ∧ ((∀ e, find_entry r.nb.dst_ip
          ((handle_reply cfg fresh1 j1 s r)._map (bucket_of cfg r.nb.dst_ip)) = some e →
          e.ok = true) →
        (∀ e, find_entry r.nb.dst_ip
          ((handle_reply cfg fresh1 j1 s r)._map (bucket_of cfg r.nb.dst_ip)) = some e →
          e.p = none)
        ∧ (handle_reply cfg fresh2 j2 (handle_reply cfg fresh1 j1 s r) r)._map
            = (handle_reply cfg fresh1 j1 s r)._map
        ∧ (handle_reply cfg fresh2 j2 (handle_reply cfg fresh1 j1 s r) r)._query_seqs
            = (handle_reply cfg fresh1 j1 s r)._query_seqs
        ∧ (handle_reply cfg fresh2 j2 (handle_reply cfg fresh1 j1 s r) r)._loc_queries
            = (handle_reply cfg fresh1 j1 s r)._loc_queries
        ∧ (handle_reply cfg fresh2 j2 (handle_reply cfg fresh1 j1 s r) r)._pkts_killed
            = (handle_reply cfg fresh1 j1 s r)._pkts_killed
        ∧ ((handle_reply cfg fresh2 j2 (handle_reply cfg fresh1 j1 s r) r).log
              = (handle_reply cfg fresh1 j1 s r).log
            ∨ (handle_reply cfg fresh2 j2 (handle_reply cfg fresh1 j1 s r) r).log
              = (handle_reply cfg fresh1 j1 s r).log ++ [Event.kill r])) := by
  have hlen2 : ¬ r.length
      < cfg.sizeof_click_ether + cfg.sizeof_grid_hdr + cfg.sizeof_grid_nbr_encap := by omega
  cases hfind : find_entry r.nb.dst_ip (s._map (bucket_of cfg r.nb.dst_ip)) with
  | none =>
    have h1 : handle_reply cfg fresh1 j1 s r = s := by
      unfold handle_reply
      simp [hlen2, hfind]
    have h2 : handle_reply cfg fresh2 j2 s r = s := by
      unfold handle_reply
      simp [hlen2, hfind]
    rw [h1, h2]
    refine ⟨⟨[], by simp, by simp [no_port0]⟩, ?_⟩
    intro _
    simp [hfind]
  | some ae =>
    obtain ⟨e1, hf1, hacc, hpk, _, _, hpc⟩ := handle_reply_find cfg fresh1 j1 s r ae hlen hfind
    generalize handle_reply cfg fresh1 j1 s r = s1 at hf1 ⊢
    have hnoop : e1.p = none → handle_reply cfg fresh2 j2 s1 r = s1.emit [Event.kill r] := by
      intro hp1
      unfold handle_reply
      simp only [hlen2, if_false, hf1, hp1]
      rw [modify_entry_fixed _ _ _ e1 hf1 (reply_update_fixed j2 r e1 hacc hp1), set_bucket_self]
    constructor
    · rcases hpc with hp1 | ⟨c, hp1, hcd, hcg⟩
      · rw [hnoop hp1]
        exact ⟨[Event.kill r], rfl, by simp [no_port0]⟩
      · have hok1 : e1.ok = false := by
          cases hb : e1.ok with
          | false => rfl
          | true =>
            rw [hpk hb] at hp1
            exact Option.noConfusion hp1
        have hf2 : find_entry c.nb.dst_ip
            ((s1.set_bucket (bucket_of cfg r.nb.dst_ip)
                (modify_entry r.nb.dst_ip (reply_update j2 r)
                  (s1._map (bucket_of cfg r.nb.dst_ip))))._map (bucket_of cfg c.nb.dst_ip))
            = some (reply_update j2 r e1) := by
          rw [hcd]
          simp [find_entry_modify, hf1]
        have hok2 : (reply_update j2 r e1).ok = false := by
          rw [reply_update_rejected _ _ _ hacc]
          exact hok1
        obtain ⟨evs, hl, hn⟩ :=
          handle_nbr_encap_unresolved_log cfg fresh2 _ c _ hcg hf2 hok2
        refine ⟨evs ++ [Event.kill r], ?_, ?_⟩
        · unfold handle_reply
          simp only [hlen2, if_false, hf1, hp1, emit_log, hl, set_bucket_log, List.append_assoc]
        · intro q hq
          rw [List.mem_append] at hq
          rcases hq with hq | hq
          · exact hn q hq
          · simp at hq
    · intro hres
      have hp1 : e1.p = none := hpk (hres e1 hf1)
      rw [hnoop hp1]
      refine ⟨?_, rfl, rfl, rfl, rfl, Or.inr rfl⟩
      intro e he
      rw [hf1] at he
      cases he
      exact hp1

/-- C8 (expiration sweep).  When `120 * CLICK_HZ` fits an `int` and the idle time
`now - last_response_jiffies` of every resolved entry is computed without overflow, every
chain of the table after `expire_hook` is what `sweep_spec` prescribes: the entries that
were resolved and idle for more than 120 seconds are gone, the other resolved entries idle
for more than 60 seconds have `polling` set, and all remaining entries are unchanged, in
their former order. -/
theorem sweep_matches_spec (cfg : Config) (now : Int) (s : State)
    (hhz : 120 * cfg.CLICK_HZ < 2 ^ 31)
    (hgap : ∀ i, i < cfg.NMAP → ∀ e, e ∈ s._map i → e.ok = true →
      -2 ^ 31 ≤ now - e.last_response_jiffies ∧ now - e.last_response_jiffies < 2 ^ 31)
    (i : Nat) (hi : i < cfg.NMAP) :
    (expire_hook cfg now s)._map i = sweep_spec cfg now (s._map i) := by
  rw [expire_hook_map, if_pos hi]
  exact expire_chain_spec cfg now _ hhz (hgap i hi)

/-- C8 at a concrete input: `demo_table` swept at tick 100000 (100 ticks per second).  The
entry idle for 130 seconds is removed, the one idle for 90 seconds is marked, the one idle
for 50 seconds and the unresolved one are unchanged. -/
theorem sweep_matches_spec_witness :
    120 * demo_cfg.CLICK_HZ < 2 ^ 31
    ∧ (∀ i, i < demo_cfg.NMAP → ∀ e, e ∈ demo_table._map i → e.ok = true →
        -2 ^ 31 ≤ 100000 - e.last_response_jiffies ∧ 100000 - e.last_response_jiffies < 2 ^ 31)
    ∧ 0 < demo_cfg.NMAP
    ∧ (expire_hook demo_cfg 100000 demo_table)._map 0
        = sweep_spec demo_cfg 100000 (demo_table._map 0)
    ∧ sweep_spec demo_cfg 100000 (demo_table._map 0)
        = [demo_entry 0, demo_aged 6 true 95000,
           { demo_aged 10 true 91000 with polling := true }] :=
  have hgap : ∀ i, i < demo_cfg.NMAP → ∀ e, e ∈ demo_table._map i → e.ok = true →
      -2 ^ 31 ≤ 100000 - e.last_response_jiffies
        ∧ 100000 - e.last_response_jiffies < 2 ^ 31 := by
    decide
  ⟨by decide, hgap, by decide,
    sweep_matches_spec demo_cfg 100000 demo_table (by decide) hgap 0 (by decide), by decide⟩


/-- C9 (the sweep leaves unresolved entries alone).  For every state, sweep time and
chain, the unresolved entries of the chain after `expire_hook` are exactly the unresolved
entries before it, in the same order and with all fields, the packet slot included,
unchanged; in particular every unresolved entry is still in its chain. -/
theorem sweep_keeps_unresolved (cfg : Config) (jiff : Int) (s : State) (i : Nat) :
    ((expire_hook cfg jiff s)._map i).filter (fun e => !e.ok)
        = (s._map i).filter (fun e => !e.ok)
    ∧ (∀ e, e ∈ s._map i → e.ok = false → e ∈ (expire_hook cfg jiff s)._map i) := by
  have h : ((expire_hook cfg jiff s)._map i).filter (fun e => !e.ok)
      = (s._map i).filter (fun e => !e.ok) := by
    rw [expire_hook_map]
    split
    · exact expire_chain_unresolved cfg jiff _
    · rfl
  refine ⟨h, ?_⟩
  intro e he hok
  have h1 : e ∈ (s._map i).filter (fun e => !e.ok) := by
    simp [List.mem_filter, he, hok]
  rw [← h] at h1
  exact (List.mem_filter.mp h1).1

/-- C9 at a concrete input: the unresolved entry of `demo_table`, created at tick 0, is
still there, unchanged, after the sweep at tick 100000. -/
theorem sweep_keeps_unresolved_witness :
    demo_entry 0 ∈ demo_table._map 0 ∧ (demo_entry 0).ok = false
    ∧ demo_entry 0 ∈ (expire_hook demo_cfg 100000 demo_table)._map 0 :=
  ⟨by decide, rfl,
    (sweep_keeps_unresolved demo_cfg 100000 demo_table 0).2 (demo_entry 0) (by decide) rfl⟩


/-- Every update `handle_reply` applies lowers the sequence number the entry stores: when
the reply passes the acceptance test, the entry found afterwards stores the reply's number,
which is smaller than the number stored before. -/
theorem applied_update_lowers_stored_number (cfg : Config) (fresh : LocEntry) (jiffies : Int)
    (s : State) (r : Packet) (ae : LocEntry)
    (hlen : cfg.sizeof_click_ether + cfg.sizeof_grid_hdr + cfg.sizeof_grid_nbr_encap ≤ r.length)
    (hfind : find_entry r.nb.dst_ip (s._map (bucket_of cfg r.nb.dst_ip)) = some ae)
    (hacc : accepts ae r = true) :
    ∃ e : LocEntry,
      find_entry r.nb.dst_ip
        ((handle_reply cfg fresh jiffies s r)._map (bucket_of cfg r.nb.dst_ip)) = some e
      ∧ e.loc_seq_no = r.gh.loc_seq_no ∧ e.loc_seq_no < ae.loc_seq_no := by
  obtain ⟨e, he, _, _, hseq, _⟩ := handle_reply_find cfg fresh jiffies s r ae hlen hfind
  rw [reply_update_accepted _ _ _ hacc] at hseq
  have hlt : r.gh.loc_seq_no < ae.loc_seq_no := by simpa [accepts] using hacc
  refine ⟨e, he, hseq, ?_⟩
  rw [hseq]
  exact hlt

/-- C10 (monotone `loc_seq_no`), evaluated on the code.  The entry of `demo_waiting 5`
stores sequence number 5.  The reply numbered 1 passes the acceptance test and is applied,
after which the entry stores 1, less than before; the reply numbered 7 does not pass the
test and leaves the stored number at 5. -/
theorem applied_update_decreases_sequence :
    (find_entry demo_D ((demo_waiting 5)._map (bucket_of demo_cfg demo_D))).map
        LocEntry.loc_seq_no = some 5
    ∧ accepts (demo_entry 5) (demo_reply 1) = true
    ∧ (find_entry demo_D
        ((handle_reply demo_cfg (demo_fresh 0) 1000 (demo_waiting 5) (demo_reply 1))._map
          (bucket_of demo_cfg demo_D))).map LocEntry.loc_seq_no = some 1
    ∧ accepts (demo_entry 5) (demo_reply 7) = false
    ∧ (find_entry demo_D
        ((handle_reply demo_cfg (demo_fresh 0) 1000 (demo_waiting 5) (demo_reply 7))._map
          (bucket_of demo_cfg demo_D))).map LocEntry.loc_seq_no = some 5 := by
  decide

/-! ### Lemmas on the table across operations -/

@[simp] theorem nbr_update_ip (p : Packet) (e : LocEntry) : (nbr_update p e).ip = e.ip := by
  unfold nbr_update
  split <;> rfl

@[simp] theorem apply_reply_ip (jiffies : Int) (p : Packet) (e : LocEntry) :
    (apply_reply jiffies p e).ip = e.ip := rfl

theorem modify_entry_congr (a : IPAddress) (f g : LocEntry → LocEntry) (l : List LocEntry)
    (x : LocEntry) (h : find_entry a l = some x) (hfg : f x = g x) :
    modify_entry a f l = modify_entry a g l := by
  induction l with
  | nil => rfl
  | cons y rest ih =>
    by_cases hy : y.ip = a
    · simp [find_entry, hy] at h
      subst h
      simp [modify_entry, hy, hfg]
    · simp [find_entry, hy] at h
      simp [modify_entry, hy, ih h]

theorem modify_entry_none (a : IPAddress) (f : LocEntry → LocEntry) (l : List LocEntry)
    (h : find_entry a l = none) : modify_entry a f l = l := by
  induction l with
  | nil => rfl
  | cons y rest ih =>
    by_cases hy : y.ip = a
    · simp [find_entry, hy] at h
    · simp [find_entry, hy] at h
      simp [modify_entry, hy, ih h]

theorem modify_entry_comp (a : IPAddress) (f g : LocEntry → LocEntry) (l : List LocEntry)
    (hg : ∀ e, (g e).ip = e.ip) :
    modify_entry a f (modify_entry a g l) = modify_entry a (fun e => f (g e)) l := by
  induction l with
  | nil => rfl
  | cons y rest ih =>
    by_cases hy : y.ip = a
    · simp [modify_entry, hy, hg]
    · simp [modify_entry, hy, ih]

theorem mem_modify_entry_find {a : IPAddress} {f : LocEntry → LocEntry} {l : List LocEntry}
    {e : LocEntry} (h : e ∈ modify_entry a f l) :
    e ∈ l ∨ ∃ x, find_entry a l = some x ∧ e = f x := by
  induction l with
  | nil => simp [modify_entry] at h
  | cons y rest ih =>
    by_cases hy : y.ip = a
    · simp [modify_entry, hy] at h
      rcases h with h | h
      · exact Or.inr ⟨y, by simp [find_entry, hy], h⟩
      · exact Or.inl (List.mem_cons_of_mem _ h)
    · simp [modify_entry, hy] at h
      rcases h with h | h
      · subst h
        exact Or.inl (List.mem_cons_self _ _)
      · rcases ih h with h1 | ⟨x, hx, hxe⟩
        · exact Or.inl (List.mem_cons_of_mem _ h1)
        · exact Or.inr ⟨x, by simp [find_entry, hy, hx], hxe⟩

theorem map_ip_modify_entry (a : IPAddress) (f : LocEntry → LocEntry) (l : List LocEntry)
    (hf : ∀ e, (f e).ip = e.ip) :
    (modify_entry a f l).map LocEntry.ip = l.map LocEntry.ip := by
  induction l with
  | nil => rfl
  | cons y rest ih =>
    by_cases hy : y.ip = a
    · simp [modify_entry, hy, hf]
    · simp [modify_entry, hy, ih]

theorem find_entry_none_not_mem {a : IPAddress} {l : List LocEntry}
    (h : find_entry a l = none) : a ∉ l.map LocEntry.ip := by
  induction l with
  | nil => simp
  | cons y rest ih =>
    by_cases hy : y.ip = a
    · simp [find_entry, hy] at h
    · simp [find_entry, hy] at h
      simp only [List.map_cons, List.mem_cons, not_or]
      exact ⟨fun h2 => hy h2.symm, ih h⟩

/-- The table after `handle_nbr_encap` has found an entry for a packet without valid location:
the entry is rewritten by `nbr_update`, nothing else changes. -/
theorem handle_nbr_encap_map_found (cfg : Config) (fresh : LocEntry) (s : State) (p : Packet)
    (x : LocEntry) (hg : p.nb.dst_loc_good = false)
    (hf : find_entry p.nb.dst_ip (s._map (bucket_of cfg p.nb.dst_ip)) = some x) (j : Nat) :
    (handle_nbr_encap cfg fresh s p)._map j
      = if j = bucket_of cfg p.nb.dst_ip then
          modify_entry p.nb.dst_ip (nbr_update p) (s._map (bucket_of cfg p.nb.dst_ip))
        else s._map j := by
  unfold handle_nbr_encap
  simp only [hg, Bool.false_eq_true, if_false, hf]
  by_cases hj : j = bucket_of cfg p.nb.dst_ip
  · rw [if_pos hj]
    by_cases hpoll : x.polling = true <;> by_cases hok : x.ok = true
    · rw [if_pos hpoll, if_pos hok]
      simp only [emit_map, set_bucket_map, send_query_for_map, if_pos hj]
      exact modify_entry_congr _ _ _ _ x hf (by simp [nbr_update, hok])
    · rw [if_pos hpoll, if_neg hok]
      simp only [send_query_for_map, set_bucket_map, kill_old_map, if_pos hj, if_true]
      rw [modify_entry_comp p.nb.dst_ip _ (fun e => { e with polling := false }) _
        (fun e => rfl)]
      exact modify_entry_congr _ _ _ _ x hf (by simp [nbr_update, hok])
    · rw [if_neg hpoll, if_pos hok]
      simp only [emit_map]
      subst hj
      symm
      apply modify_entry_fixed _ _ _ x hf
      cases x
      simp at hpoll hok
      simp [nbr_update, hpoll, hok]
    · rw [if_neg hpoll, if_neg hok]
      simp only [send_query_for_map, set_bucket_map, kill_old_map, if_pos hj]
      apply modify_entry_congr _ _ _ _ x hf
      cases x
      simp at hpoll hok
      simp [nbr_update, hpoll, hok]
  · rw [if_neg hj]
    by_cases hpoll : x.polling = true <;> by_cases hok : x.ok = true
    · rw [if_pos hpoll, if_pos hok]
      simp only [emit_map, set_bucket_map, send_query_for_map, if_neg hj]
    · rw [if_pos hpoll, if_neg hok]
      simp only [send_query_for_map, set_bucket_map, kill_old_map, if_neg hj]
    · rw [if_neg hpoll, if_pos hok]
      simp only [emit_map]
    · rw [if_neg hpoll, if_neg hok]
      simp only [send_query_for_map, set_bucket_map, kill_old_map, if_neg hj]

/-- The table after `handle_nbr_encap` has found no entry for a packet without valid
location: a new entry is put in front of the destination's chain. -/
theorem handle_nbr_encap_map_new (cfg : Config) (fresh : LocEntry) (s : State) (p : Packet)
    (hg : p.nb.dst_loc_good = false)
    (hf : find_entry p.nb.dst_ip (s._map (bucket_of cfg p.nb.dst_ip)) = none) (j : Nat) :
    (handle_nbr_encap cfg fresh s p)._map j
      = if j = bucket_of cfg p.nb.dst_ip then
          { fresh with ip := p.nb.dst_ip, ok := false, polling := false, p := some p }
            :: s._map (bucket_of cfg p.nb.dst_ip)
        else s._map j := by
  rw [handle_nbr_encap_new cfg fresh s p hg hf]
  simp

theorem handle_nbr_encap_map_good (cfg : Config) (fresh : LocEntry) (s : State) (p : Packet)
    (hg : p.nb.dst_loc_good = true) :
    (handle_nbr_encap cfg fresh s p)._map = s._map := by
  unfold handle_nbr_encap
  rw [if_pos hg]
  rfl

theorem handle_reply_short (cfg : Config) (fresh : LocEntry) (jiffies : Int) (s : State)
    (r : Packet)
    (h : r.length < cfg.sizeof_click_ether + cfg.sizeof_grid_hdr + cfg.sizeof_grid_nbr_encap) :
    handle_reply cfg fresh jiffies s r = s := by
  unfold handle_reply
  rw [if_pos h]

theorem handle_reply_unknown (cfg : Config) (fresh : LocEntry) (jiffies : Int) (s : State)
    (r : Packet)
    (hf : find_entry r.nb.dst_ip (s._map (bucket_of cfg r.nb.dst_ip)) = none) :
    handle_reply cfg fresh jiffies s r = s := by
  unfold handle_reply
  split
  · rfl
  · simp only [hf]

theorem handle_reply_found (cfg : Config) (fresh : LocEntry) (jiffies : Int) (s : State)
    (r : Packet) (ae : LocEntry)
    (hlen : cfg.sizeof_click_ether + cfg.sizeof_grid_hdr + cfg.sizeof_grid_nbr_encap ≤ r.length)
    (hf : find_entry r.nb.dst_ip (s._map (bucket_of cfg r.nb.dst_ip)) = some ae) :
    handle_reply cfg fresh jiffies s r
      = (match ae.p with
          | some c =>
            handle_nbr_encap cfg fresh
              (s.set_bucket (bucket_of cfg r.nb.dst_ip)
                (modify_entry r.nb.dst_ip (reply_update jiffies r)
                  (s._map (bucket_of cfg r.nb.dst_ip)))) c
          | none =>
            s.set_bucket (bucket_of cfg r.nb.dst_ip)
              (modify_entry r.nb.dst_ip (reply_update jiffies r)
                (s._map (bucket_of cfg r.nb.dst_ip)))).emit [Event.kill r] := by
  have hlen2 : ¬ r.length
      < cfg.sizeof_click_ether + cfg.sizeof_grid_hdr + cfg.sizeof_grid_nbr_encap := by omega
  unfold handle_reply
  simp only [hlen2, if_false, hf]

/-- A property of entries that holds throughout the table still holds after one entry has
been rewritten by a function that keeps it. -/
theorem forall_entries_modify (Q : LocEntry → Prop) (s : State) (b : Nat) (a : IPAddress)
    (f : LocEntry → LocEntry) (hs : ∀ i e, e ∈ s._map i → Q e)
    (hf : ∀ x, find_entry a (s._map b) = some x → Q x → Q (f x)) :
    ∀ i e, e ∈ (s.set_bucket b (modify_entry a f (s._map b)))._map i → Q e := by
  intro i e he
  rw [set_bucket_map] at he
  split at he
  · rcases mem_modify_entry_find he with h1 | ⟨x, hx, hxe⟩
    · exact hs b e h1
    · subst hxe
      exact hf x hx (hs b x (find_entry_mem hx))
  · exact hs i e he

/-- A property of entries is kept by `handle_nbr_encap` when the new entry has it and
`nbr_update` keeps it on the entry found. -/
theorem forall_entries_nbr_encap (Q : LocEntry → Prop) (cfg : Config) (fresh : LocEntry)
    (s : State) (p : Packet) (hs : ∀ i e, e ∈ s._map i → Q e)
    (hnew : p.nb.dst_loc_good = false →
      Q { fresh with ip := p.nb.dst_ip, ok := false, polling := false, p := some p })
    (hupd : ∀ x, p.nb.dst_loc_good = false →
      find_entry p.nb.dst_ip (s._map (bucket_of cfg p.nb.dst_ip)) = some x →
      Q x → Q (nbr_update p x)) :
    ∀ i e, e ∈ (handle_nbr_encap cfg fresh s p)._map i → Q e := by
  intro i e he
  by_cases hg : p.nb.dst_loc_good = true
  · rw [handle_nbr_encap_map_good cfg fresh s p hg] at he
    exact hs i e he
  · have hg2 : p.nb.dst_loc_good = false := by simpa using hg
    cases hf : find_entry p.nb.dst_ip (s._map (bucket_of cfg p.nb.dst_ip)) with
    | none =>
      rw [handle_nbr_encap_map_new cfg fresh s p hg2 hf] at he
      split at he
      · rcases List.mem_cons.mp he with h | h
        · subst h
          exact hnew hg2
        · exact hs _ e h
      · exact hs i e he
    | some x =>
      rw [handle_nbr_encap_map_found cfg fresh s p x hg2 hf] at he
      exact forall_entries_modify Q s _ _ _ hs (fun y hy hq => hupd y hg2 hy hq) i e
        (by rw [set_bucket_map]; exact he)

theorem polling_ok_nbr_encap (cfg : Config) (fresh : LocEntry) (s : State) (p : Packet)
    (hs : polling_ok s) : polling_ok (handle_nbr_encap cfg fresh s p) := by
  refine forall_entries_nbr_encap (fun e => e.polling = true → e.ok = true) cfg fresh s p hs
    ?_ ?_
  · intro _ h
    simp at h
  · intro x _ _ _ h
    unfold nbr_update at h
    split at h <;> simp at h

theorem polling_ok_reply (cfg : Config) (fresh : LocEntry) (jiffies : Int) (s : State)
    (r : Packet) (hs : polling_ok s) : polling_ok (handle_reply cfg fresh jiffies s r) := by
  by_cases hlen : r.length
      < cfg.sizeof_click_ether + cfg.sizeof_grid_hdr + cfg.sizeof_grid_nbr_encap
  · rw [handle_reply_short cfg fresh jiffies s r hlen]
    exact hs
  · cases hf : find_entry r.nb.dst_ip (s._map (bucket_of cfg r.nb.dst_ip)) with
    | none =>
      rw [handle_reply_unknown cfg fresh jiffies s r hf]
      exact hs
    | some ae =>
      rw [handle_reply_found cfg fresh jiffies s r ae (by omega) hf]
      have h1 : polling_ok (s.set_bucket (bucket_of cfg r.nb.dst_ip)
          (modify_entry r.nb.dst_ip (reply_update jiffies r)
            (s._map (bucket_of cfg r.nb.dst_ip)))) := by
        refine forall_entries_modify (fun e => e.polling = true → e.ok = true) s _ _ _ hs ?_
        intro x _ hx h
        by_cases hacc : accepts x r = true
        · rw [reply_update_accepted _ _ _ hacc] at h
          simp [apply_reply] at h
        · have hacc2 : accepts x r = false := by simpa using hacc
          rw [reply_update_rejected _ _ _ hacc2] at h ⊢
          exact hx h
      cases ae.p with
      | none => exact h1
      | some c => exact polling_ok_nbr_encap cfg fresh _ c h1

theorem polling_ok_expire (cfg : Config) (jiff : Int) (s : State) (hs : polling_ok s) :
    polling_ok (expire_hook cfg jiff s) := by
  have key : ∀ l : List LocEntry, (∀ e, e ∈ l → e.polling = true → e.ok = true) →
      ∀ e, e ∈ (expire_chain cfg jiff l).1 → e.polling = true → e.ok = true := by
    intro l
    induction l with
    | nil => intro _ e he; simp [expire_chain] at he
    | cons y rest ih =>
      intro hl e he hp
      have ih2 := ih (fun e he => hl e (List.mem_cons_of_mem _ he))
      unfold expire_chain at he
      dsimp only at he
      split at he
      · rename_i hy
        split at he
        · exact ih2 e he hp
        · split at he
          · rcases List.mem_cons.mp he with h | h
            · subst h
              exact hy
            · exact ih2 e h hp
          · rcases List.mem_cons.mp he with h | h
            · subst h
              exact hy
            · exact ih2 e h hp
      · rcases List.mem_cons.mp he with h | h
        · subst h
          exact hl _ (List.mem_cons_self _ _) hp
        · exact ih2 e h hp
  intro i e he hp
  rw [expire_hook_map] at he
  split at he
  · exact key _ (hs i) e he hp
  · exact hs i e he hp

theorem polling_ok_step (cfg : Config) (s : State) (op : Op) (hs : polling_ok s) :
    polling_ok (step cfg s op) := by
  cases op with
  | outbound fresh p => exact polling_ok_nbr_encap cfg fresh s p hs
  | reply fresh jiffies p => exact polling_ok_reply cfg fresh jiffies s p hs
  | query p =>
    intro i e he
    have : (step cfg s (Op.query p))._map = s._map := handle_query_map cfg s p
    rw [this] at he
    exact hs i e he
  | sweep jiff => exact polling_ok_expire cfg jiff s hs

theorem polling_ok_run (cfg : Config) (ops : List Op) (s : State) (hs : polling_ok s) :
    polling_ok (run cfg s ops) := by
  induction ops generalizing s with
  | nil => exact hs
  | cons op ops ih => exact ih _ (polling_ok_step cfg s op hs)

theorem find_entry_of_nodup {l : List LocEntry} (hn : (l.map LocEntry.ip).Nodup)
    {e : LocEntry} (he : e ∈ l) : find_entry e.ip l = some e := by
  induction l with
  | nil => simp at he
  | cons y rest ih =>
    simp only [List.map_cons, List.nodup_cons] at hn
    rcases List.mem_cons.mp he with h | h
    · subst h
      simp [find_entry]
    · have hne : ¬ y.ip = e.ip := by
        intro hy
        apply hn.1
        rw [hy]
        exact List.mem_map_of_mem _ h
      simp [find_entry, hne, ih hn.2 h]

theorem chain_ok_congr (cfg : Config) {s t : State} (h : ∀ j, t._map j = s._map j)
    (hs : chain_ok cfg s) : chain_ok cfg t := by
  intro i
  rw [h i]
  exact hs i

theorem chain_ok_modify (cfg : Config) (s : State) (b : Nat) (a : IPAddress)
    (f : LocEntry → LocEntry) (hf : ∀ e, (f e).ip = e.ip) (hs : chain_ok cfg s) :
    chain_ok cfg (s.set_bucket b (modify_entry a f (s._map b))) := by
  intro i
  rw [set_bucket_map]
  split
  · rename_i hi
    subst hi
    refine ⟨by rw [map_ip_modify_entry _ _ _ hf]; exact (hs i).1, ?_⟩
    intro e he
    rcases mem_modify_entry_find he with h1 | ⟨x, hx, hxe⟩
    · exact (hs i).2 e h1
    · subst hxe
      rw [hf]
      exact (hs i).2 x (find_entry_mem hx)
  · exact hs i

theorem chain_ok_nbr_encap (cfg : Config) (fresh : LocEntry) (s : State) (p : Packet)
    (hs : chain_ok cfg s) : chain_ok cfg (handle_nbr_encap cfg fresh s p) := by
  by_cases hg : p.nb.dst_loc_good = true
  · exact chain_ok_congr cfg (fun j => by rw [handle_nbr_encap_map_good cfg fresh s p hg]) hs
  · have hg2 : p.nb.dst_loc_good = false := by simpa using hg
    cases hf : find_entry p.nb.dst_ip (s._map (bucket_of cfg p.nb.dst_ip)) with
    | none =>
      intro i
      rw [handle_nbr_encap_map_new cfg fresh s p hg2 hf]
      split
      · rename_i hi
        subst hi
        refine ⟨?_, ?_⟩
        · simp only [List.map_cons, List.nodup_cons]
          exact ⟨find_entry_none_not_mem hf, (hs _).1⟩
        · intro e he
          rcases List.mem_cons.mp he with h | h
          · subst h
            rfl
          · exact (hs _).2 e h
      · exact hs i
    | some x =>
      refine chain_ok_congr cfg ?_
        (chain_ok_modify cfg s (bucket_of cfg p.nb.dst_ip) p.nb.dst_ip (nbr_update p)
          (nbr_update_ip p) hs)
      intro j
      rw [handle_nbr_encap_map_found cfg fresh s p x hg2 hf, set_bucket_map]

theorem chain_ok_reply (cfg : Config) (fresh : LocEntry) (jiffies : Int) (s : State)
    (r : Packet) (hs : chain_ok cfg s) : chain_ok cfg (handle_reply cfg fresh jiffies s r) := by
  by_cases hlen : r.length
      < cfg.sizeof_click_ether + cfg.sizeof_grid_hdr + cfg.sizeof_grid_nbr_encap
  · rw [handle_reply_short cfg fresh jiffies s r hlen]
    exact hs
  · cases hf : find_entry r.nb.dst_ip (s._map (bucket_of cfg r.nb.dst_ip)) with
    | none =>
      rw [handle_reply_unknown cfg fresh jiffies s r hf]
      exact hs
    | some ae =>
      rw [handle_reply_found cfg fresh jiffies s r ae (by omega) hf]
      have h1 := chain_ok_modify cfg s (bucket_of cfg r.nb.dst_ip) r.nb.dst_ip
        (reply_update jiffies r) (reply_update_ip jiffies r) hs
      cases ae.p with
      | none => exact h1
      | some c => exact chain_ok_nbr_encap cfg fresh _ c h1

theorem expire_chain_ips (cfg : Config) (jiff : Int) (l : List LocEntry) :
    ((expire_chain cfg jiff l).1.map LocEntry.ip).Sublist (l.map LocEntry.ip) := by
  induction l with
  | nil => simp [expire_chain]
  | cons y rest ih =>
    unfold expire_chain
    dsimp only
    split
    · split
      · exact List.Sublist.cons _ ih
      · split
        · exact List.Sublist.cons₂ _ ih
        · exact List.Sublist.cons₂ _ ih
    · exact List.Sublist.cons₂ _ ih

theorem chain_ok_expire (cfg : Config) (jiff : Int) (s : State) (hs : chain_ok cfg s) :
    chain_ok cfg (expire_hook cfg jiff s) := by
  intro i
  rw [expire_hook_map]
  split
  · refine ⟨List.Nodup.sublist (expire_chain_ips cfg jiff _) (hs i).1, ?_⟩
    intro e he
    rcases mem_expire_chain he with h | ⟨x, hx, hxe⟩
    · exact (hs i).2 e h
    · subst hxe
      exact (hs i).2 x hx
  · exact hs i

theorem chain_ok_step (cfg : Config) (s : State) (op : Op) (hs : chain_ok cfg s) :
    chain_ok cfg (step cfg s op) := by
  cases op with
  | outbound fresh p => exact chain_ok_nbr_encap cfg fresh s p hs
  | reply fresh jiffies p => exact chain_ok_reply cfg fresh jiffies s p hs
  | query p =>
    exact chain_ok_congr cfg (fun j => congrFun (handle_query_map cfg s p) j) hs
  | sweep jiff => exact chain_ok_expire cfg jiff s hs

theorem chain_ok_run (cfg : Config) (ops : List Op) (s : State) (hs : chain_ok cfg s) :
    chain_ok cfg (run cfg s ops) := by
  induction ops generalizing s with
  | nil => exact hs
  | cons op ops ih => exact ih _ (chain_ok_step cfg s op hs)

theorem chain_ok_init (cfg : Config) : chain_ok cfg State.init := by
  intro i
  simp [State.init]

theorem entry_ok_nbr_update (p : Packet) (x : LocEntry) (hg : p.nb.dst_loc_good = false)
    (hip : p.nb.dst_ip = x.ip) (hx : entry_ok x) : entry_ok (nbr_update p x) := by
  unfold nbr_update
  rcases hx with ⟨hok, hp⟩ | ⟨hok, _⟩
  · rw [if_pos hok]
    exact Or.inl ⟨hok, hp⟩
  · rw [if_neg (by simp [hok])]
    exact Or.inr ⟨hok, p, rfl, hip, hg⟩

theorem entries_ok_nbr_encap (cfg : Config) (fresh : LocEntry) (s : State) (p : Packet)
    (hs : entries_ok s) : entries_ok (handle_nbr_encap cfg fresh s p) := by
  refine forall_entries_nbr_encap entry_ok cfg fresh s p hs ?_ ?_
  · intro hg
    exact Or.inr ⟨rfl, p, rfl, rfl, hg⟩
  · intro x hg hf hx
    exact entry_ok_nbr_update p x hg (find_entry_ip hf).symm hx

theorem entry_ok_reply_then_nbr (jiffies : Int) (r c : Packet) (x : LocEntry)
    (hp : x.p = some c) (hx : entry_ok x) :
    entry_ok (nbr_update c (reply_update jiffies r x)) := by
  rcases hx with ⟨_, hn⟩ | ⟨hok, P, hP, hPd, hPg⟩
  · rw [hn] at hp
    exact Option.noConfusion hp
  · rw [hp] at hP
    cases hP
    by_cases hacc : accepts x r = true
    · rw [reply_update_accepted _ _ _ hacc]
      left
      simp [nbr_update, apply_reply]
    · have hacc2 : accepts x r = false := by simpa using hacc
      rw [reply_update_rejected _ _ _ hacc2]
      right
      simp [nbr_update, hok, hPd, hPg]

theorem entry_ok_reply_update (jiffies : Int) (r : Packet) (x : LocEntry)
    (hp : x.p = none) (hx : entry_ok x) : entry_ok (reply_update jiffies r x) := by
  rcases hx with ⟨hok, _⟩ | ⟨_, P, hP, _⟩
  · left
    by_cases hacc : accepts x r = true
    · rw [reply_update_accepted _ _ _ hacc]
      simp [apply_reply]
    · have hacc2 : accepts x r = false := by simpa using hacc
      rw [reply_update_rejected _ _ _ hacc2]
      exact ⟨hok, rfl⟩
  · rw [hp] at hP
    exact Option.noConfusion hP

/-- The table after `handle_reply` has found an entry that holds a packet for its own
address without valid location: the entry is rewritten by `reply_update` and then by
`nbr_update`, nothing else changes. -/
theorem handle_reply_map_resubmit (cfg : Config) (fresh : LocEntry) (jiffies : Int) (s : State)
    (r : Packet) (ae : LocEntry) (c : Packet)
    (hlen : cfg.sizeof_click_ether + cfg.sizeof_grid_hdr + cfg.sizeof_grid_nbr_encap ≤ r.length)
    (hf : find_entry r.nb.dst_ip (s._map (bucket_of cfg r.nb.dst_ip)) = some ae)
    (hp : ae.p = some c) (hcd : c.nb.dst_ip = r.nb.dst_ip) (hcg : c.nb.dst_loc_good = false)
    (j : Nat) :
    (handle_reply cfg fresh jiffies s r)._map j
      = (s.set_bucket (bucket_of cfg r.nb.dst_ip)
          (modify_entry r.nb.dst_ip (fun e => nbr_update c (reply_update jiffies r e))
            (s._map (bucket_of cfg r.nb.dst_ip))))._map j := by
  rw [handle_reply_found cfg fresh jiffies s r ae hlen hf, hp]
  simp only [emit_map]
  have hf1 : find_entry c.nb.dst_ip
      ((s.set_bucket (bucket_of cfg r.nb.dst_ip)
          (modify_entry r.nb.dst_ip (reply_update jiffies r)
            (s._map (bucket_of cfg r.nb.dst_ip))))._map (bucket_of cfg c.nb.dst_ip))
      = some (reply_update jiffies r ae) := by
    rw [hcd]
    simp [find_entry_modify, hf]
  rw [handle_nbr_encap_map_found cfg fresh _ c _ hcg hf1, hcd]
  simp only [set_bucket_map, if_true]
  split
  · rw [modify_entry_comp _ _ _ _ (reply_update_ip jiffies r)]
  · rfl

theorem entries_ok_reply (cfg : Config) (fresh : LocEntry) (jiffies : Int) (s : State)
    (r : Packet) (hs : entries_ok s) : entries_ok (handle_reply cfg fresh jiffies s r) := by
  by_cases hlen : r.length
      < cfg.sizeof_click_ether + cfg.sizeof_grid_hdr + cfg.sizeof_grid_nbr_encap
  · rw [handle_reply_short cfg fresh jiffies s r hlen]
    exact hs
  · cases hf : find_entry r.nb.dst_ip (s._map (bucket_of cfg r.nb.dst_ip)) with
    | none =>
      rw [handle_reply_unknown cfg fresh jiffies s r hf]
      exact hs
    | some ae =>
      have hae : entry_ok ae := hs _ ae (find_entry_mem hf)
      cases hp : ae.p with
      | none =>
        rw [handle_reply_found cfg fresh jiffies s r ae (by omega) hf, hp]
        refine forall_entries_modify entry_ok s _ _ _ hs ?_
        intro x hx hxok
        rw [hf] at hx
        cases hx
        exact entry_ok_reply_update jiffies r ae hp hxok
      | some c =>
        have hc : c.nb.dst_ip = r.nb.dst_ip ∧ c.nb.dst_loc_good = false := by
          rcases hae with ⟨_, hn⟩ | ⟨_, P, hP, hPd, hPg⟩
          · rw [hn] at hp
            exact Option.noConfusion hp
          · rw [hp] at hP
            cases hP
            exact ⟨hPd.trans (find_entry_ip hf), hPg⟩
        intro i e he
        rw [handle_reply_map_resubmit cfg fresh jiffies s r ae c (by omega) hf hp hc.1 hc.2]
          at he
        refine forall_entries_modify entry_ok s _ _ _ hs ?_ i e he
        intro x hx hxok
        rw [hf] at hx
        cases hx
        exact entry_ok_reply_then_nbr jiffies r c ae hp hxok

theorem entries_ok_expire (cfg : Config) (jiff : Int) (s : State) (hs : entries_ok s) :
    entries_ok (expire_hook cfg jiff s) := by
  intro i e he
  rw [expire_hook_map] at he
  split at he
  · rcases mem_expire_chain he with h | ⟨x, hx, hxe⟩
    · exact hs i e h
    · subst hxe
      exact hs i x hx
  · exact hs i e he

theorem entries_ok_step (cfg : Config) (s : State) (op : Op) (hs : entries_ok s) :
    entries_ok (step cfg s op) := by
  cases op with
  | outbound fresh p => exact entries_ok_nbr_encap cfg fresh s p hs
  | reply fresh jiffies p => exact entries_ok_reply cfg fresh jiffies s p hs
  | query p =>
    intro i e he
    have : (step cfg s (Op.query p))._map = s._map := handle_query_map cfg s p
    rw [this] at he
    exact hs i e he
  | sweep jiff => exact entries_ok_expire cfg jiff s hs

theorem entries_ok_run (cfg : Config) (ops : List Op) (s : State) (hs : entries_ok s) :
    entries_ok (run cfg s ops) := by
  induction ops generalizing s with
  | nil => exact hs
  | cons op ops ih => exact ih _ (entries_ok_step cfg s op hs)

theorem entries_ok_init : entries_ok State.init := by
  intro i e he
  simp [State.init] at he

theorem expire_chain_no_kill (cfg : Config) (jiff : Int) (l : List LocEntry)
    (h : ∀ e, e ∈ l → e.ok = true → e.p = none) : (expire_chain cfg jiff l).2 = [] := by
  induction l with
  | nil => rfl
  | cons y rest ih =>
    have ih2 := ih (fun e he => h e (List.mem_cons_of_mem _ he))
    unfold expire_chain
    dsimp only
    split
    · rename_i hy
      have hp := h y (List.mem_cons_self _ _) hy
      split
      · rw [hp, ih2]
        rfl
      · split <;> exact ih2
    · exact ih2

theorem resolved_holds_nothing {e : LocEntry} (h : entry_ok e) (hok : e.ok = true) :
    e.p = none := by
  rcases h with ⟨_, hp⟩ | ⟨hno, _⟩
  · exact hp
  · rw [hok] at hno
    exact Bool.noConfusion hno

theorem expire_hook_log_quiet (cfg : Config) (jiff : Int) (s : State) (hs : entries_ok s) :
    (expire_hook cfg jiff s).log = s.log ++ [Event.schedule_expire] := by
  have h : (List.range cfg.NMAP).flatMap
      (fun i => (expire_chain cfg jiff (s._map i)).2) = [] := by
    rw [List.flatMap_eq_nil_iff]
    intro i _
    exact expire_chain_no_kill cfg jiff _ (fun e he hok => resolved_holds_nothing (hs i e he) hok)
  simp [expire_hook, h]

/-- An entry that is found stays findable across `handle_reply`, and stays resolved if it
was. -/
theorem handle_reply_find_any (cfg : Config) (fresh : LocEntry) (jiffies : Int) (s : State)
    (r : Packet) (a : IPAddress) (e : LocEntry)
    (h : find_entry a (s._map (bucket_of cfg a)) = some e) :
    ∃ e2 : LocEntry,
      find_entry a ((handle_reply cfg fresh jiffies s r)._map (bucket_of cfg a)) = some e2
      ∧ (e.ok = true → e2.ok = true) := by
  by_cases hlen : r.length
      < cfg.sizeof_click_ether + cfg.sizeof_grid_hdr + cfg.sizeof_grid_nbr_encap
  · rw [handle_reply_short cfg fresh jiffies s r hlen]
    exact ⟨e, h, id⟩
  · cases hf : find_entry r.nb.dst_ip (s._map (bucket_of cfg r.nb.dst_ip)) with
    | none =>
      rw [handle_reply_unknown cfg fresh jiffies s r hf]
      exact ⟨e, h, id⟩
    | some ae =>
      rw [handle_reply_found cfg fresh jiffies s r ae (by omega) hf]
      have h1 : ∃ e1, find_entry a
          ((s.set_bucket (bucket_of cfg r.nb.dst_ip)
            (modify_entry r.nb.dst_ip (reply_update jiffies r)
              (s._map (bucket_of cfg r.nb.dst_ip))))._map (bucket_of cfg a)) = some e1
          ∧ (e.ok = true → e1.ok = true) := by
        rw [set_bucket_map]
        by_cases hb : bucket_of cfg a = bucket_of cfg r.nb.dst_ip
        · rw [if_pos hb, find_entry_modify _ _ _ (reply_update_ip jiffies r), ← hb, h]
          by_cases ha : a = r.nb.dst_ip
          · rw [if_pos ha]
            refine ⟨reply_update jiffies r e, rfl, ?_⟩
            intro hok
            by_cases hacc : accepts e r = true
            · rw [reply_update_accepted _ _ _ hacc]
              rfl
            · have hacc2 : accepts e r = false := by simpa using hacc
              rw [reply_update_rejected _ _ _ hacc2]
              exact hok
          · rw [if_neg ha]
            exact ⟨e, rfl, id⟩
        · rw [if_neg hb]
          exact ⟨e, h, id⟩
      obtain ⟨e1, hf1, hok1⟩ := h1
      cases ae.p with
      | none => exact ⟨e1, by simpa using hf1, hok1⟩
      | some c =>
        obtain ⟨e2, hf2, _, hok2, _⟩ := handle_nbr_encap_find cfg fresh _ c a e1 hf1
        exact ⟨e2, by simpa using hf2, fun hok => by rw [hok2]; exact hok1 hok⟩

theorem find_entry_expire_chain (cfg : Config) (jiff : Int) (l : List LocEntry)
    (hn : (l.map LocEntry.ip).Nodup) (a : IPAddress) (e e2 : LocEntry)
    (h : find_entry a l = some e) (h2 : find_entry a (expire_chain cfg jiff l).1 = some e2) :
    e2.ok = e.ok := by
  have hip := find_entry_ip h2
  rcases mem_expire_chain (find_entry_mem h2) with hm | ⟨x, hx, hxe⟩
  · have := find_entry_of_nodup hn hm
    rw [hip, h] at this
    cases this
    rfl
  · have hx2 := find_entry_of_nodup hn hx
    have hxa : x.ip = a := by
      rw [← hip, hxe]
    rw [hxa, h] at hx2
    cases hx2
    rw [hxe]

/-- A resolved entry stays resolved across one operation, as long as it is in the table. -/
theorem resolved_stays_resolved (cfg : Config) (s : State) (hs : chain_ok cfg s) (op : Op)
    (a : IPAddress) (e e2 : LocEntry)
    (h : find_entry a (s._map (bucket_of cfg a)) = some e) (hok : e.ok = true)
    (h2 : find_entry a ((step cfg s op)._map (bucket_of cfg a)) = some e2) :
    e2.ok = true := by
  cases op with
  | outbound fresh p =>
    obtain ⟨e3, hf3, _, hok3, _⟩ := handle_nbr_encap_find cfg fresh s p a e h
    have : e2 = e3 := Option.some.inj (h2.symm.trans hf3)
    rw [this, hok3]
    exact hok
  | reply fresh jiffies p =>
    obtain ⟨e3, hf3, hok3⟩ := handle_reply_find_any cfg fresh jiffies s p a e h
    have : e2 = e3 := Option.some.inj (h2.symm.trans hf3)
    rw [this]
    exact hok3 hok
  | query p =>
    have hm : (step cfg s (Op.query p))._map = s._map := handle_query_map cfg s p
    rw [hm, h] at h2
    cases h2
    exact hok
  | sweep jiff =>
    have hm : (step cfg s (Op.sweep jiff))._map (bucket_of cfg a)
        = if bucket_of cfg a < cfg.NMAP then
            (expire_chain cfg jiff (s._map (bucket_of cfg a))).1
          else s._map (bucket_of cfg a) := rfl
    rw [hm] at h2
    split at h2
    · rw [find_entry_expire_chain cfg jiff _ (hs _).1 a e e2 h h2]
      exact hok
    · rw [h] at h2
      cases h2
      exact hok

theorem seqs_kept_refl (cfg : Config) (m : HashMap) : seqs_kept cfg m m :=
  fun _ v h => ⟨v, h, fun _ => le_refl _⟩

theorem seqs_kept_trans (cfg : Config) {m1 m2 m3 : HashMap} (h1 : seqs_kept cfg m1 m2)
    (h2 : seqs_kept cfg m2 m3) : seqs_kept cfg m1 m3 := by
  intro o v hv
  obtain ⟨v2, hv2, hle2⟩ := h1 o v hv
  obtain ⟨v3, hv3, hle3⟩ := h2 o v2 hv2
  exact ⟨v3, hv3, fun ho => le_trans (hle2 ho) (hle3 ho)⟩

theorem seqs_kept_send (cfg : Config) (s : State) (w : IPAddress) :
    seqs_kept cfg s._query_seqs (send_query_for cfg s w)._query_seqs := by
  intro o v hv
  rw [send_query_for_query_seqs]
  by_cases ho : o = cfg.my_ip
  · subst ho
    exact ⟨_, findp_insert_same _ _ _, fun h => absurd rfl h⟩
  · exact ⟨v, by rw [findp_insert_other _ _ _ _ ho, hv], fun _ => le_refl _⟩

theorem seqs_kept_send_after (cfg : Config) {m : HashMap} {t : State} (w : IPAddress)
    (h : seqs_kept cfg m t._query_seqs) :
    seqs_kept cfg m (send_query_for cfg t w)._query_seqs :=
  seqs_kept_trans cfg h (seqs_kept_send cfg t w)

theorem seqs_kept_nbr_encap (cfg : Config) (fresh : LocEntry) (s : State) (p : Packet) :
    seqs_kept cfg s._query_seqs (handle_nbr_encap cfg fresh s p)._query_seqs := by
  unfold handle_nbr_encap
  split
  · exact seqs_kept_refl cfg _
  · dsimp only
    split
    · rename_i ae _
      by_cases hpoll : ae.polling = true <;> by_cases hok : ae.ok = true
      · rw [if_pos hpoll, if_pos hok]
        exact seqs_kept_send cfg s ae.ip
      · rw [if_pos hpoll, if_neg hok]
        apply seqs_kept_send_after
        simp only [set_bucket_query_seqs, kill_old_query_seqs]
        exact seqs_kept_send cfg s ae.ip
      · rw [if_neg hpoll, if_pos hok]
        exact seqs_kept_refl cfg _
      · rw [if_neg hpoll, if_neg hok]
        apply seqs_kept_send_after
        simp only [set_bucket_query_seqs, kill_old_query_seqs]
        exact seqs_kept_refl cfg _
    · apply seqs_kept_send_after
      exact seqs_kept_refl cfg _

theorem seqs_kept_reply (cfg : Config) (fresh : LocEntry) (jiffies : Int) (s : State)
    (r : Packet) :
    seqs_kept cfg s._query_seqs (handle_reply cfg fresh jiffies s r)._query_seqs := by
  unfold handle_reply
  split
  · exact seqs_kept_refl cfg _
  · dsimp only
    split
    · exact seqs_kept_refl cfg _
    · split
      · rename_i c _
        exact seqs_kept_nbr_encap cfg fresh
          (s.set_bucket (bucket_of cfg r.nb.dst_ip)
            (modify_entry r.nb.dst_ip (reply_update jiffies r)
              (s._map (bucket_of cfg r.nb.dst_ip)))) c
      · exact seqs_kept_refl cfg _

theorem handle_query_seqs_grow (cfg : Config) (s : State) (p : Packet) (o : IPAddress)
    (v : Nat) (h : HashMap.findp s._query_seqs o = some v) :
    ∃ v2, HashMap.findp (handle_query cfg s p)._query_seqs o = some v2 ∧ v ≤ v2 := by
  rcases handle_query_log_cases cfg s p with ⟨_, hq⟩ | ⟨hl, hq⟩
  · rw [hq]
    exact ⟨v, h, le_refl _⟩
  · rw [hq]
    by_cases ho : o = p.gh.ip
    · subst ho
      refine ⟨p.lq.seq_no, findp_insert_same _ _ _, ?_⟩
      by_contra hlt
      have hkill : (handle_query cfg s p).log = s.log ++ [Event.kill p] := by
        unfold handle_query
        split
        · rfl
        · dsimp only
          rw [h]
          simp only
          rw [if_pos (by omega)]
          rfl
      rw [hkill] at hl
      simp at hl
    · exact ⟨v, by rw [findp_insert_other _ _ _ _ ho, h], le_refl _⟩

/-! ### The claims, continued -/

theorem countP_ip_le_one (a : IPAddress) (l : List LocEntry)
    (hn : (l.map LocEntry.ip).Nodup) :
    l.countP (fun e => decide (e.ip = a)) ≤ 1 := by
  induction l with
  | nil => simp
  | cons y rest ih =>
    simp only [List.map_cons, List.nodup_cons] at hn
    by_cases hy : y.ip = a
    · have h0 : rest.countP (fun e => decide (e.ip = a)) = 0 := by
        rw [List.countP_eq_zero]
        intro e he hea
        apply hn.1
        have : e.ip = a := by simpa using hea
        rw [hy, ← this]
        exact List.mem_map_of_mem _ he
      simp [List.countP_cons, hy, h0]
    · have := ih hn.2
      simp [List.countP_cons, hy]
      exact this

/-- C11 (one entry per address, in the bucket of its hash).  In every state reached from
the initial state, with its empty table, by any sequence of operations: the addresses of
the entries of each chain are pairwise different; for every address, the number of entries
with that address is at most 1 in the chain of the address's bucket and 0 in every other
chain, so the table holds at most one entry per address; two entries with the same address
are the same entry in the same chain; and every entry sits in the chain whose index is the
sum of the first and last octets of its address modulo `NMAP`, where the chain walk of the
lookup finds it. -/
theorem one_entry_per_address (cfg : Config) (ops : List Op) :
    (∀ i, (((run cfg State.init ops)._map i).map LocEntry.ip).Nodup)
    ∧ (∀ a i, ((run cfg State.init ops)._map i).countP (fun e => decide (e.ip = a))
        ≤ if i = bucket_of cfg a then 1 else 0)
    ∧ (∀ i j e1 e2, e1 ∈ (run cfg State.init ops)._map i →
        e2 ∈ (run cfg State.init ops)._map j → e1.ip = e2.ip → i = j ∧ e1 = e2)
    ∧ (∀ i e, e ∈ (run cfg State.init ops)._map i →
        i = (e.ip.data 0 + e.ip.data 3) % cfg.NMAP
        ∧ find_entry e.ip ((run cfg State.init ops)._map (bucket_of cfg e.ip)) = some e) := by
  have h := chain_ok_run cfg ops State.init (chain_ok_init cfg)
  generalize run cfg State.init ops = s at h
  have hfind : ∀ i e, e ∈ s._map i →
      find_entry e.ip (s._map (bucket_of cfg e.ip)) = some e := by
    intro i e he
    rw [(h i).2 e he]
    exact find_entry_of_nodup (h i).1 he
  refine ⟨fun i => (h i).1, ?_, ?_, ?_⟩
  · intro a i
    by_cases hi : i = bucket_of cfg a
    · rw [if_pos hi]
      exact countP_ip_le_one a _ (h i).1
    · rw [if_neg hi, Nat.le_zero, List.countP_eq_zero]
      intro e he hea
      have hip : e.ip = a := by simpa using hea
      apply hi
      rw [← (h i).2 e he, hip]
  · intro i j e1 e2 h1 h2 hip
    have hi := (h i).2 e1 h1
    have hj := (h j).2 e2 h2
    have f1 := hfind i e1 h1
    have f2 := hfind j e2 h2
    rw [hip] at f1 hi
    rw [f2] at f1
    exact ⟨by rw [← hi, ← hj], (Option.some.inj f1).symm⟩
  · intro i e he
    exact ⟨((h i).2 e he).symm, hfind i e he⟩

/-- C11 at a concrete input: after data packets for `18.26.7.6`, `demo_D`, `18.26.7.3` and
again `18.26.7.6`, bucket 0 holds one entry for `demo_D` and one for `18.26.7.6`, bucket 1
one for `18.26.7.3`; the addresses in bucket 0 differ, `18.26.7.6` is counted once in
bucket 0 and not at all in bucket 1, and the lookup finds its entry behind that of
`demo_D`. -/
theorem one_entry_per_address_witness :
    (run demo_cfg State.init demo_three_ops)._map 0
      = [{ demo_fresh 0 with ip := demo_D, p := some (demo_data 2) },
         { demo_fresh 0 with ip := ⟨18, 26, 7, 6⟩,
                             p := some (demo_data_to ⟨18, 26, 7, 6⟩ 4) }]
    ∧ (run demo_cfg State.init demo_three_ops)._map 1
      = [{ demo_fresh 0 with ip := ⟨18, 26, 7, 3⟩,
                             p := some (demo_data_to ⟨18, 26, 7, 3⟩ 3) }]
    ∧ (((run demo_cfg State.init demo_three_ops)._map 0).map LocEntry.ip).Nodup
    ∧ ((run demo_cfg State.init demo_three_ops)._map 0).countP
          (fun e => decide (e.ip = ⟨18, 26, 7, 6⟩))
        ≤ (if 0 = bucket_of demo_cfg ⟨18, 26, 7, 6⟩ then 1 else 0)
    ∧ ((run demo_cfg State.init demo_three_ops)._map 1).countP
          (fun e => decide (e.ip = ⟨18, 26, 7, 6⟩))
        ≤ (if 1 = bucket_of demo_cfg ⟨18, 26, 7, 6⟩ then 1 else 0)
    ∧ (if 1 = bucket_of demo_cfg ⟨18, 26, 7, 6⟩ then 1 else 0) = 0
    ∧ find_entry (⟨18, 26, 7, 6⟩ : IPAddress)
        ((run demo_cfg State.init demo_three_ops)._map (bucket_of demo_cfg ⟨18, 26, 7, 6⟩))
      = some { demo_fresh 0 with ip := ⟨18, 26, 7, 6⟩,
                                 p := some (demo_data_to ⟨18, 26, 7, 6⟩ 4) } :=
  ⟨by decide, by decide,
    (one_entry_per_address demo_cfg demo_three_ops).1 0,
    (one_entry_per_address demo_cfg demo_three_ops).2.1 ⟨18, 26, 7, 6⟩ 0,
    (one_entry_per_address demo_cfg demo_three_ops).2.1 ⟨18, 26, 7, 6⟩ 1,
    by decide,
    ((one_entry_per_address demo_cfg demo_three_ops).2.2.2 0
      { demo_fresh 0 with ip := ⟨18, 26, 7, 6⟩, p := some (demo_data_to ⟨18, 26, 7, 6⟩ 4) }
      (by decide)).2⟩

/-- C12 (a packet that carries a valid location passes through).  For every state and
every data packet whose `dst_loc_good` is set, `handle_nbr_encap` pushes exactly that
packet, as it is, on port 0 and does nothing else: the table, `_query_seqs` and both
counters are unchanged, whatever the table holds for the packet's destination. -/
theorem located_packet_passes_through (cfg : Config) (fresh : LocEntry) (s : State)
    (p : Packet) (hgood : p.nb.dst_loc_good = true) :
    (handle_nbr_encap cfg fresh s p).log = s.log ++ [Event.push 0 p]
    ∧ (handle_nbr_encap cfg fresh s p)._map = s._map
    ∧ (handle_nbr_encap cfg fresh s p)._query_seqs = s._query_seqs
    ∧ (handle_nbr_encap cfg fresh s p)._loc_queries = s._loc_queries
    ∧ (handle_nbr_encap cfg fresh s p)._pkts_killed = s._pkts_killed := by
  unfold handle_nbr_encap
  rw [if_pos hgood]
  exact ⟨rfl, rfl, rfl, rfl, rfl⟩

/-- C12 at a concrete input: a located packet for `demo_D`, handed in while the table holds
an unresolved entry for `demo_D`. -/
theorem located_packet_passes_through_witness :
    demo_located.nb.dst_loc_good = true
    ∧ find_entry demo_located.nb.dst_ip
        ((demo_waiting 0)._map (bucket_of demo_cfg demo_located.nb.dst_ip))
        = some (demo_entry 0)
    ∧ (handle_nbr_encap demo_cfg (demo_fresh 0) (demo_waiting 0) demo_located).log
        = (demo_waiting 0).log ++ [Event.push 0 demo_located]
    ∧ (handle_nbr_encap demo_cfg (demo_fresh 0) (demo_waiting 0) demo_located)._map
        = (demo_waiting 0)._map
    ∧ (handle_nbr_encap demo_cfg (demo_fresh 0) (demo_waiting 0) demo_located)._query_seqs
        = (demo_waiting 0)._query_seqs
    ∧ (handle_nbr_encap demo_cfg (demo_fresh 0) (demo_waiting 0) demo_located)._loc_queries
        = (demo_waiting 0)._loc_queries
    ∧ (handle_nbr_encap demo_cfg (demo_fresh 0) (demo_waiting 0) demo_located)._pkts_killed
        = (demo_waiting 0)._pkts_killed :=
  ⟨rfl, by decide,
    located_packet_passes_through demo_cfg (demo_fresh 0) (demo_waiting 0) demo_located rfl⟩

/-- C13 (what `send_query_for` does).  For every state whose counter `c` is below
`2^32 - 1` and every destination `d`, `send_query_for` pushes exactly one packet on port 1,
a query for `d` with this node's address as origin and `c` as sequence number; it records
`c` in `_query_seqs` under this node's address, leaves the counter at `c + 1` and changes
neither the table nor `_pkts_killed`.  A query originated next carries `c + 1`, a larger
number. -/
theorem send_query_emits_counter (cfg : Config) (s : State) (d d2 : IPAddress)
    (hc : s._loc_queries < 2 ^ 32 - 1) :
    (∃ q : Packet,
        (send_query_for cfg s d).log = s.log ++ [Event.push 1 q]
        ∧ q.lq.dst_ip = d ∧ q.gh.ip = cfg.my_ip ∧ q.lq.seq_no = s._loc_queries
        ∧ q.gh.type = cfg.GRID_LOC_QUERY)
    ∧ HashMap.findp (send_query_for cfg s d)._query_seqs cfg.my_ip = some s._loc_queries
    ∧ (send_query_for cfg s d)._loc_queries = s._loc_queries + 1
    ∧ (send_query_for cfg s d)._map = s._map
    ∧ (send_query_for cfg s d)._pkts_killed = s._pkts_killed
    ∧ (∃ q2 : Packet,
        (send_query_for cfg (send_query_for cfg s d) d2).log
          = (send_query_for cfg s d).log ++ [Event.push 1 q2]
        ∧ q2.lq.seq_no = s._loc_queries + 1 ∧ s._loc_queries < q2.lq.seq_no) := by
  have h1 : s._loc_queries % 2 ^ 32 = s._loc_queries := Nat.mod_eq_of_lt (by omega)
  have h2 : (s._loc_queries + 1) % 2 ^ 32 = s._loc_queries + 1 := Nat.mod_eq_of_lt (by omega)
  refine ⟨⟨make_query cfg s._loc_queries d, rfl, rfl, rfl, ?_, rfl⟩, ?_, rfl, rfl, rfl,
    ⟨make_query cfg (s._loc_queries + 1) d2, rfl, ?_, ?_⟩⟩
  · exact h1
  · rw [send_query_for_query_seqs, findp_insert_same, h1]
  · exact h2
  · show s._loc_queries < (s._loc_queries + 1) % 2 ^ 32
    rw [h2]
    omega

/-- C13 at a concrete input: the first query, for `demo_D`, from the initial state. -/
theorem send_query_emits_counter_witness :
    State.init._loc_queries < 2 ^ 32 - 1
    ∧ (∃ q : Packet,
        (send_query_for demo_cfg State.init demo_D).log = State.init.log ++ [Event.push 1 q]
        ∧ q.lq.dst_ip = demo_D ∧ q.gh.ip = demo_cfg.my_ip
        ∧ q.lq.seq_no = State.init._loc_queries
        ∧ q.gh.type = demo_cfg.GRID_LOC_QUERY)
    ∧ HashMap.findp (send_query_for demo_cfg State.init demo_D)._query_seqs demo_cfg.my_ip
        = some State.init._loc_queries
    ∧ (send_query_for demo_cfg State.init demo_D)._loc_queries = State.init._loc_queries + 1
    ∧ (send_query_for demo_cfg State.init demo_D)._map = State.init._map
    ∧ (send_query_for demo_cfg State.init demo_D)._pkts_killed = State.init._pkts_killed
    ∧ (∃ q2 : Packet,
        (send_query_for demo_cfg (send_query_for demo_cfg State.init demo_D) demo_D).log
          = (send_query_for demo_cfg State.init demo_D).log ++ [Event.push 1 q2]
        ∧ q2.lq.seq_no = State.init._loc_queries + 1
        ∧ State.init._loc_queries < q2.lq.seq_no) :=
  ⟨by decide, send_query_emits_counter demo_cfg State.init demo_D demo_D (by decide)⟩

/-- C14 as stated fails for this node's own address.  After a query that names this node as
origin and carries number 100 has been relayed, `_query_seqs` records 100 for this node's
address; the next data packet makes `send_query_for` overwrite the record with the counter
value 0. -/
theorem tracker_own_record_lowered :
    HashMap.findp
        (run demo_cfg State.init [Op.query (demo_query demo_cfg.my_ip 100)])._query_seqs
        demo_cfg.my_ip = some 100
    ∧ HashMap.findp
        (step demo_cfg (run demo_cfg State.init [Op.query (demo_query demo_cfg.my_ip 100)])
          (Op.outbound (demo_fresh 0) (demo_data 1)))._query_seqs
        demo_cfg.my_ip = some 0 := by
  decide

/-- C14, amended.  Across every operation, a number recorded in `_query_seqs` for an
origin is never removed; for every origin other than this node's own address it is never
replaced by a smaller one; `handle_query` never lowers any record, and the sweep leaves all
records as they are.  (For this node's own address, `send_query_for` puts the counter value
in place of the record.) -/
theorem tracker_records_kept (cfg : Config) (s : State) (op : Op) (o : IPAddress) (v : Nat)
    (h : HashMap.findp s._query_seqs o = some v) :
    ∃ v2, HashMap.findp (step cfg s op)._query_seqs o = some v2
      ∧ (o ≠ cfg.my_ip → v ≤ v2)
      ∧ ((∃ p, op = Op.query p) → v ≤ v2)
      ∧ ((∃ jiff, op = Op.sweep jiff) → v2 = v) := by
  cases op with
  | outbound fresh p =>
    obtain ⟨v2, h2, hle⟩ := seqs_kept_nbr_encap cfg fresh s p o v h
    exact ⟨v2, h2, hle, fun ⟨_, hq⟩ => Op.noConfusion hq, fun ⟨_, hq⟩ => Op.noConfusion hq⟩
  | reply fresh jiffies p =>
    obtain ⟨v2, h2, hle⟩ := seqs_kept_reply cfg fresh jiffies s p o v h
    exact ⟨v2, h2, hle, fun ⟨_, hq⟩ => Op.noConfusion hq, fun ⟨_, hq⟩ => Op.noConfusion hq⟩
  | query p =>
    obtain ⟨v2, h2, hle⟩ := handle_query_seqs_grow cfg s p o v h
    exact ⟨v2, h2, fun _ => hle, fun _ => hle, fun ⟨_, hq⟩ => Op.noConfusion hq⟩
  | sweep jiff =>
    exact ⟨v, h, fun _ => le_refl _, fun _ => le_refl _, fun _ => rfl⟩

/-- C14 (amended) at a concrete input: the record 5 for origin `18.26.7.9` is still 5 or
more after a data packet has made the element originate a query. -/
theorem tracker_records_kept_witness :
    HashMap.findp
        (run demo_cfg State.init [Op.query (demo_query ⟨18, 26, 7, 9⟩ 5)])._query_seqs
        ⟨18, 26, 7, 9⟩ = some 5
    ∧ (∃ v2, HashMap.findp
          (step demo_cfg (run demo_cfg State.init [Op.query (demo_query ⟨18, 26, 7, 9⟩ 5)])
            (Op.outbound (demo_fresh 0) (demo_data 1)))._query_seqs ⟨18, 26, 7, 9⟩ = some v2
        ∧ ((⟨18, 26, 7, 9⟩ : IPAddress) ≠ demo_cfg.my_ip → 5 ≤ v2)
        ∧ ((∃ p, Op.outbound (demo_fresh 0) (demo_data 1) = Op.query p) → 5 ≤ v2)
        ∧ ((∃ jiff, Op.outbound (demo_fresh 0) (demo_data 1) = Op.sweep jiff) → v2 = 5)) :=
  ⟨by decide,
    tracker_records_kept demo_cfg
      (run demo_cfg State.init [Op.query (demo_query ⟨18, 26, 7, 9⟩ 5)])
      (Op.outbound (demo_fresh 0) (demo_data 1)) ⟨18, 26, 7, 9⟩ 5 (by decide)⟩

/-- The acceptance test passes exactly when the number the entry stores is greater than the
number the reply carries. -/
theorem accepts_iff_stored_greater (ae : LocEntry) (r : Packet) :
    accepts ae r = true ↔ r.gh.loc_seq_no < ae.loc_seq_no := by
  simp [accepts]

/-- C15 (reply acceptance), evaluated on the code.  The entry of `demo_waiting 5` stores
sequence number 5.  The reply numbered 7, newer than what the entry holds, does not pass the
test and leaves the entry as it was, unresolved; the reply numbered 1, older, passes and is
applied: location, error, validity and number are the reply's, `ok` is set, `polling` is
clear and `last_response_jiffies` is the time of the call. -/
theorem newer_reply_is_rejected :
    accepts (demo_entry 5) (demo_reply 7) = false
    ∧ (handle_reply demo_cfg (demo_fresh 0) 1000 (demo_waiting 5) (demo_reply 7))._map
        (bucket_of demo_cfg demo_D) = [demo_entry 5]
    ∧ accepts (demo_entry 5) (demo_reply 1) = true
    ∧ (handle_reply demo_cfg (demo_fresh 0) 1000 (demo_waiting 5) (demo_reply 1))._map
        (bucket_of demo_cfg demo_D)
      = [{ ip := demo_D, loc := ⟨10, 20⟩, loc_err := 7, loc_good := true, loc_seq_no := 1,
           ok := true, polling := false, last_response_jiffies := 1000, p := none }] := by
  decide

/-- On the two paths of `handle_nbr_encap` that buffer the packet (destination not found,
or found unresolved and not polling), the query that goes out asks for the packet's
destination annotation. -/
theorem query_asks_for_annotation (cfg : Config) (fresh : LocEntry) (s : State) (p : Packet)
    (hg : p.nb.dst_loc_good = false)
    (h : find_entry p.nb.dst_ip (s._map (bucket_of cfg p.nb.dst_ip)) = none
      ∨ ∃ ae, find_entry p.nb.dst_ip (s._map (bucket_of cfg p.nb.dst_ip)) = some ae
          ∧ ae.ok = false ∧ ae.polling = false) :
    ∃ evs n, (handle_nbr_encap cfg fresh s p).log
        = s.log ++ evs ++ [Event.push 1 (make_query cfg n p.dst_ip_anno)]
      ∧ evs.filterMap flood_seq_no = [] := by
  rcases h with h | ⟨ae, h, hok, hpoll⟩
  · rw [handle_nbr_encap_new cfg fresh s p hg h]
    exact ⟨[], s._loc_queries, by simp, rfl⟩
  · unfold handle_nbr_encap
    simp only [hg, Bool.false_eq_true, if_false, h, hok, hpoll]
    cases ae.p with
    | none => exact ⟨[], s._loc_queries, by simp, rfl⟩
    | some old => exact ⟨[Event.kill old], s._loc_queries, by simp, rfl⟩

/-- C16 (the query asks for the entry's destination), evaluated on the code.  A data packet
whose header names `demo_D` as destination and whose destination annotation reads `0.0.0.0`
creates an entry keyed by `demo_D`, but the query that goes out asks for `0.0.0.0`; the
same happens when the entry is found unresolved.  For an entry found resolved and marked
for re-polling, the query asks for the entry's address. -/
theorem query_destination_differs_from_key :
    (handle_nbr_encap demo_cfg (demo_fresh 0) State.init demo_unannotated)._map
        (bucket_of demo_cfg demo_D)
      = [{ demo_fresh 0 with ip := demo_D, p := some demo_unannotated }]
    ∧ (handle_nbr_encap demo_cfg (demo_fresh 0) State.init demo_unannotated).log
      = [Event.push 1 (make_query demo_cfg 0 IPAddress.zero)]
    ∧ (make_query demo_cfg 0 IPAddress.zero).lq.dst_ip ≠ demo_D
    ∧ (handle_nbr_encap demo_cfg (demo_fresh 0)
        (handle_nbr_encap demo_cfg (demo_fresh 0) State.init demo_unannotated)
        demo_unannotated).log
      = [Event.push 1 (make_query demo_cfg 0 IPAddress.zero), Event.kill demo_unannotated,
         Event.push 1 (make_query demo_cfg 1 IPAddress.zero)]
    ∧ (handle_nbr_encap demo_cfg (demo_fresh 0) (run demo_cfg State.init demo_polled_ops)
        demo_unannotated).log
      = (run demo_cfg State.init demo_polled_ops).log
          ++ [Event.push 1 (make_query demo_cfg 1 demo_D),
              Event.push 0 (fill_location demo_cfg demo_polled_entry demo_unannotated),
              Event.kill demo_unannotated] := by
  decide

/-- C17 (re-poll on use).  In every state reached from the initial state, for an entry
found resolved with `polling` set and a data packet without valid location for its address,
`handle_nbr_encap` pushes exactly one query, for the entry's address, on port 1, then the
packet on port 0 with `tx_ip` set to this node's address and the location fields set to the
entry's, and kills the packet handed in; the entry is as before except that `polling` is
clear, so it stays resolved and holds no packet; `_pkts_killed` is unchanged. -/
theorem repoll_on_use (cfg : Config) (ops : List Op) (fresh : LocEntry) (p : Packet)
    (ae : LocEntry) (hg : p.nb.dst_loc_good = false)
    (hf : find_entry p.nb.dst_ip
      ((run cfg State.init ops)._map (bucket_of cfg p.nb.dst_ip)) = some ae)
    (hok : ae.ok = true) (hpoll : ae.polling = true) :
    (handle_nbr_encap cfg fresh (run cfg State.init ops) p).log
        = (run cfg State.init ops).log
            ++ [Event.push 1 (make_query cfg (run cfg State.init ops)._loc_queries ae.ip),
                Event.push 0
                  { p with
                    gh := { p.gh with tx_ip := cfg.my_ip }
                    nb := { p.nb with dst_loc := ae.loc, dst_loc_err := ae.loc_err,
                                      dst_loc_good := ae.loc_good } },
                Event.kill p]
    ∧ (make_query cfg (run cfg State.init ops)._loc_queries ae.ip).lq.dst_ip = ae.ip
    ∧ (∃ e : LocEntry,
        find_entry p.nb.dst_ip
          ((handle_nbr_encap cfg fresh (run cfg State.init ops) p)._map
            (bucket_of cfg p.nb.dst_ip)) = some e
        ∧ e = { ae with polling := false }
        ∧ e.polling = false ∧ e.ok = true ∧ e.p = none)
    ∧ (handle_nbr_encap cfg fresh (run cfg State.init ops) p)._pkts_killed
        = (run cfg State.init ops)._pkts_killed := by
  have hinv := entries_ok_run cfg ops State.init entries_ok_init
  have hp : ae.p = none := resolved_holds_nothing (hinv _ ae (find_entry_mem hf)) hok
  generalize run cfg State.init ops = s at hf ⊢
  refine ⟨?_, rfl, ⟨{ ae with polling := false }, ?_, rfl, rfl, hok, hp⟩, ?_⟩
  · unfold handle_nbr_encap
    simp [hg, hf, hok, hpoll, fill_location, Packet.uniqueify]
  · rw [handle_nbr_encap_map_found cfg fresh s p ae hg hf, if_pos rfl,
      find_entry_modify _ _ _ (nbr_update_ip p), if_pos rfl, hf]
    simp [nbr_update, hok]
  · unfold handle_nbr_encap
    simp [hg, hf, hok, hpoll]

/-- C17 at a concrete input: a data packet for `demo_D` after `demo_polled_ops`. -/
theorem repoll_on_use_witness :
    (demo_data 2).nb.dst_loc_good = false
    ∧ find_entry (demo_data 2).nb.dst_ip
        ((run demo_cfg State.init demo_polled_ops)._map
          (bucket_of demo_cfg (demo_data 2).nb.dst_ip)) = some demo_polled_entry
    ∧ demo_polled_entry.ok = true ∧ demo_polled_entry.polling = true
    ∧ (handle_nbr_encap demo_cfg (demo_fresh 0) (run demo_cfg State.init demo_polled_ops)
          (demo_data 2)).log
        = (run demo_cfg State.init demo_polled_ops).log
            ++ [Event.push 1
                  (make_query demo_cfg (run demo_cfg State.init demo_polled_ops)._loc_queries
                    demo_polled_entry.ip),
                Event.push 0
                  { demo_data 2 with
                    gh := { (demo_data 2).gh with tx_ip := demo_cfg.my_ip }
                    nb := { (demo_data 2).nb with
                            dst_loc := demo_polled_entry.loc
                            dst_loc_err := demo_polled_entry.loc_err
                            dst_loc_good := demo_polled_entry.loc_good } },
                Event.kill (demo_data 2)]
    ∧ (make_query demo_cfg (run demo_cfg State.init demo_polled_ops)._loc_queries
          demo_polled_entry.ip).lq.dst_ip = demo_polled_entry.ip
    ∧ (∃ e : LocEntry,
        find_entry (demo_data 2).nb.dst_ip
          ((handle_nbr_encap demo_cfg (demo_fresh 0) (run demo_cfg State.init demo_polled_ops)
              (demo_data 2))._map (bucket_of demo_cfg (demo_data 2).nb.dst_ip)) = some e
        ∧ e = { demo_polled_entry with polling := false }
        ∧ e.polling = false ∧ e.ok = true ∧ e.p = none)
    ∧ (handle_nbr_encap demo_cfg (demo_fresh 0) (run demo_cfg State.init demo_polled_ops)
          (demo_data 2))._pkts_killed
        = (run demo_cfg State.init demo_polled_ops)._pkts_killed :=
  ⟨rfl, by decide, rfl, rfl,
    repoll_on_use demo_cfg demo_polled_ops (demo_fresh 0) (demo_data 2) demo_polled_entry
      rfl (by decide) rfl rfl⟩

/-- For a reply of at least the minimum size whose destination is found in the table,
`push` on the control input ends with two kills of the reply: the one at the end of
`handle_reply` and the one in `push` itself. -/
theorem push_reply_found_kills_twice (cfg : Config) (fresh : LocEntry) (jiffies : Int)
    (s : State) (port : Nat) (r : Packet) (ae : LocEntry)
    (hport : port ≠ 0) (hq : r.gh.type ≠ cfg.GRID_LOC_QUERY)
    (hr : r.gh.type = cfg.GRID_LOC_REPLY)
    (hlen : cfg.sizeof_click_ether + cfg.sizeof_grid_hdr + cfg.sizeof_grid_nbr_encap ≤ r.length)
    (hf : find_entry r.nb.dst_ip (s._map (bucket_of cfg r.nb.dst_ip)) = some ae) :
    ∃ t evs, push cfg fresh jiffies s port r = some t
      ∧ t.log = s.log ++ evs ++ [Event.kill r, Event.kill r] := by
  unfold push
  rw [if_neg hport, if_neg hq, if_pos hr, handle_reply_found cfg fresh jiffies s r ae hlen hf]
  cases ae.p with
  | none => exact ⟨_, [], rfl, by simp⟩
  | some c =>
    obtain ⟨evs, hl, _⟩ := sent_between_nbr_encap cfg fresh
      (s.set_bucket (bucket_of cfg r.nb.dst_ip)
        (modify_entry r.nb.dst_ip (reply_update jiffies r)
          (s._map (bucket_of cfg r.nb.dst_ip)))) c
    exact ⟨_, evs, rfl, by simp [hl]⟩

/-- C18 (the reply packet is released once), evaluated on the code.  For the reply numbered
1 pushed on the control input in the state `demo_waiting 5`, where its destination is in
the table, the record of effects ends with two kills of the reply.  For a reply whose
destination is not in the table, and for a reply that is too short, there is one kill. -/
theorem known_reply_is_killed_twice :
    (push demo_cfg (demo_fresh 0) 1000 (demo_waiting 5) 1 (demo_reply 1)).map
        (fun t => t.log.count (Event.kill (demo_reply 1))) = some 2
    ∧ (push demo_cfg (demo_fresh 0) 1000 (demo_waiting 5) 1 (demo_reply 1)).map State.log
      = some ((demo_waiting 5).log
          ++ [Event.push 0
                (fill_location demo_cfg (apply_reply 1000 (demo_reply 1) (demo_entry 5))
                  (demo_data 1)),
              Event.kill (demo_data 1), Event.kill (demo_reply 1), Event.kill (demo_reply 1)])
    ∧ (push demo_cfg (demo_fresh 0) 1000 State.init 1 (demo_reply 1)).map State.log
      = some [Event.kill (demo_reply 1)]
    ∧ (push demo_cfg (demo_fresh 0) 1000 (demo_waiting 5) 1 demo_short_reply).map State.log
      = some ((demo_waiting 5).log ++ [Event.kill demo_short_reply]) := by
  decide

/-- C19 (`polling` only on resolved entries).  In every state reached from the
initial state, with its empty table, by any sequence of operations, every entry of the
table that has `polling` set has `ok` set. -/
theorem polling_entries_are_resolved (cfg : Config) (ops : List Op) (i : Nat) (e : LocEntry)
    (he : e ∈ (run cfg State.init ops)._map i) (hp : e.polling = true) : e.ok = true :=
  polling_ok_run cfg ops State.init (by intro i e he; simp [State.init] at he) i e he hp

/-- C19 at a concrete input: the entry for `demo_D` after `demo_polled_ops` has `polling`
set, and is resolved. -/
theorem polling_entries_are_resolved_witness :
    demo_polled_entry ∈ (run demo_cfg State.init demo_polled_ops)._map 0
    ∧ demo_polled_entry.polling = true ∧ demo_polled_entry.ok = true :=
  ⟨by decide, rfl,
    polling_entries_are_resolved demo_cfg demo_polled_ops 0 demo_polled_entry (by decide) rfl⟩

/-- C20 (resolved with an empty slot, or unresolved holding one packet).  In every
state reached from the initial state, with its empty table, by any sequence of operations:
every entry is either resolved and holds no packet, or unresolved and holds one packet,
which is for the entry's address and carries no valid location; a sweep kills no packet,
the entries it removes holding none; and an entry that is found resolved is, if still found
after a further operation, resolved. -/
theorem entry_is_resolved_or_holds_packet (cfg : Config) (ops : List Op) :
    (∀ i e, e ∈ (run cfg State.init ops)._map i →
        (e.ok = true ∧ e.p = none)
        ∨ (e.ok = false
            ∧ ∃ P, e.p = some P ∧ P.nb.dst_ip = e.ip ∧ P.nb.dst_loc_good = false))
    ∧ (∀ jiff, (expire_hook cfg jiff (run cfg State.init ops)).log
        = (run cfg State.init ops).log ++ [Event.schedule_expire])
    ∧ (∀ op a e e2,
        find_entry a ((run cfg State.init ops)._map (bucket_of cfg a)) = some e →
        e.ok = true →
        find_entry a ((step cfg (run cfg State.init ops) op)._map (bucket_of cfg a)) = some e2 →
        e2.ok = true) := by
  have h1 := entries_ok_run cfg ops State.init entries_ok_init
  have h2 := chain_ok_run cfg ops State.init (chain_ok_init cfg)
  refine ⟨h1, ?_, ?_⟩
  · intro jiff
    exact expire_hook_log_quiet cfg jiff _ h1
  · intro op a e e2 hf hok hf2
    exact resolved_stays_resolved cfg _ h2 op a e e2 hf hok hf2

/-- C20 at a concrete input: after two data packets for `demo_D`, the entry is unresolved
and holds the second packet. -/
theorem entry_is_resolved_or_holds_packet_witness :
    { demo_entry 0 with p := some (demo_data 2) }
        ∈ (run demo_cfg State.init
            [Op.outbound (demo_fresh 0) (demo_data 1),
             Op.outbound (demo_fresh 0) (demo_data 2)])._map 0
    ∧ ((({ demo_entry 0 with p := some (demo_data 2) } : LocEntry).ok = true
          ∧ ({ demo_entry 0 with p := some (demo_data 2) } : LocEntry).p = none)
        ∨ (({ demo_entry 0 with p := some (demo_data 2) } : LocEntry).ok = false
          ∧ ∃ P, ({ demo_entry 0 with p := some (demo_data 2) } : LocEntry).p = some P
              ∧ P.nb.dst_ip = ({ demo_entry 0 with p := some (demo_data 2) } : LocEntry).ip
              ∧ P.nb.dst_loc_good = false)) :=
  ⟨by decide,
    (entry_is_resolved_or_holds_packet demo_cfg
      [Op.outbound (demo_fresh 0) (demo_data 1), Op.outbound (demo_fresh 0) (demo_data 2)]).1
      0 { demo_entry 0 with p := some (demo_data 2) } (by decide)⟩

/-- A packet without valid location whose destination is found unresolved, not polling and
with an empty slot is buffered without a kill, and one query goes out. -/
theorem handle_nbr_encap_rebuffer (cfg : Config) (fresh : LocEntry) (t : State) (c : Packet)
    (x : LocEntry) (hg : c.nb.dst_loc_good = false)
    (hf : find_entry c.nb.dst_ip (t._map (bucket_of cfg c.nb.dst_ip)) = some x)
    (hok : x.ok = false) (hpoll : x.polling = false) (hp : x.p = none) :
    (handle_nbr_encap cfg fresh t c).log
        = t.log ++ [Event.push 1 (make_query cfg t._loc_queries c.dst_ip_anno)]
    ∧ (handle_nbr_encap cfg fresh t c)._loc_queries = t._loc_queries + 1
    ∧ (handle_nbr_encap cfg fresh t c)._pkts_killed = t._pkts_killed := by
  unfold handle_nbr_encap
  simp only [hg, Bool.false_eq_true, if_false, hf, hok, hpoll, hp, kill_old_none]
  exact ⟨rfl, rfl, rfl⟩

/-- C21 (a reply that is not accepted re-buffers the packet).  In every state reached from
the initial state by any sequence of operations, for an entry found for the reply's
destination that is unresolved and holds a packet `P`, and a reply of at least the minimum
size that does not pass the acceptance test, `handle_reply` pushes nothing on port 0 and
exactly one new query on port 1, carrying the current counter value, and kills the reply;
the entry is as before, unresolved and holding `P`; the counter has grown by one and
`_pkts_killed` is unchanged. -/
theorem rejected_reply_rebuffers (cfg : Config) (ops : List Op) (fresh : LocEntry)
    (jiffies : Int) (r : Packet) (ae : LocEntry) (P : Packet)
    (hlen : cfg.sizeof_click_ether + cfg.sizeof_grid_hdr + cfg.sizeof_grid_nbr_encap ≤ r.length)
    (hf : find_entry r.nb.dst_ip
      ((run cfg State.init ops)._map (bucket_of cfg r.nb.dst_ip)) = some ae)
    (hok : ae.ok = false) (hp : ae.p = some P)
    (hrej : accepts ae r = false) :
    (handle_reply cfg fresh jiffies (run cfg State.init ops) r).log
        = (run cfg State.init ops).log
            ++ [Event.push 1
                  (make_query cfg (run cfg State.init ops)._loc_queries P.dst_ip_anno),
                Event.kill r]
    ∧ (∃ e : LocEntry,
        find_entry r.nb.dst_ip
          ((handle_reply cfg fresh jiffies (run cfg State.init ops) r)._map
            (bucket_of cfg r.nb.dst_ip)) = some e
        ∧ e = ae ∧ e.ok = false ∧ e.p = some P)
    ∧ (handle_reply cfg fresh jiffies (run cfg State.init ops) r)._loc_queries
        = (run cfg State.init ops)._loc_queries + 1
    ∧ (handle_reply cfg fresh jiffies (run cfg State.init ops) r)._pkts_killed
        = (run cfg State.init ops)._pkts_killed := by
  have hmem := find_entry_mem hf
  obtain ⟨hPd, hPg⟩ :=
    buffered_ok_run cfg ops State.init buffered_ok_init _ ae hmem P hp
  have hpoll : ae.polling = false := by
    cases hb : ae.polling with
    | false => rfl
    | true =>
      have := polling_ok_run cfg ops State.init
        (by intro i e he; simp [State.init] at he) _ ae hmem hb
      rw [hok] at this
      exact Bool.noConfusion this
  have hip : ae.ip = r.nb.dst_ip := find_entry_ip hf
  have hPd2 : P.nb.dst_ip = r.nb.dst_ip := hPd.trans hip
  generalize run cfg State.init ops = s at hf ⊢
  have hfix : nbr_update P (reply_update jiffies r ae) = ae := by
    rw [reply_update_rejected _ _ _ hrej]
    cases ae
    simp at hok hp hpoll
    simp [nbr_update, hok, hp, hpoll]
  have hmap := handle_reply_map_resubmit cfg fresh jiffies s r ae P hlen hf hp hPd2 hPg
  have hf1 : find_entry P.nb.dst_ip
      ((s.set_bucket (bucket_of cfg r.nb.dst_ip)
          (modify_entry r.nb.dst_ip (reply_update jiffies r)
            (s._map (bucket_of cfg r.nb.dst_ip))))._map (bucket_of cfg P.nb.dst_ip))
      = some (reply_update jiffies r ae) := by
    rw [hPd2]
    simp [find_entry_modify, hf]
  have hru : reply_update jiffies r ae = { ae with p := none } :=
    reply_update_rejected _ _ _ hrej
  have hx : (reply_update jiffies r ae).ok = false
      ∧ (reply_update jiffies r ae).polling = false ∧ (reply_update jiffies r ae).p = none := by
    rw [hru]
    exact ⟨hok, hpoll, rfl⟩
  obtain ⟨hl, hc, hk⟩ := handle_nbr_encap_rebuffer cfg fresh _ P _ hPg hf1 hx.1 hx.2.1 hx.2.2
  refine ⟨?_, ⟨ae, ?_, rfl, hok, hp⟩, ?_, ?_⟩
  · rw [handle_reply_found cfg fresh jiffies s r ae hlen hf, hp]
    simp only [emit_log, hl, set_bucket_log, set_bucket_loc_queries, List.append_assoc,
      List.singleton_append]
  · rw [hmap, set_bucket_map, if_pos rfl, find_entry_modify _ _ _ (by simp), if_pos rfl, hf]
    simp [hfix]
  · rw [handle_reply_found cfg fresh jiffies s r ae hlen hf, hp]
    simp only [emit_loc_queries, hc, set_bucket_loc_queries]
  · rw [handle_reply_found cfg fresh jiffies s r ae hlen hf, hp]
    simp only [emit_pkts_killed, hk, set_bucket_pkts_killed]

/-- C21 at a concrete input: after one data packet for `demo_D` (the new entry's stored
number reading 5), the reply numbered 7, which does not pass the test `5 > 7`. -/
theorem rejected_reply_rebuffers_witness :
    demo_cfg.sizeof_click_ether + demo_cfg.sizeof_grid_hdr + demo_cfg.sizeof_grid_nbr_encap
        ≤ (demo_reply 7).length
    ∧ find_entry (demo_reply 7).nb.dst_ip
        ((run demo_cfg State.init [Op.outbound (demo_fresh 5) (demo_data 1)])._map
          (bucket_of demo_cfg (demo_reply 7).nb.dst_ip)) = some (demo_entry 5)
    ∧ (demo_entry 5).ok = false
    ∧ (demo_entry 5).p = some (demo_data 1)
    ∧ accepts (demo_entry 5) (demo_reply 7) = false
    ∧ (handle_reply demo_cfg (demo_fresh 0) 1000
          (run demo_cfg State.init [Op.outbound (demo_fresh 5) (demo_data 1)])
          (demo_reply 7)).log
        = (run demo_cfg State.init [Op.outbound (demo_fresh 5) (demo_data 1)]).log
            ++ [Event.push 1
                  (make_query demo_cfg
                    (run demo_cfg State.init
                      [Op.outbound (demo_fresh 5) (demo_data 1)])._loc_queries
                    (demo_data 1).dst_ip_anno),
                Event.kill (demo_reply 7)]
    ∧ (∃ e : LocEntry,
        find_entry (demo_reply 7).nb.dst_ip
          ((handle_reply demo_cfg (demo_fresh 0) 1000
              (run demo_cfg State.init [Op.outbound (demo_fresh 5) (demo_data 1)])
              (demo_reply 7))._map
            (bucket_of demo_cfg (demo_reply 7).nb.dst_ip)) = some e
        ∧ e = demo_entry 5 ∧ e.ok = false ∧ e.p = some (demo_data 1))
    ∧ (handle_reply demo_cfg (demo_fresh 0) 1000
          (run demo_cfg State.init [Op.outbound (demo_fresh 5) (demo_data 1)])
          (demo_reply 7))._loc_queries
        = (run demo_cfg State.init [Op.outbound (demo_fresh 5) (demo_data 1)])._loc_queries + 1
    ∧ (handle_reply demo_cfg (demo_fresh 0) 1000
          (run demo_cfg State.init [Op.outbound (demo_fresh 5) (demo_data 1)])
          (demo_reply 7))._pkts_killed
        = (run demo_cfg State.init [Op.outbound (demo_fresh 5) (demo_data 1)])._pkts_killed :=
  ⟨by decide, by decide, rfl, rfl, by decide,
    rejected_reply_rebuffers demo_cfg [Op.outbound (demo_fresh 5) (demo_data 1)]
      (demo_fresh 0) 1000 (demo_reply 7) (demo_entry 5) (demo_data 1)
      (by decide) (by decide) rfl rfl (by decide)⟩

/-! ### The second application of a reply -/

/-- What `handle_reply` does, in a state where unresolved entries are not polling and
buffered packets are for their entry's address without valid location, with a reply that
does not pass the acceptance test and an unresolved entry that holds a packet: one query,
the kill of the reply, and the entry as before. -/
theorem handle_reply_rejected_unresolved (cfg : Config) (fresh : LocEntry) (jiffies : Int)
    (s : State) (r : Packet) (ae : LocEntry) (P : Packet)
    (hpol : polling_ok s) (hbuf : buffered_ok s)
    (hlen : cfg.sizeof_click_ether + cfg.sizeof_grid_hdr + cfg.sizeof_grid_nbr_encap ≤ r.length)
    (hf : find_entry r.nb.dst_ip (s._map (bucket_of cfg r.nb.dst_ip)) = some ae)
    (hok : ae.ok = false) (hp : ae.p = some P)
    (hrej : accepts ae r = false) :
    (handle_reply cfg fresh jiffies s r).log
        = s.log ++ [Event.push 1 (make_query cfg s._loc_queries P.dst_ip_anno), Event.kill r]
    ∧ find_entry r.nb.dst_ip
        ((handle_reply cfg fresh jiffies s r)._map (bucket_of cfg r.nb.dst_ip)) = some ae
    ∧ (handle_reply cfg fresh jiffies s r)._loc_queries = s._loc_queries + 1
    ∧ (handle_reply cfg fresh jiffies s r)._pkts_killed = s._pkts_killed := by
  have hmem := find_entry_mem hf
  obtain ⟨hPd, hPg⟩ := hbuf _ ae hmem P hp
  have hpoll : ae.polling = false := by
    cases hb : ae.polling with
    | false => rfl
    | true =>
      have := hpol _ ae hmem hb
      rw [hok] at this
      exact Bool.noConfusion this
  have hip : ae.ip = r.nb.dst_ip := find_entry_ip hf
  have hPd2 : P.nb.dst_ip = r.nb.dst_ip := hPd.trans hip
  have hfix : nbr_update P (reply_update jiffies r ae) = ae := by
    rw [reply_update_rejected _ _ _ hrej]
    cases ae
    simp at hok hp hpoll
    simp [nbr_update, hok, hp, hpoll]
  have hmap := handle_reply_map_resubmit cfg fresh jiffies s r ae P hlen hf hp hPd2 hPg
  have hf1 : find_entry P.nb.dst_ip
      ((s.set_bucket (bucket_of cfg r.nb.dst_ip)
          (modify_entry r.nb.dst_ip (reply_update jiffies r)
            (s._map (bucket_of cfg r.nb.dst_ip))))._map (bucket_of cfg P.nb.dst_ip))
      = some (reply_update jiffies r ae) := by
    rw [hPd2]
    simp [find_entry_modify, hf]
  have hru : reply_update jiffies r ae = { ae with p := none } :=
    reply_update_rejected _ _ _ hrej
  have hx : (reply_update jiffies r ae).ok = false
      ∧ (reply_update jiffies r ae).polling = false ∧ (reply_update jiffies r ae).p = none := by
    rw [hru]
    exact ⟨hok, hpoll, rfl⟩
  obtain ⟨hl, hc, hk⟩ := handle_nbr_encap_rebuffer cfg fresh _ P _ hPg hf1 hx.1 hx.2.1 hx.2.2
  refine ⟨?_, ?_, ?_, ?_⟩
  · rw [handle_reply_found cfg fresh jiffies s r ae hlen hf, hp]
    simp only [emit_log, hl, set_bucket_log, set_bucket_loc_queries, List.append_assoc,
      List.singleton_append]
  · rw [hmap, set_bucket_map, if_pos rfl, find_entry_modify _ _ _ (by simp), if_pos rfl, hf]
    simp [hfix]
  · rw [handle_reply_found cfg fresh jiffies s r ae hlen hf, hp]
    simp only [emit_loc_queries, hc, set_bucket_loc_queries]
  · rw [handle_reply_found cfg fresh jiffies s r ae hlen hf, hp]
    simp only [emit_pkts_killed, hk, set_bucket_pkts_killed]

/-- After `handle_reply` in a reachable state, an entry found unresolved for the reply's
destination holds a packet, and the same reply handed in again is answered by one more
query while the entry stays as it is. -/
theorem repeated_reply_unresolved (cfg : Config) (fresh1 fresh2 : LocEntry) (j1 j2 : Int)
    (ops : List Op) (r : Packet)
    (hlen : cfg.sizeof_click_ether + cfg.sizeof_grid_hdr + cfg.sizeof_grid_nbr_encap ≤ r.length)
    (e : LocEntry)
    (he : find_entry r.nb.dst_ip
      ((handle_reply cfg fresh1 j1 (run cfg State.init ops) r)._map
        (bucket_of cfg r.nb.dst_ip)) = some e)
    (hok : e.ok = false) :
    ∃ P, e.p = some P
      ∧ (handle_reply cfg fresh2 j2 (handle_reply cfg fresh1 j1 (run cfg State.init ops) r) r).log
          = (handle_reply cfg fresh1 j1 (run cfg State.init ops) r).log
              ++ [Event.push 1
                    (make_query cfg
                      (handle_reply cfg fresh1 j1 (run cfg State.init ops) r)._loc_queries
                      P.dst_ip_anno),
                  Event.kill r]
      ∧ find_entry r.nb.dst_ip
          ((handle_reply cfg fresh2 j2
              (handle_reply cfg fresh1 j1 (run cfg State.init ops) r) r)._map
            (bucket_of cfg r.nb.dst_ip)) = some e := by
  have hpol := polling_ok_reply cfg fresh1 j1 _ r
    (polling_ok_run cfg ops State.init (by intro i e he; simp [State.init] at he))
  have hbuf := buffered_ok_reply cfg fresh1 j1 _ r
    (buffered_ok_run cfg ops State.init buffered_ok_init)
  have hent := entries_ok_reply cfg fresh1 j1 _ r
    (entries_ok_run cfg ops State.init entries_ok_init)
  have hacc : accepts e r = false := by
    cases hfs : find_entry r.nb.dst_ip
        ((run cfg State.init ops)._map (bucket_of cfg r.nb.dst_ip)) with
    | none =>
      rw [handle_reply_unknown cfg fresh1 j1 _ r hfs, hfs] at he
      exact Option.noConfusion he
    | some ae =>
      obtain ⟨e1, hf1, hacc1, _⟩ := handle_reply_find cfg fresh1 j1 _ r ae hlen hfs
      rw [he] at hf1
      cases hf1
      exact hacc1
  generalize handle_reply cfg fresh1 j1 (run cfg State.init ops) r = s1 at he hpol hbuf hent ⊢
  rcases hent _ e (find_entry_mem he) with ⟨hyes, _⟩ | ⟨_, P, hP, _, _⟩
  · rw [hok] at hyes
    exact Bool.noConfusion hyes
  · obtain ⟨hl, hfe, _, _⟩ :=
      handle_reply_rejected_unresolved cfg fresh2 j2 s1 r e P hpol hbuf hlen he hok hP hacc
    exact ⟨P, hP, hl, hfe⟩

/-- C7, amended.  For every state and every reply of at least the minimum size, handed
to `handle_reply` twice in a row: the second application pushes nothing on port 0, so the
buffered packet is dispatched at most once; if after the first application the reply's
destination has no entry or a resolved one, then that entry holds no packet and the second
application changes neither the table, nor `_query_seqs`, nor the counters, and adds
nothing to the record of effects but the kill of the reply; and if the state is one
reached from the initial state by a sequence of operations and the first application
leaves the entry unresolved, then the entry holds a packet, and the second application
pushes exactly one further query on port 1, kills the reply and leaves the entry as it is,
holding that packet. -/
theorem repeated_reply_second_application (cfg : Config) (fresh1 fresh2 : LocEntry)
    (j1 j2 : Int) (s : State) (r : Packet)
    (hlen : cfg.sizeof_click_ether + cfg.sizeof_grid_hdr + cfg.sizeof_grid_nbr_encap ≤ r.length) :
    (∃ evs, (handle_reply cfg fresh2 j2 (handle_reply cfg fresh1 j1 s r) r).log
        = (handle_reply cfg fresh1 j1 s r).log ++ evs ∧ no_port0 evs)
    ∧ ((∀ e, find_entry r.nb.dst_ip
          ((handle_reply cfg fresh1 j1 s r)._map (bucket_of cfg r.nb.dst_ip)) = some e →
          e.ok = true) →
        (∀ e, find_entry r.nb.dst_ip
          ((handle_reply cfg fresh1 j1 s r)._map (bucket_of cfg r.nb.dst_ip)) = some e →
          e.p = none)
        ∧ (handle_reply cfg fresh2 j2 (handle_reply cfg fresh1 j1 s r) r)._map
            = (handle_reply cfg fresh1 j1 s r)._map
        ∧ (handle_reply cfg fresh2 j2 (handle_reply cfg fresh1 j1 s r) r)._query_seqs
            = (handle_reply cfg fresh1 j1 s r)._query_seqs
        ∧ (handle_reply cfg fresh2 j2 (handle_reply cfg fresh1 j1 s r) r)._loc_queries
            = (handle_reply cfg fresh1 j1 s r)._loc_queries
        ∧ (handle_reply cfg fresh2 j2 (handle_reply cfg fresh1 j1 s r) r)._pkts_killed
            = (handle_reply cfg fresh1 j1 s r)._pkts_killed
        ∧ ((handle_reply cfg fresh2 j2 (handle_reply cfg fresh1 j1 s r) r).log
              = (handle_reply cfg fresh1 j1 s r).log
            ∨ (handle_reply cfg fresh2 j2 (handle_reply cfg fresh1 j1 s r) r).log
              = (handle_reply cfg fresh1 j1 s r).log ++ [Event.kill r]))
    ∧ (∀ ops, s = run cfg State.init ops →
        ∀ e, find_entry r.nb.dst_ip
          ((handle_reply cfg fresh1 j1 s r)._map (bucket_of cfg r.nb.dst_ip)) = some e →
        e.ok = false →
        ∃ P, e.p = some P
          ∧ (handle_reply cfg fresh2 j2 (handle_reply cfg fresh1 j1 s r) r).log
              = (handle_reply cfg fresh1 j1 s r).log
                  ++ [Event.push 1
                        (make_query cfg (handle_reply cfg fresh1 j1 s r)._loc_queries
                          P.dst_ip_anno),
                      Event.kill r]
          ∧ find_entry r.nb.dst_ip
              ((handle_reply cfg fresh2 j2 (handle_reply cfg fresh1 j1 s r) r)._map
                (bucket_of cfg r.nb.dst_ip)) = some e) := by
  obtain ⟨h1, h2⟩ := repeated_reply_any_state cfg fresh1 fresh2 j1 j2 s r hlen
  refine ⟨h1, h2, ?_⟩
  intro ops hs e he hok
  subst hs
  exact repeated_reply_unresolved cfg fresh1 fresh2 j1 j2 ops r hlen e he hok

/-- C7 (amended) at concrete inputs: the reply numbered 1 applied twice to `demo_waiting 5`,
where the first application resolves the entry and the second only kills the reply; and the
reply numbered 0 applied twice to `demo_waiting 0`, where the first application leaves the
entry unresolved and the second pushes one further query and leaves the entry holding its
packet. -/
theorem repeated_reply_second_application_witness :
    demo_cfg.sizeof_click_ether + demo_cfg.sizeof_grid_hdr + demo_cfg.sizeof_grid_nbr_encap
        ≤ (demo_reply 1).length
    ∧ (∀ e, find_entry (demo_reply 1).nb.dst_ip
        ((handle_reply demo_cfg (demo_fresh 0) 1000 (demo_waiting 5) (demo_reply 1))._map
          (bucket_of demo_cfg (demo_reply 1).nb.dst_ip)) = some e →
        e.ok = true)
    ∧ (∃ evs, (handle_reply demo_cfg (demo_fresh 0) 2000
          (handle_reply demo_cfg (demo_fresh 0) 1000 (demo_waiting 5) (demo_reply 1))
          (demo_reply 1)).log
        = (handle_reply demo_cfg (demo_fresh 0) 1000 (demo_waiting 5) (demo_reply 1)).log
            ++ evs ∧ no_port0 evs)
    ∧ ((∀ e, find_entry (demo_reply 1).nb.dst_ip
        ((handle_reply demo_cfg (demo_fresh 0) 1000 (demo_waiting 5) (demo_reply 1))._map
          (bucket_of demo_cfg (demo_reply 1).nb.dst_ip)) = some e →
        e.p = none)
    ∧ (handle_reply demo_cfg (demo_fresh 0) 2000
          (handle_reply demo_cfg (demo_fresh 0) 1000 (demo_waiting 5) (demo_reply 1))
          (demo_reply 1))._map
        = (handle_reply demo_cfg (demo_fresh 0) 1000 (demo_waiting 5) (demo_reply 1))._map
    ∧ (handle_reply demo_cfg (demo_fresh 0) 2000
          (handle_reply demo_cfg (demo_fresh 0) 1000 (demo_waiting 5) (demo_reply 1))
          (demo_reply 1))._query_seqs
        = (handle_reply demo_cfg (demo_fresh 0) 1000 (demo_waiting 5) (demo_reply 1))._query_seqs
    ∧ (handle_reply demo_cfg (demo_fresh 0) 2000
          (handle_reply demo_cfg (demo_fresh 0) 1000 (demo_waiting 5) (demo_reply 1))
          (demo_reply 1))._loc_queries
        = (handle_reply demo_cfg (demo_fresh 0) 1000 (demo_waiting 5) (demo_reply 1))._loc_queries
    ∧ (handle_reply demo_cfg (demo_fresh 0) 2000
          (handle_reply demo_cfg (demo_fresh 0) 1000 (demo_waiting 5) (demo_reply 1))
          (demo_reply 1))._pkts_killed
        = (handle_reply demo_cfg (demo_fresh 0) 1000 (demo_waiting 5) (demo_reply 1))._pkts_killed
    ∧ ((handle_reply demo_cfg (demo_fresh 0) 2000
          (handle_reply demo_cfg (demo_fresh 0) 1000 (demo_waiting 5) (demo_reply 1))
          (demo_reply 1)).log
          = (handle_reply demo_cfg (demo_fresh 0) 1000 (demo_waiting 5) (demo_reply 1)).log
        ∨ (handle_reply demo_cfg (demo_fresh 0) 2000
          (handle_reply demo_cfg (demo_fresh 0) 1000 (demo_waiting 5) (demo_reply 1))
          (demo_reply 1)).log
          = (handle_reply demo_cfg (demo_fresh 0) 1000 (demo_waiting 5) (demo_reply 1)).log
              ++ [Event.kill (demo_reply 1)]))
    ∧ demo_waiting 0 = run demo_cfg State.init [Op.outbound (demo_fresh 0) (demo_data 1)]
    ∧ find_entry (demo_reply 0).nb.dst_ip
        ((handle_reply demo_cfg (demo_fresh 0) 1000 (demo_waiting 0) (demo_reply 0))._map
          (bucket_of demo_cfg (demo_reply 0).nb.dst_ip)) = some (demo_entry 0)
    ∧ (demo_entry 0).ok = false
    ∧ (∃ P, (demo_entry 0).p = some P
        ∧ (handle_reply demo_cfg (demo_fresh 0) 2000
            (handle_reply demo_cfg (demo_fresh 0) 1000 (demo_waiting 0) (demo_reply 0))
            (demo_reply 0)).log
          = (handle_reply demo_cfg (demo_fresh 0) 1000 (demo_waiting 0) (demo_reply 0)).log
              ++ [Event.push 1
                    (make_query demo_cfg
                      (handle_reply demo_cfg (demo_fresh 0) 1000 (demo_waiting 0)
                        (demo_reply 0))._loc_queries
                      P.dst_ip_anno),
                  Event.kill (demo_reply 0)]
        ∧ find_entry (demo_reply 0).nb.dst_ip
            ((handle_reply demo_cfg (demo_fresh 0) 2000
                (handle_reply demo_cfg (demo_fresh 0) 1000 (demo_waiting 0) (demo_reply 0))
                (demo_reply 0))._map
              (bucket_of demo_cfg (demo_reply 0).nb.dst_ip)) = some (demo_entry 0)) :=
  have hfound : find_entry (demo_reply 1).nb.dst_ip
      ((handle_reply demo_cfg (demo_fresh 0) 1000 (demo_waiting 5) (demo_reply 1))._map
        (bucket_of demo_cfg (demo_reply 1).nb.dst_ip))
      = some { apply_reply 1000 (demo_reply 1) (demo_entry 5) with p := none } := by decide
  have hres : ∀ e, find_entry (demo_reply 1).nb.dst_ip
      ((handle_reply demo_cfg (demo_fresh 0) 1000 (demo_waiting 5) (demo_reply 1))._map
        (bucket_of demo_cfg (demo_reply 1).nb.dst_ip)) = some e → e.ok = true := by
    intro e he
    rw [hfound] at he
    cases he
    rfl
  ⟨by decide, hres,
    (repeated_reply_second_application demo_cfg (demo_fresh 0) (demo_fresh 0) 1000 2000
      (demo_waiting 5) (demo_reply 1) (by decide)).1,
    (repeated_reply_second_application demo_cfg (demo_fresh 0) (demo_fresh 0) 1000 2000
      (demo_waiting 5) (demo_reply 1) (by decide)).2.1 hres,
    rfl, by decide, rfl,
    (repeated_reply_second_application demo_cfg (demo_fresh 0) (demo_fresh 0) 1000 2000
      (demo_waiting 0) (demo_reply 0) (by decide)).2.2
      [Op.outbound (demo_fresh 0) (demo_data 1)] rfl (demo_entry 0) (by decide) rfl⟩

end FloodingLocQuerier
